import Mathlib

/-! # dawsMbedBLE, central (client) side

A shallow embedding of the client half of the DAWS Bluetooth LE accessory
protocol: the table of scanned peers (`BLERemDev::_bleCon`), the connection
state machine of `BLERemDev`, and the per accessory objects
(`DiscoveredAccCli` / `RemAccessory`).

Conventions of the embedding

* Objects are records, the static members of `BLERemDev` and the callback
  registrations of `BLEcore` are fields of one system state `Sys`.
* Pointers to reporters (`_remAcc`, `_firstRemAcc`) are positions in the
  reporter chain, `none` is `nullptr`.  A function that dereferences a
  pointer returns `Option`; `none` is the outcome of dereferencing an invalid
  pointer.
* Every call made to the mbed BLE stack is appended to `Sys.ops`; what the
  stack answers (a `ble_error_t`) is an argument of the embedded function.
* Every `queueReport` is appended to `Sys.events`.
* Byte strings (Arduino `String`, `char` buffers, payloads) are `List Nat`.
* The reporter chain of `dawsReporter.h` is a list in registration order; a
  new reporter is registered at its end.
-/

namespace Daws

/-! ## Constants -/

/-- Embedding of `BLE_ERROR_NONE` of the mbed BLE API. -/
def BLE_ERROR_NONE : Nat := 0

/-- Embedding of `GattAttribute::INVALID_HANDLE` of the mbed BLE API. -/
def INVALID_HANDLE : Nat := 0

/-- Embedding of `MAX_REMOTE_CON` of `dawsBLERemDev.h`: number of remote connections. -/
def MAX_REMOTE_CON : Nat := 5

/-- Embedding of `MAX_ID_SIZE` of `dawsBLE.h`: maximum size for identifier strings. -/
def MAX_ID_SIZE : Nat := 10

/-- The value of `ble::local_disconnection_reason_t::USER_TERMINATION` in the
mbed BLE API. -/
def USER_TERMINATION : Nat := 0x13

/-- The enumerators of `daws.h` that the client code names.  The header is not
among the sources, so their values are parameters of the embedding. -/
structure DawsConsts where
  P_UNAVAIL : Nat
  POINT_NORMAL : Nat
  POINT_REVERSE : Nat
deriving DecidableEq, Repr

/-! ## Data model -/

/-- Embedding of `RemDevState_t` of `dawsBLE.h`. -/
inductive RemDevState_t where
  | CS_INITIAL
  | CS_CONNECTABLE
  | CS_CON_FIRST
  | CS_CON_DISC
  | CS_CON_INIT
  | CS_RECON_INIT
  | CS_CONNECTED
  | CS_DISCONNECTING
  | CS_DISCON
  | CS_ERR
deriving DecidableEq, Repr

open RemDevState_t

/-- The mbed `UUID`: a 16 bit short form or sixteen bytes, least significant
byte first.  Two UUIDs are equal when they have the same form and value. -/
inductive UUID where
  | short (v : Nat)
  | long (bytes : List Nat)
deriving DecidableEq, Repr

/-- The mbed `DiscoveredCharacteristic`, as far as the client code reads it. -/
structure DiscoveredCharacteristic where
  uuid : UUID
  connHandle : Nat
  declHandle : Nat
  valueHandle : Nat
  lastHandle : Nat
  props : Nat
deriving DecidableEq, Repr

/-- A default constructed `DiscoveredCharacteristic`. -/
def DiscoveredCharacteristic.empty : DiscoveredCharacteristic :=
  { uuid := UUID.short 0, connHandle := 0, declHandle := INVALID_HANDLE,
    valueHandle := INVALID_HANDLE, lastHandle := INVALID_HANDLE, props := 0 }

/-- The event types passed to `queueReport` by the client code. -/
inductive EventType where
  | BLE_PEER_FOUND
  | BLE_SERVICES_AVAIL
  | BLE_CONNECTED
  | BLE_DISCONNECTED
  | BLE_SCAN_START
  | BLE_SCAN_DONE
  | RA_DISCOVERED
  | RA_CONNECTED
  | RA_DISCONNECTED
  | RA_STATE_CHANGE
deriving DecidableEq, Repr

open EventType

/-- Who queued a report: the BLE core or the reporter at a position of the
reporter chain. -/
inductive Source where
  | core
  | reporter (idx : Nat)
deriving DecidableEq, Repr

/-- One queued report. -/
structure Report where
  src : Source
  type : EventType
  info : Int
deriving DecidableEq, Repr

/-- A request handed to the mbed BLE stack. -/
inductive Op where
  | gapConnect (addrType : Nat) (addr : List Nat)
  | gapDisconnect (ch : Nat) (reason : Nat)
  | launchServiceDiscovery (ch : Nat)
  | read (ch : Nat) (handle : Nat)
  | write (ch : Nat) (handle : Nat) (data : List Nat)
  | discoverDescriptors (ch : Nat) (handle : Nat)
deriving DecidableEq, Repr

/-- A `RemAccessory` object with the members it inherits from
`DiscoveredAccCli`.  `_descripsDoneCB` holds the index of the `BLERemDev`
record whose `_descripsDone` it is bound to; `hvxCallbacks` counts the
registrations of `_dataChange` with the GATT client. -/
structure RemAccessory where
  _serviceUUID : UUID
  _connHandle : Nat
  _idDC : DiscoveredCharacteristic
  _stateDC : DiscoveredCharacteristic
  _commandDC : DiscoveredCharacteristic
  _stateCCCDHandle : Nat
  _remAccId : List Nat
  _cmd : Nat
  _reportedState : Nat
  _descripsDoneCB : Option Nat
  hvxCallbacks : Nat
deriving DecidableEq, Repr

/-- The members that `RemAccessory(ch, uuid)` leaves uninitialised. -/
structure Indeterminate where
  stateCCCDHandle : Nat
  remAccId : List Nat
  cmd : Nat
deriving DecidableEq, Repr

/-- The constructor `RemAccessory::RemAccessory(ch, uuid)`. -/
def RemAccessory.mk_ch_uuid (K : DawsConsts) (ch : Nat) (uuid : UUID)
    (u : Indeterminate) : RemAccessory :=
  { _serviceUUID := uuid, _connHandle := ch,
    _idDC := DiscoveredCharacteristic.empty,
    _stateDC := DiscoveredCharacteristic.empty,
    _commandDC := DiscoveredCharacteristic.empty,
    _stateCCCDHandle := u.stateCCCDHandle,
    _remAccId := u.remAccId,
    _cmd := u.cmd,
    _reportedState := K.P_UNAVAIL,
    _descripsDoneCB := none,
    hvxCallbacks := 0 }

/-! ## `RemAccessory` and `DiscoveredAccCli` operations on one object

Each returns the calls made to the stack next to the new object. -/

/-- Embedding of `DiscoveredAccCli::writeCommand`: one write of the byte `cmd`
(the parameter is a `uint8_t`) to the value handle of the command
characteristic; `bleErr` is the answer of the stack. -/
def writeCommand (a : RemAccessory) (cmd : Nat) (bleErr : Nat) : Bool × List Op :=
  (bleErr == BLE_ERROR_NONE,
   [Op.write a._commandDC.connHandle a._commandDC.valueHandle [cmd % 256]])

/-- Embedding of `RemAccessory::setPoint`. -/
def setPoint (K : DawsConsts) (a : RemAccessory) (pCom : Nat) (bleErr : Nat) :
    Bool × RemAccessory × List Op :=
  if a._reportedState = K.P_UNAVAIL then
    (false, a, [])
  else if pCom = K.POINT_NORMAL ∨ pCom = K.POINT_REVERSE then
    let a1 := { a with _cmd := pCom }
    let r := writeCommand a1 pCom bleErr
    (r.1, a1, r.2)
  else
    (false, a, [])

/-- Embedding of `RemAccessory::setState`. -/
def setState (a : RemAccessory) (newState : Nat) : RemAccessory :=
  { a with _reportedState := newState }

/-- Embedding of `RemAccessory::getState`. -/
def getState (a : RemAccessory) : Nat := a._reportedState

/-- Embedding of `RemAccessory::getRemAccId`: the identity buffer. -/
def getRemAccId (a : RemAccessory) : List Nat := a._remAccId

/-- The C string held in a `char` buffer: the bytes before the first NUL. -/
def cstr (buf : List Nat) : List Nat := buf.takeWhile (fun b => b != 0)

/-- Embedding of the comparison `a != b` of two Arduino `String` objects (the
class is not part of the repository) on the bytes they hold: `String::equals`
is `len == s2.len && strcmp(buffer, s2.buffer) == 0`, so two strings of the
same length that agree up to their first NUL are equal. -/
def strNe (a b : List Nat) : Bool := !(a.length == b.length && cstr a == cstr b)

/-- Copy of `src` over the start of `dst` (`memcpy(dst, src, src.length)`). -/
def overwrite (dst src : List Nat) : List Nat := src ++ dst.drop src.length

/-- Embedding of `RemAccessory::setRemAccId(id, len)` with `len = id.length`. -/
def setRemAccId (a : RemAccessory) (id : List Nat) : RemAccessory :=
  let n := if id.length ≥ MAX_ID_SIZE then MAX_ID_SIZE - 1 else id.length
  { a with _remAccId := (overwrite a._remAccId (id.take n)).set n 0 }

/-! ## The reporter chain and the system state -/

/-- An object registered in the reporter chain of `dawsReporter.h`: a
`RemAccessory` (type `RA_REP`) or a reporter of another type. -/
inductive Reporter where
  | remAcc (a : RemAccessory)
  | other
deriving DecidableEq, Repr

/-- One element of the array `BLERemDev::_bleCon`. -/
structure BLERemDev where
  _localName : List Nat
  _peerAdd : List Nat
  _peerAddType : Nat
  _connHandle : Nat
  _remAcc : Option Nat
  _firstRemAcc : Option Nat
  _countDA : Nat
  _clientConState : RemDevState_t
  _devNameCharac : DiscoveredCharacteristic
  _serviceUUID : UUID
deriving DecidableEq, Repr

/-- The constructor `BLERemDev::BLERemDev()` run on an element of the static
array: members it does not set keep the zero of static storage. -/
def BLERemDev.default : BLERemDev :=
  { _localName := [], _peerAdd := [0, 0, 0, 0, 0, 0], _peerAddType := 0,
    _connHandle := 0, _remAcc := none, _firstRemAcc := none, _countDA := 0,
    _clientConState := CS_INITIAL,
    _devNameCharac := DiscoveredCharacteristic.empty,
    _serviceUUID := UUID.short 0 }

/-- The static members of `BLERemDev`, the two connection callbacks held by
`BLEcore` (each bound to a record of `_bleCon`, given by its index), the
reporter chain in registration order, the two logs of the embedding, the
number of calls of `BLERemDev::_descripsDone` so far, and the two callback
chains of the one GATT client: the records whose `_dataRead`, respectively
`_dataWritten`, has been added with `onDataRead`, respectively `onDataWritten`,
the one added last first.  Nothing in the sources detaches a callback. -/
structure Sys where
  _bleCon : List BLERemDev
  _bleConCount : Nat
  _activeRemDev : Option Nat
  _onCentralConnect : Option Nat
  _onCentralDisconnect : Option Nat
  chain : List Reporter
  events : List Report
  ops : List Op
  descripsDoneCalls : Nat
  onDataRead : List Nat
  onDataWritten : List Nat
deriving DecidableEq, Repr

/-- The state after static initialisation, with the reporters `chain`
registered so far. -/
def Sys.init (chain : List Reporter) : Sys :=
  { _bleCon := List.replicate MAX_REMOTE_CON BLERemDev.default,
    _bleConCount := 0, _activeRemDev := none,
    _onCentralConnect := none, _onCentralDisconnect := none,
    chain := chain, events := [], ops := [], descripsDoneCalls := 0,
    onDataRead := [], onDataWritten := [] }

/-- Modelled from the spec: `Reporter::queueReport` of `dawsReporter.h`, which
is not among the sources; publishing a report appends it to the event log. -/
def queueReport (s : Sys) (src : Source) (t : EventType) (info : Int) : Sys :=
  { s with events := s.events ++ [{ src := src, type := t, info := info }] }

/-! ## Scanning: `BLERemDev::_processScanReport` -/

/-- Embedding of `ble::adv_data_type_t::COMPLETE_LOCAL_NAME`. -/
def COMPLETE_LOCAL_NAME : Nat := 0x09

/-- Embedding of `ble::adv_data_type_t::INCOMPLETE_LIST_128BIT_SERVICE_IDS`. -/
def INCOMPLETE_LIST_128BIT_SERVICE_IDS : Nat := 0x06

/-- Embedding of `ble::adv_data_type_t::COMPLETE_LIST_128BIT_SERVICE_IDS`. -/
def COMPLETE_LIST_128BIT_SERVICE_IDS : Nat := 0x07

/-- One field delivered by `AdvertisingDataParser::next`. -/
structure AdvField where
  type : Nat
  value : List Nat
deriving DecidableEq, Repr

/-- The `ble::AdvertisingReportEvent`, its payload already split in fields. -/
structure AdvertisingReportEvent where
  peerAddress : List Nat
  peerAddressType : Nat
  payload : List AdvField
deriving DecidableEq, Repr

/-- The bytes of `BLEcore::_pointServUUID`
("875e6ef1-7e3f-4e57-86e1-9a921002b8e9"), least significant byte first. -/
def pointServUUIDBytes : List Nat :=
  [0xe9, 0xb8, 0x02, 0x10, 0x92, 0x9a, 0xe1, 0x86,
   0x57, 0x4e, 0x3f, 0x7e, 0xf1, 0x6e, 0x5e, 0x87]

/-- Embedding of `BLEcore::getServUUID`. -/
def getServUUID : UUID := UUID.long pointServUUIDBytes

/-- The loop `for (x = 0; x < len; x++) foundUUID128[x & 0xf] = field.value[x]`
from position `x` on. -/
def copyUUIDBytes : List Nat → Nat → List Nat → List Nat
  | buf, _, [] => buf
  | buf, x, b :: rest => copyUUIDBytes (buf.set (x % 16) b) (x + 1) rest

/-- The locals of `_processScanReport` that the field loop updates. -/
structure ScanLocals where
  localName : List Nat
  foundUUID128 : List Nat
  foundUUID : UUID
deriving DecidableEq, Repr

/-- The body of the `switch` on the field type. -/
def parseField (p : ScanLocals) (f : AdvField) : ScanLocals :=
  if f.type = COMPLETE_LOCAL_NAME then
    { p with localName := p.localName ++ f.value }
  else if f.type = INCOMPLETE_LIST_128BIT_SERVICE_IDS ∨
      f.type = COMPLETE_LIST_128BIT_SERVICE_IDS then
    let buf := copyUUIDBytes p.foundUUID128 0 f.value
    { p with foundUUID128 := buf, foundUUID := UUID.long buf }
  else
    p

/-- The loop `while (advParser.hasNext())`; `junk` is the content of the
uninitialised local `foundUUID128`. -/
def parsePayload (junk : List Nat) (fields : List AdvField) : ScanLocals :=
  fields.foldl parseField
    { localName := [], foundUUID128 := junk, foundUUID := UUID.short 0 }

/-- The test `foundUUID == BLEcore::getServUUID()`. -/
def serviceMatch (junk : List Nat) (fields : List AdvField) : Bool :=
  decide ((parsePayload junk fields).foundUUID = getServUUID)

/-- The expression `_bleCon[i]._localName`.  The array has `MAX_REMOTE_CON`
elements; `oob` is what a read past its end yields. -/
def localNameAt (s : Sys) (oob : List Nat) (i : Nat) : List Nat :=
  match s._bleCon[i]? with
  | some r => r._localName
  | none => oob

/-- The loop `while ((i < _bleConCount) && (localName != _bleCon[i]._localName)) i++`
from `i` on; it runs at most `_bleConCount` times, which bounds `fuel`. -/
def findName (s : Sys) (oob : List Nat) (localName : List Nat) : Nat → Nat → Nat
  | 0, i => i
  | fuel + 1, i =>
    if i < s._bleConCount ∧ strNe localName (localNameAt s oob i) = true then
      findName s oob localName fuel (i + 1)
    else
      i

/-- The assignments to `_bleCon[i]` for a newly seen peer. -/
def setRecord (s : Sys) (i : Nat) (localName : List Nat)
    (event : AdvertisingReportEvent) : List BLERemDev :=
  match s._bleCon[i]? with
  | some r =>
    s._bleCon.set i
      { r with _localName := localName, _peerAdd := event.peerAddress,
               _peerAddType := event.peerAddressType,
               _clientConState := CS_CONNECTABLE }
  | none => s._bleCon

/-- Embedding of `BLERemDev::_processScanReport`. -/
def _processScanReport (s : Sys) (junk oob : List Nat)
    (event : AdvertisingReportEvent) : Sys :=
  let p := parsePayload junk event.payload
  if p.foundUUID = getServUUID then
    let i := findName s oob p.localName s._bleConCount 0
    if strNe p.localName (localNameAt s oob i) = true ∧
        s._bleConCount < MAX_REMOTE_CON then
      queueReport
        { s with _bleCon := setRecord s i p.localName event,
                 _bleConCount := s._bleConCount + 1 }
        Source.core BLE_PEER_FOUND i
    else
      s
  else
    s

/-- Embedding of `BLERemDev::getFoundCount`. -/
def getFoundCount (s : Sys) : Nat := s._bleConCount

/-! ### What a report advertises

The notions below describe the payload itself, independently of the parsing
loop of `_processScanReport`. -/

/-- The field is a list of 128 bit service ids (complete or incomplete). -/
def is128List (f : AdvField) : Bool :=
  f.type == INCOMPLETE_LIST_128BIT_SERVICE_IDS ||
    f.type == COMPLETE_LIST_128BIT_SERVICE_IDS

/-- The bytes of all 128 bit service id lists of a payload, in payload order. -/
def uuidListBytes (fields : List AdvField) : List Nat :=
  ((fields.filter is128List).map (fun f => f.value)).flatten

/-- Every 128 bit service id list of the payload holds whole 16 byte UUIDs. -/
def wholeUUIDs (fields : List AdvField) : Prop :=
  ∀ f ∈ fields, is128List f = true → f.value.length % 16 = 0

/-- A byte string cut in pieces of sixteen bytes; `fuel` bounds the number of
pieces. -/
def chunks16 : Nat → List Nat → List (List Nat)
  | 0, _ => []
  | fuel + 1, l => if l = [] then [] else l.take 16 :: chunks16 fuel (l.drop 16)

/-- The UUIDs listed in the 128 bit service id lists of a payload. -/
def advertisedUUIDs (fields : List AdvField) : List (List Nat) :=
  chunks16 (uuidListBytes fields).length (uuidListBytes fields)

/-- The display name of a report: its complete local name fields. -/
def displayName (fields : List AdvField) : List Nat :=
  ((fields.filter (fun f => f.type == COMPLETE_LOCAL_NAME)).map
    (fun f => f.value)).flatten

/-! ## `DiscoveredAccCli` -/

/-- The bytes of `BLEcore::_idUUID`
("8dbe4bf8-b166-4d52-bd7e-56cd5eb6c246"), least significant byte first. -/
def idUUIDBytes : List Nat :=
  [0x46, 0xc2, 0xb6, 0x5e, 0xcd, 0x56, 0x7e, 0xbd,
   0x52, 0x4d, 0x66, 0xb1, 0xf8, 0x4b, 0xbe, 0x8d]

/-- The bytes of `BLEcore::_stateUUID`
("068a007d-9f09-49f0-907c-2d54178147b8"), least significant byte first. -/
def stateUUIDBytes : List Nat :=
  [0xb8, 0x47, 0x81, 0x17, 0x54, 0x2d, 0x7c, 0x90,
   0xf0, 0x49, 0x09, 0x9f, 0x7d, 0x00, 0x8a, 0x06]

/-- The bytes of `BLEcore::_cmdUUID`
("3d59437d-265e-4698-9b4f-3852e8ed2b33"), least significant byte first. -/
def cmdUUIDBytes : List Nat :=
  [0x33, 0x2b, 0xed, 0xe8, 0x52, 0x38, 0x4f, 0x9b,
   0x98, 0x46, 0x5e, 0x26, 0x7d, 0x43, 0x59, 0x3d]

/-- Embedding of `BLEcore::_characUUID`, each entry as the `UUID` built from it. -/
def _characUUID : List UUID :=
  [UUID.long idUUIDBytes, UUID.long stateUUIDBytes, UUID.long cmdUUIDBytes]

/-- Embedding of `uuid_t::ID_UUID`. -/
def ID_UUID : Nat := 0

/-- Embedding of `uuid_t::STATE_UUID`. -/
def STATE_UUID : Nat := 1

/-- Embedding of `uuid_t::CMD_UUID`. -/
def CMD_UUID : Nat := 2

/-- Embedding of `uuid_t::MAX_UUID`. -/
def MAX_UUID : Nat := 3

/-- Embedding of `BLE_UUID_GAP`. -/
def BLE_UUID_GAP : Nat := 0x1800

/-- Embedding of `BLE_UUID_GAP_CHARACTERISTIC_DEVICE_NAME`. -/
def BLE_UUID_GAP_CHARACTERISTIC_DEVICE_NAME : Nat := 0x2A00

/-- Embedding of `BLE_UUID_DESCRIPTOR_CLIENT_CHAR_CONFIG`. -/
def BLE_UUID_DESCRIPTOR_CLIENT_CHAR_CONFIG : Nat := 0x2902

/-- The loop of `BLEcore::matchUUID`,
`while ((UUID(_characUUID[u]) != uuid) && (u < MAX_UUID)) u++`, from `u` on.
The table has `MAX_UUID` entries; `oob` is what the read of `_characUUID[3]`
yields. -/
def matchUUIDLoop (oob uuid : UUID) : Nat → Nat → Nat
  | 0, u => u
  | fuel + 1, u =>
    if _characUUID.getD u oob ≠ uuid ∧ u < MAX_UUID then
      matchUUIDLoop oob uuid fuel (u + 1)
    else
      u

/-- Embedding of `BLEcore::matchUUID`. -/
def matchUUID (oob uuid : UUID) : Nat := matchUUIDLoop oob uuid (MAX_UUID + 1) 0

/-- Embedding of `DiscoveredAccCli::saveCharacteristic`. -/
def saveCharacteristic (oob : UUID) (a : RemAccessory) (c : DiscoveredCharacteristic) :
    Nat × RemAccessory :=
  let u := matchUUID oob c.uuid
  if u = ID_UUID then (u, { a with _idDC := c })
  else if u = STATE_UUID then (u, { a with _stateDC := c })
  else if u = CMD_UUID then (u, { a with _commandDC := c })
  else (u, a)

/-- Embedding of `DiscoveredAccCli::initCharacteristics`; `bleErr` is the answer of the
stack to the read it starts. -/
def initCharacteristics (a : RemAccessory) (connState : RemDevState_t) (bleErr : Nat) :
    Bool × RemAccessory × List Op :=
  if connState = CS_CON_INIT then
    (bleErr == BLE_ERROR_NONE,
     { a with hvxCallbacks := a.hvxCallbacks + 1 },
     [Op.read a._idDC.connHandle a._idDC.valueHandle])
  else
    (bleErr == BLE_ERROR_NONE, a,
     [Op.read a._stateDC.connHandle a._stateDC.valueHandle])

/-- Embedding of `DiscoveredAccCli::doCCCDwrite`: the 16 bit value 1 goes out as the two
bytes 1, 0. -/
def doCCCDwrite (a : RemAccessory) (bleErr : Nat) : Bool × List Op :=
  if a._stateCCCDHandle ≠ INVALID_HANDLE then
    (bleErr == BLE_ERROR_NONE, [Op.write a._connHandle a._stateCCCDHandle [1, 0]])
  else
    (false, [])

/-- Embedding of `DiscoveredAccCli::processDescrips`, with the callback bound to record
`rec`. -/
def processDescrips (a : RemAccessory) (rec : Nat) : RemAccessory × List Op :=
  ({ a with _descripsDoneCB := some rec, _stateCCCDHandle := INVALID_HANDLE },
   [Op.discoverDescriptors a._stateDC.connHandle a._stateDC.valueHandle])

/-- The `GattWriteCallbackParams` fields that the client code reads. -/
structure GattWriteCallbackParams where
  connHandle : Nat
  handle : Nat
  status : Nat
deriving DecidableEq, Repr

/-- The `GattReadCallbackParams` fields that the client code reads;
`len` is `data.length`. -/
structure GattReadCallbackParams where
  connHandle : Nat
  handle : Nat
  data : List Nat
  status : Nat
deriving DecidableEq, Repr

/-- Embedding of `DiscoveredAccCli::dataWritten`. -/
def dataWritten (a : RemAccessory) (cbp : GattWriteCallbackParams) : Bool :=
  if cbp.connHandle = a._connHandle then
    cbp.handle == a._stateCCCDHandle ||
      cbp.handle == a._commandDC.valueHandle ||
      cbp.handle == a._idDC.valueHandle ||
      cbp.handle == a._stateDC.valueHandle
  else
    false

/-! ## Helpers on the system state -/

/-- Assignment to the members of `_bleCon[i]`. -/
def setRec (s : Sys) (i : Nat) (r : BLERemDev) : Sys :=
  { s with _bleCon := s._bleCon.set i r }

/-- Assignment to the members of the accessory at position `j` of the chain. -/
def setAcc (s : Sys) (j : Nat) (a : RemAccessory) : Sys :=
  { s with chain := s.chain.set j (Reporter.remAcc a) }

/-- The calls `ops` are made to the stack. -/
def issue (s : Sys) (ops : List Op) : Sys :=
  { s with ops := s.ops ++ ops }

/-- Dereference of a `RemAccessory*`: the position and the object, `none` for
`nullptr`. -/
def derefAcc (s : Sys) (p : Option Nat) : Option (Nat × RemAccessory) :=
  match p with
  | none => none
  | some j =>
    match s.chain[j]? with
    | some (Reporter.remAcc a) => some (j, a)
    | _ => none

/-- Embedding of `RemAccessory::newState` of the accessory at position `j`. -/
def newState (s : Sys) (j : Nat) (a : RemAccessory) (v : Nat) : Sys :=
  queueReport (setAcc s j { a with _reportedState := v })
    (Source.reporter j) RA_STATE_CHANGE v

/-! ## `BLERemDev`: connecting and disconnecting -/

/-- Embedding of `BLERemDev::_connect` of `_bleCon[i]`; `bleErr` is the answer of
`gap().connect`.  The fixed connection parameters of the request are not
recorded.  The callers pass an index below `_bleConCount`; for an index
outside the array nothing happens. -/
def _connect (s : Sys) (i : Nat) (bleErr : Nat) : Bool × Sys :=
  match s._bleCon[i]? with
  | none => (false, s)
  | some r =>
    if r._clientConState = CS_CONNECTABLE ∨ r._clientConState = CS_DISCON ∨
        r._clientConState = CS_ERR then
      let s1 := issue s [Op.gapConnect r._peerAddType r._peerAdd]
      if bleErr ≠ BLE_ERROR_NONE then
        (false, s1)
      else
        (true, { s1 with _onCentralConnect := some i, _onCentralDisconnect := some i,
                         _activeRemDev := some i })
    else
      (false, s)

/-- Embedding of `BLERemDev::connectByIndex`. -/
def connectByIndex (s : Sys) (index : Int) (bleErr : Nat) : Bool × Sys :=
  if index < (s._bleConCount : Int) ∧ index ≥ 0 then
    _connect s index.toNat bleErr
  else
    (false, s)

/-- The loop `while ((getLocalNameByIndex(i) != name) && (i < _bleConCount)) i++`
of `connectByName`, from `i` on. -/
def findByName (s : Sys) (oob : List Nat) (name : List Nat) : Nat → Nat → Nat
  | 0, i => i
  | fuel + 1, i =>
    if strNe (localNameAt s oob i) name = true ∧ i < s._bleConCount then
      findByName s oob name fuel (i + 1)
    else
      i

/-- Embedding of `BLERemDev::connectByName`. -/
def connectByName (s : Sys) (oob : List Nat) (name : List Nat) (bleErr : Nat) :
    Bool × Sys :=
  let i := findByName s oob name (s._bleConCount + 1) 0
  if i < s._bleConCount then
    _connect s i bleErr
  else
    (false, s)

/-- Embedding of `BLERemDev::_disconn` of `_bleCon[i]`; `bleErr` is the answer of
`gap().disconnect`. -/
def _disconn (s : Sys) (i : Nat) (bleErr : Nat) : Sys :=
  match s._bleCon[i]? with
  | none => s
  | some r =>
    let s1 := { issue s [Op.gapDisconnect r._connHandle USER_TERMINATION] with
                _activeRemDev := none }
    if bleErr = BLE_ERROR_NONE then
      setRec s1 i { r with _clientConState := CS_DISCONNECTING }
    else
      setRec s1 i { r with _clientConState := CS_ERR }

/-- Embedding of `BLERemDev::disconnect`. -/
def disconnect (s : Sys) (bleErr : Nat) : Sys :=
  match s._activeRemDev with
  | some i => _disconn s i bleErr
  | none => s

/-- Embedding of `BLERemDev::activeRemDev`. -/
def activeRemDev (s : Sys) : Option Nat := s._activeRemDev

/-! ## `BLERemDev`: reports to the accessories of a connection -/

/-- The loop of `_queueRemAccReps` over the reporters `todo`, the first of
which is at position `j` of the chain. -/
def queueRemAccRepsFrom (K : DawsConsts) (connHandle : Nat) (repType : EventType)
    (info : Int) : List Reporter → Nat → Sys → Sys
  | [], _, s => s
  | Reporter.other :: rest, j, s =>
    queueRemAccRepsFrom K connHandle repType info rest (j + 1) s
  | Reporter.remAcc a :: rest, j, s =>
    if a._connHandle = connHandle then
      let s1 := if repType = RA_DISCONNECTED then setAcc s j (setState a K.P_UNAVAIL) else s
      queueRemAccRepsFrom K connHandle repType info rest (j + 1)
        (queueReport s1 (Source.reporter j) repType info)
    else
      queueRemAccRepsFrom K connHandle repType info rest (j + 1) s

/-- Embedding of `BLERemDev::_queueRemAccReps` of a record whose `_connHandle` is
`connHandle`. -/
def _queueRemAccReps (K : DawsConsts) (s : Sys) (connHandle : Nat)
    (repType : EventType) (info : Int) : Sys :=
  queueRemAccRepsFrom K connHandle repType info s.chain 0 s

/-- Embedding of `BLERemDev::_serverDisconnected` of `_bleCon[i]`, for an event with
connection handle `handle` and reason `reason`. -/
def _serverDisconnected (K : DawsConsts) (s : Sys) (i : Nat) (handle : Nat)
    (reason : Int) : Sys :=
  match s._bleCon[i]? with
  | none => s
  | some r =>
    if handle = r._connHandle then
      let s1 := setRec s i { r with _clientConState := CS_DISCON }
      let s2 := { s1 with _onCentralConnect := none, _onCentralDisconnect := none }
      _queueRemAccReps K s2 r._connHandle RA_DISCONNECTED reason
    else
      s

/-! ## `BLERemDev`: the initialisation loop -/

/-- The loop of `_doNextDA` over the reporters `todo`, the first of which is
at position `j` of the chain: the first `RemAccessory` whose
`initCharacteristics` succeeds stops it.  `readErr p` is the answer of the
stack to the read started for the reporter at position `p`. -/
def nextDALoop (connState : RemDevState_t) (readErr : Nat → Nat) :
    List Reporter → Nat → Sys → Option Nat × Sys
  | [], _, s => (none, s)
  | Reporter.other :: rest, j, s => nextDALoop connState readErr rest (j + 1) s
  | Reporter.remAcc a :: rest, j, s =>
    let res := initCharacteristics a connState (readErr j)
    let s1 := issue (setAcc s j res.2.1) res.2.2
    if res.1 then (some j, s1) else nextDALoop connState readErr rest (j + 1) s1

/-- Embedding of `BLERemDev::_doNextDA` of `_bleCon[i]`. -/
def _doNextDA (K : DawsConsts) (s : Sys) (i : Nat) (readErr : Nat → Nat) : Option Sys :=
  match s._bleCon[i]? with
  | none => none
  | some r =>
    match derefAcc s r._remAcc with
    | none => none
    | some (cur, _) =>
      let res := nextDALoop r._clientConState readErr (s.chain.drop (cur + 1)) (cur + 1) s
      match res.1 with
      | none =>
        let s1 := _queueRemAccReps K res.2 r._connHandle RA_CONNECTED r._connHandle
        let s2 := setRec s1 i { r with _clientConState := CS_CONNECTED }
        some (queueReport s2 Source.core BLE_SERVICES_AVAIL 0)
      | some j => some (setRec res.2 i { r with _remAcc := some j })

/-- The loop of `_dataWritten` over the reporters `todo`, the first of which
is at position `j` of the chain: the position of the first `RemAccessory` that
accepts the event, `none` for `nullptr`. -/
def findClaimer (cbp : GattWriteCallbackParams) : List Reporter → Nat → Option Nat
  | [], _ => none
  | Reporter.other :: rest, j => findClaimer cbp rest (j + 1)
  | Reporter.remAcc a :: rest, j =>
    if dataWritten a cbp then some j else findClaimer cbp rest (j + 1)

/-- Embedding of `BLERemDev::_dataWritten` of `_bleCon[i]`. -/
def _dataWritten (K : DawsConsts) (s : Sys) (i : Nat) (cbp : GattWriteCallbackParams)
    (readErr : Nat → Nat) : Option Sys :=
  match s._bleCon[i]? with
  | none => none
  | some r =>
    if (r._clientConState = CS_CON_INIT ∨ r._clientConState = CS_RECON_INIT) ∧
        findClaimer cbp s.chain 0 = r._remAcc then
      _doNextDA K s i readErr
    else
      some s

/-- Embedding of `BLERemDev::_dataRead` of `_bleCon[i]`; `bleErr` is the answer of the
stack to the one request the handler makes. -/
def _dataRead (s : Sys) (i : Nat) (cbp : GattReadCallbackParams) (bleErr : Nat) :
    Option Sys :=
  match s._bleCon[i]? with
  | none => none
  | some r =>
    if cbp.handle = r._devNameCharac.valueHandle then
      match derefAcc s r._firstRemAcc with
      | none => none
      | some (j, a) =>
        let res := initCharacteristics a r._clientConState bleErr
        some (issue (setAcc (setRec s i { r with _remAcc := r._firstRemAcc }) j res.2.1)
          res.2.2)
    else
      match derefAcc s r._remAcc with
      | none => none
      | some (j, a) =>
        if cbp.handle = a._idDC.valueHandle then
          let pd := processDescrips (setRemAccId a cbp.data) i
          some (queueReport (issue (setAcc s j pd.1) pd.2)
            (Source.reporter j) RA_DISCOVERED 0)
        else if cbp.handle = a._stateDC.valueHandle then
          match cbp.data.head? with
          | none => none
          | some b =>
            let a1 := setState a b
            let w := doCCCDwrite a1 bleErr
            let s1 := issue (setAcc s j a1) w.2
            if w.1 then some s1
            else some (setRec s1 i { r with _clientConState := CS_ERR })
        else
          some s

/-! ## `BLERemDev`: service discovery -/

/-- Embedding of `BLERemDev::_initServiceDiscovery` of `_bleCon[i]`, the callback run on
connection complete with connection handle `ch`. -/
def _initServiceDiscovery (K : DawsConsts) (s : Sys) (i : Nat) (ch : Nat)
    (readErr : Nat → Nat) : Option Sys :=
  match s._bleCon[i]? with
  | none => none
  | some r =>
    if r._clientConState = CS_CONNECTABLE ∨ r._clientConState = CS_ERR then
      some (issue (setRec s i { r with _connHandle := ch, _clientConState := CS_CON_FIRST })
        [Op.launchServiceDiscovery ch])
    else if r._clientConState = CS_DISCON then
      let r1 := { r with _connHandle := ch, _remAcc := r._firstRemAcc,
                         _clientConState := CS_RECON_INIT }
      let s1 := setRec s i r1
      match derefAcc s1 r1._remAcc with
      | none => none
      | some (j, a) =>
        let res := initCharacteristics a CS_RECON_INIT (readErr j)
        let s2 := issue (setAcc s1 j res.2.1) res.2.2
        if res.1 then some s2 else _doNextDA K s2 i readErr
    else
      some s

/-- Embedding of `BLERemDev::_serviceDiscovered` of `_bleCon[i]` for a service with UUID
`uuid`.  Modelled from the spec: the constructor of `Reporter`
(`dawsReporter.h`, not among the sources) registers the new object at the end
of the chain, which is walked in registration order. -/
def _serviceDiscovered (K : DawsConsts) (s : Sys) (i : Nat) (uuid : UUID)
    (u : Indeterminate) : Sys :=
  match s._bleCon[i]? with
  | none => s
  | some r =>
    if uuid = getServUUID then
      let j := s.chain.length
      let s1 := { s with chain := s.chain ++
        [Reporter.remAcc (RemAccessory.mk_ch_uuid K r._connHandle uuid u)] }
      if r._clientConState = CS_CON_FIRST then
        setRec s1 i { r with _serviceUUID := uuid, _remAcc := some j, _countDA := 1,
                             _firstRemAcc := some j, _clientConState := CS_CON_DISC }
      else
        setRec s1 i { r with _serviceUUID := uuid, _remAcc := some j,
                             _countDA := r._countDA + 1 }
    else
      setRec s i { r with _serviceUUID := uuid }

/-- Embedding of `BLERemDev::_characDiscovered` of `_bleCon[i]`. -/
def _characDiscovered (s : Sys) (i : Nat) (oob : UUID) (c : DiscoveredCharacteristic) :
    Option Sys :=
  match s._bleCon[i]? with
  | none => none
  | some r =>
    if r._serviceUUID = UUID.short BLE_UUID_GAP then
      if c.uuid = UUID.short BLE_UUID_GAP_CHARACTERISTIC_DEVICE_NAME then
        some (setRec s i { r with _devNameCharac := c })
      else
        some s
    else if r._serviceUUID = getServUUID then
      match derefAcc s r._remAcc with
      | none => none
      | some (j, a) => some (setAcc s j (saveCharacteristic oob a c).2)
    else
      some s

/-- Embedding of `BLERemDev::_discoveryTermination` of `_bleCon[i]`: it adds the `_dataRead`
and the `_dataWritten` of the record to the callback chains of the GATT client
and requests the read of the device name; `bleErr` is the answer of the stack
to that read. -/
def _discoveryTermination (s : Sys) (i : Nat) (bleErr : Nat) : Sys :=
  match s._bleCon[i]? with
  | none => s
  | some r =>
    let s0 := { s with onDataRead := i :: s.onDataRead,
                       onDataWritten := i :: s.onDataWritten }
    let s1 := issue s0 [Op.read r._devNameCharac.connHandle r._devNameCharac.valueHandle]
    if bleErr = BLE_ERROR_NONE then
      setRec s1 i { r with _clientConState := CS_CON_INIT }
    else
      setRec s1 i { r with _clientConState := CS_ERR }

/-! ## `DiscoveredAccCli`: descriptor discovery callbacks -/

/-- Embedding of `DiscoveredAccCli::_descripDisc` of the accessory at position `j`, for a
descriptor with UUID `uuid` and attribute handle `handle`. -/
def _descripDisc (s : Sys) (j : Nat) (uuid : UUID) (handle : Nat) : Option Sys :=
  match derefAcc s (some j) with
  | none => none
  | some (_, a) =>
    if uuid = UUID.short BLE_UUID_DESCRIPTOR_CLIENT_CHAR_CONFIG then
      some (setAcc s j { a with _stateCCCDHandle := handle })
    else
      some s

/-- Embedding of `DiscoveredAccCli::_ddDone` of the accessory at position `j`; `bleErr` is
the answer of the stack to the read of the state characteristic.  The callback
`_descripsDoneCB` is `BLERemDev::_descripsDone`, which does nothing. -/
def _ddDone (s : Sys) (j : Nat) (bleErr : Nat) : Option Sys :=
  match derefAcc s (some j) with
  | none => none
  | some (_, a) =>
    if a._stateCCCDHandle ≠ INVALID_HANDLE then
      let s1 := issue s [Op.read a._stateDC.connHandle a._stateDC.valueHandle]
      if bleErr ≠ BLE_ERROR_NONE then
        match a._descripsDoneCB with
        | none => none
        | some _ => some { s1 with descripsDoneCalls := s1.descripsDoneCalls + 1 }
      else
        some s1
    else
      some s

/-! ## `BLEcore`: the GAP event handlers, as far as they reach the client -/

/-- Embedding of `BLEcore::onConnectionComplete` for an event with status `BLE_ERROR_NONE`
and own role central, on connection handle `ch`.  The connection count and the
indicator LED are not part of the state. -/
def onConnectionComplete (K : DawsConsts) (s : Sys) (ch : Nat) (readErr : Nat → Nat) :
    Option Sys :=
  match s._onCentralConnect with
  | none => some s
  | some i =>
    match _initServiceDiscovery K s i ch readErr with
    | none => none
    | some s1 => some (queueReport s1 Source.core BLE_CONNECTED ch)

/-- Embedding of `BLEcore::onDisconnectionComplete` of a central, for an event with
connection handle `ch` and reason `reason`. -/
def onDisconnectionComplete (K : DawsConsts) (s : Sys) (ch : Nat) (reason : Int) : Sys :=
  match s._onCentralDisconnect with
  | none => s
  | some i => queueReport (_serverDisconnected K s i ch reason) Source.core BLE_DISCONNECTED ch

/-- The `GattHVXCallbackParams` fields that the client code reads. -/
structure GattHVXCallbackParams where
  connHandle : Nat
  handle : Nat
  data : List Nat
deriving DecidableEq, Repr

/-- Embedding of `DiscoveredAccCli::_dataChange` of the accessory at position `j`. -/
def _dataChange (s : Sys) (j : Nat) (cbp : GattHVXCallbackParams) : Option Sys :=
  match derefAcc s (some j) with
  | none => none
  | some (_, a) =>
    if cbp.connHandle = a._connHandle ∧ cbp.handle = a._stateDC.valueHandle then
      match cbp.data.head? with
      | none => none
      | some v => some (newState s j a v)
    else
      some s

/-! ## One call from outside

The entry points through which the application and the stack reach a record
`_bleCon[i]` and the accessories, each with the answers of the stack to the
requests it makes. -/

/-- An entry point with its arguments. -/
inductive Call where
  | connect (bleErr : Nat)
  | disconn (bleErr : Nat)
  | initServiceDiscovery (ch : Nat) (readErr : Nat → Nat)
  | serverDisconnected (handle : Nat) (reason : Int)
  | serviceDiscovered (uuid : UUID) (u : Indeterminate)
  | characDiscovered (oob : UUID) (c : DiscoveredCharacteristic)
  | discoveryTermination (bleErr : Nat)
  | dataRead (cbp : GattReadCallbackParams) (bleErr : Nat)
  | dataWritten (cbp : GattWriteCallbackParams) (readErr : Nat → Nat)
  | descripDisc (j : Nat) (uuid : UUID) (handle : Nat)
  | ddDone (j : Nat) (bleErr : Nat)
  | dataChange (j : Nat) (cbp : GattHVXCallbackParams)

/-- The state after a call on record `i`; `none` when the call dereferences an
invalid pointer. -/
def call (K : DawsConsts) (s : Sys) (i : Nat) : Call → Option Sys
  | Call.connect bleErr => some (_connect s i bleErr).2
  | Call.disconn bleErr => some (_disconn s i bleErr)
  | Call.initServiceDiscovery ch readErr => _initServiceDiscovery K s i ch readErr
  | Call.serverDisconnected handle reason => some (_serverDisconnected K s i handle reason)
  | Call.serviceDiscovered uuid u => some (_serviceDiscovered K s i uuid u)
  | Call.characDiscovered oob c => _characDiscovered s i oob c
  | Call.discoveryTermination bleErr => some (_discoveryTermination s i bleErr)
  | Call.dataRead cbp bleErr => _dataRead s i cbp bleErr
  | Call.dataWritten cbp readErr => _dataWritten K s i cbp readErr
  | Call.descripDisc j uuid handle => _descripDisc s j uuid handle
  | Call.ddDone j bleErr => _ddDone s j bleErr
  | Call.dataChange j cbp => _dataChange s j cbp

/-- The state after a sequence of calls on record `i`. -/
def calls (K : DawsConsts) (i : Nat) : Sys → List Call → Option Sys
  | s, [] => some s
  | s, c :: rest =>
    match call K s i c with
    | none => none
    | some s1 => calls K i s1 rest

/-- The `_clientConState` of record `i`. -/
def conState (s : Sys) (i : Nat) : Option RemDevState_t :=
  (s._bleCon[i]?).map (fun r => r._clientConState)

/-! ## `RemAccessory::findRemAccById` -/

/-- The loop of `findRemAccById` over the reporters `todo`, the first of which
is at position `j` of the chain: it goes on while the reporter is not of type
`RA_REP` or its identity string equals `id`; the result is the position where
it stops, `none` for `nullptr`. -/
def findRemAccByIdFrom (id : List Nat) : List Reporter → Nat → Option Nat
  | [], _ => none
  | Reporter.other :: rest, j => findRemAccByIdFrom id rest (j + 1)
  | Reporter.remAcc a :: rest, j =>
    if cstr (getRemAccId a) = id then findRemAccByIdFrom id rest (j + 1) else some j

/-- Embedding of `RemAccessory::findRemAccById`. -/
def findRemAccById (s : Sys) (id : List Nat) : Option Nat :=
  findRemAccByIdFrom id s.chain 0

/-- What the doc comment of `findRemAccById` describes: the position of the
first remote accessory among `todo` whose identity string is `id`, `none` when
there is none. -/
def firstAccWithId (id : List Nat) : List Reporter → Nat → Option Nat
  | [], _ => none
  | Reporter.other :: rest, j => firstAccWithId id rest (j + 1)
  | Reporter.remAcc a :: rest, j =>
    if cstr (getRemAccId a) = id then some j else firstAccWithId id rest (j + 1)

/-! ## The handles held by the accessory sessions -/

/-- The identity, state and command characteristics of an accessory session
and the handle of the configuration descriptor of its state characteristic. -/
def accHandles (a : RemAccessory) :
    DiscoveredCharacteristic × DiscoveredCharacteristic × DiscoveredCharacteristic × Nat :=
  (a._idDC, a._stateDC, a._commandDC, a._stateCCCDHandle)

/-- The handles of a reporter, `none` for a reporter that is no accessory. -/
def reporterHandles : Reporter →
    Option (DiscoveredCharacteristic × DiscoveredCharacteristic ×
      DiscoveredCharacteristic × Nat)
  | Reporter.remAcc a => some (accHandles a)
  | Reporter.other => none

/-- The handles of every reporter of the chain, in chain order. -/
def chainHandles (s : Sys) :
    List (Option (DiscoveredCharacteristic × DiscoveredCharacteristic ×
      DiscoveredCharacteristic × Nat)) :=
  s.chain.map reporterHandles

/-- The calls of a reconnection of record `i`: the connect request, the
connection complete callback arriving in `CS_DISCON`, the completion of the
state read of the current accessory (whose state handle is not its identity
handle), and write completions. -/
def onReconnectPath (s : Sys) (i : Nat) : Call → Bool
  | Call.connect _ => true
  | Call.initServiceDiscovery _ _ => conState s i == some CS_DISCON
  | Call.dataRead cbp _ =>
    match s._bleCon[i]? with
    | none => false
    | some r =>
      match derefAcc s r._remAcc with
      | none => false
      | some (_, a) =>
        cbp.handle == a._stateDC.valueHandle && cbp.handle != a._idDC.valueHandle
  | Call.dataWritten _ _ => true
  | _ => false

/-- Every call of the sequence is a call of a reconnection of record `i` in the
state in which it is made. -/
def reconnectPath (K : DawsConsts) (i : Nat) : Sys → List Call → Bool
  | _, [] => true
  | s, c :: rest =>
    onReconnectPath s i c &&
      match call K s i c with
      | none => true
      | some s1 => reconnectPath K i s1 rest

/-- The request is a read. -/
def isRead : Op → Bool
  | Op.read _ _ => true
  | _ => false

/-! ## Reading the two logs -/

/-- The reports queued between the states `s` and `t`. -/
def newEvents (s t : Sys) : List Report := t.events.drop s.events.length

/-- The calls made to the stack between the states `s` and `t`. -/
def newOps (s t : Sys) : List Op := t.ops.drop s.ops.length

/-- How many reports of type `ty` from the reporter at position `j` are among
`evs`. -/
def reportsOf (evs : List Report) (j : Nat) (ty : EventType) : Nat :=
  evs.countP (fun e => e.src == Source.reporter j && e.type == ty)

/-- The reporter is a `RemAccessory` whose `getConnHandle()` is `ch`. -/
def accOn (ch : Nat) : Reporter → Bool
  | Reporter.remAcc a => a._connHandle == ch
  | Reporter.other => false

/-- The reports that a walk of `_queueRemAccReps` over `todo` queues. -/
def accReports (ch : Nat) (ty : EventType) (info : Int) : List Reporter → Nat → List Report
  | [], _ => []
  | rep :: rest, j =>
    (if accOn ch rep then [{ src := Source.reporter j, type := ty, info := info }] else [])
      ++ accReports ch ty info rest (j + 1)

/-- What a walk of `_queueRemAccReps` with `RA_DISCONNECTED` makes of a
reporter: an accessory on the connection becomes unavailable. -/
def markUnavail (K : DawsConsts) (ch : Nat) (ty : EventType) : Reporter → Reporter
  | Reporter.remAcc a =>
    if a._connHandle = ch ∧ ty = RA_DISCONNECTED then
      Reporter.remAcc (setState a K.P_UNAVAIL)
    else
      Reporter.remAcc a
  | Reporter.other => Reporter.other

/-! ## Concrete inputs used by the evaluations below -/

/-- The content taken for the uninitialised `foundUUID128` in evaluations. -/
def zeros16 : List Nat := List.replicate 16 0

/-- A report that lists the point service UUID and carries no local name. -/
def namelessReport : AdvertisingReportEvent :=
  { peerAddress := [0xDD, 0x51, 0x51, 0x99, 0xE3, 0xCE], peerAddressType := 1,
    payload := [{ type := COMPLETE_LIST_128BIT_SERVICE_IDS, value := pointServUUIDBytes }] }

/-- A report that lists the point service UUID, with local name "Pt1". -/
def pt1Report : AdvertisingReportEvent :=
  { peerAddress := [0xDD, 0x51, 0x51, 0x99, 0xE3, 0xCE], peerAddressType := 1,
    payload := [{ type := COMPLETE_LIST_128BIT_SERVICE_IDS, value := pointServUUIDBytes },
                { type := COMPLETE_LOCAL_NAME, value := [0x50, 0x74, 0x31] }] }

/-- The registry after `pt1Report` was seen once. -/
def sysPt1 : Sys := _processScanReport (Sys.init []) zeros16 [] pt1Report

/-- A report named "Pt2" whose one 128 bit list holds two UUIDs: the point
service UUID first, then another one. -/
def twoUUIDReport : AdvertisingReportEvent :=
  { peerAddress := [0x01, 0x02, 0x03, 0x04, 0x05, 0x06], peerAddressType := 1,
    payload := [{ type := COMPLETE_LIST_128BIT_SERVICE_IDS,
                  value := pointServUUIDBytes ++ List.replicate 16 0xAA },
                { type := COMPLETE_LOCAL_NAME, value := [0x50, 0x74, 0x32] }] }

/-- The registry of `sysPt1` after `connectByIndex(0)` was accepted by the
stack; the connection complete event has not arrived. -/
def sysConnecting : Sys := (connectByIndex sysPt1 0 BLE_ERROR_NONE).2

/-! ## Scenarios

Runs of the entry points for concrete peers, used by the evaluations and the
scenario theorems below.  A peer is given by the characteristics that service
discovery reports for it. -/

/-- The enumerator values taken in scenarios. -/
def K0 : DawsConsts := { P_UNAVAIL := 0, POINT_NORMAL := 1, POINT_REVERSE := 2 }

/-- The content taken for the uninitialised members of a new `RemAccessory`. -/
def u0 : Indeterminate :=
  { stateCCCDHandle := 0xBEEF, remAccId := List.replicate MAX_ID_SIZE 0xEE, cmd := 0x77 }

/-- What service discovery reports for a peer with the generic GAP service and
one accessory service, and the handle of the configuration descriptor of its
state characteristic. -/
structure PeerLayout where
  devName : DiscoveredCharacteristic
  idC : DiscoveredCharacteristic
  stateC : DiscoveredCharacteristic
  cmdC : DiscoveredCharacteristic
  cccd : Nat
deriving DecidableEq, Repr

/-- The layout of peer "Pt1", discovered on connection handle `ch`. -/
def layoutA (ch : Nat) : PeerLayout :=
  { devName := { uuid := UUID.short BLE_UUID_GAP_CHARACTERISTIC_DEVICE_NAME,
                 connHandle := ch, declHandle := 2, valueHandle := 3, lastHandle := 4,
                 props := 0x02 },
    idC := { uuid := UUID.long idUUIDBytes, connHandle := ch, declHandle := 11,
             valueHandle := 12, lastHandle := 12, props := 0x02 },
    stateC := { uuid := UUID.long stateUUIDBytes, connHandle := ch, declHandle := 13,
                valueHandle := 14, lastHandle := 15, props := 0x12 },
    cmdC := { uuid := UUID.long cmdUUIDBytes, connHandle := ch, declHandle := 16,
              valueHandle := 17, lastHandle := 17, props := 0x0A },
    cccd := 15 }

/-- The layout of peer "Pt2", discovered on connection handle `ch`; none of its
handles is a handle of "Pt1". -/
def layoutB (ch : Nat) : PeerLayout :=
  { devName := { uuid := UUID.short BLE_UUID_GAP_CHARACTERISTIC_DEVICE_NAME,
                 connHandle := ch, declHandle := 22, valueHandle := 23, lastHandle := 24,
                 props := 0x02 },
    idC := { uuid := UUID.long idUUIDBytes, connHandle := ch, declHandle := 31,
             valueHandle := 32, lastHandle := 32, props := 0x02 },
    stateC := { uuid := UUID.long stateUUIDBytes, connHandle := ch, declHandle := 33,
                valueHandle := 34, lastHandle := 35, props := 0x12 },
    cmdC := { uuid := UUID.long cmdUUIDBytes, connHandle := ch, declHandle := 36,
              valueHandle := 37, lastHandle := 37, props := 0x0A },
    cccd := 35 }

/-- Connect to record `i`, connection complete on handle `ch`, discovery of the
GAP service and of one accessory service, discovery termination, and the
completion of the device name read, which starts the identity read.  The stack
accepts every request. -/
def discoverPeer (s : Sys) (i ch : Nat) (L : PeerLayout) : Option Sys := do
  let s1 := (connectByIndex s (i : Int) BLE_ERROR_NONE).2
  let s2 ← onConnectionComplete K0 s1 ch (fun _ => BLE_ERROR_NONE)
  let s3 := _serviceDiscovered K0 s2 i (UUID.short BLE_UUID_GAP) u0
  let s4 ← _characDiscovered s3 i (UUID.short 0) L.devName
  let s5 := _serviceDiscovered K0 s4 i getServUUID u0
  let s6 ← _characDiscovered s5 i (UUID.short 0) L.idC
  let s7 ← _characDiscovered s6 i (UUID.short 0) L.stateC
  let s8 ← _characDiscovered s7 i (UUID.short 0) L.cmdC
  let s9 := _discoveryTermination s8 i BLE_ERROR_NONE
  _dataRead s9 i { connHandle := ch, handle := L.devName.valueHandle, data := [],
                   status := 0 } BLE_ERROR_NONE

/-- Completion of the identity read with the bytes `id`. -/
def identityRead (s : Sys) (i ch : Nat) (L : PeerLayout) (id : List Nat) : Option Sys :=
  _dataRead s i { connHandle := ch, handle := L.idC.valueHandle, data := id, status := 0 }
    BLE_ERROR_NONE

/-- The configuration descriptor is reported for the accessory at position `j`. -/
def descriptorSeen (s : Sys) (j : Nat) (L : PeerLayout) : Option Sys :=
  _descripDisc s j (UUID.short BLE_UUID_DESCRIPTOR_CLIENT_CHAR_CONFIG) L.cccd

/-- Descriptor discovery terminates for the accessory at position `j`. -/
def descriptorsDone (s : Sys) (j : Nat) : Option Sys := _ddDone s j BLE_ERROR_NONE

/-- Completion of the state read with the byte `st`. -/
def stateRead (s : Sys) (i ch : Nat) (L : PeerLayout) (st : Nat) : Option Sys :=
  _dataRead s i { connHandle := ch, handle := L.stateC.valueHandle, data := [st],
                  status := 0 } BLE_ERROR_NONE

/-- Completion of a write to the configuration descriptor on connection `ch`. -/
def subscriptionWritten (s : Sys) (i ch : Nat) (L : PeerLayout) : Option Sys :=
  _dataWritten K0 s i { connHandle := ch, handle := L.cccd, status := 0 }
    (fun _ => BLE_ERROR_NONE)

/-- First connection to record `i`, whose accessory is registered at position
`j`, in the order in which the code makes its requests: identity read
completion, descriptor seen, descriptor discovery done, state read completion,
subscription write completion. -/
def firstTimeCodeOrder (s : Sys) (i ch j : Nat) (L : PeerLayout) (id : List Nat)
    (st : Nat) : Option Sys := do
  let s1 ← discoverPeer s i ch L
  let s2 ← identityRead s1 i ch L id
  let s3 ← descriptorSeen s2 j L
  let s4 ← descriptorsDone s3 j
  let s5 ← stateRead s4 i ch L st
  subscriptionWritten s5 i ch L

/-- First connection to record `i` with the completions in the order of the
scenario of the specification: identity read completion, state read
completion, then descriptor seen, descriptor discovery done and subscription
write completion. -/
def firstTimeSpecOrder (s : Sys) (i ch j : Nat) (L : PeerLayout) (id : List Nat)
    (st : Nat) : Option Sys := do
  let s1 ← discoverPeer s i ch L
  let s2 ← identityRead s1 i ch L id
  let s3 ← stateRead s2 i ch L st
  let s4 ← descriptorSeen s3 j L
  let s5 ← descriptorsDone s4 j
  subscriptionWritten s5 i ch L

/-- The identity "P001". -/
def idP001 : List Nat := [0x50, 0x30, 0x30, 0x31]

/-- A report that lists the point service UUID, with local name "Pt2". -/
def pt2Report : AdvertisingReportEvent :=
  { peerAddress := [0x01, 0x02, 0x03, 0x04, 0x05, 0x06], peerAddressType := 1,
    payload := [{ type := COMPLETE_LIST_128BIT_SERVICE_IDS, value := pointServUUIDBytes },
                { type := COMPLETE_LOCAL_NAME, value := [0x50, 0x74, 0x32] }] }

/-- The registry after "Pt1" and "Pt2" were seen. -/
def sysTwo : Sys := _processScanReport sysPt1 zeros16 [] pt2Report

/-- Two peers, one after the other, each given connection handle 0 by the
stack: "Pt1" is connected and initialised, then disconnected on request; then
"Pt2" is connected and initialised. The first component is the state when the
connect request for "Pt2" is made, the second the final state. -/
def twoPeersRun : Option (Sys × Sys) := do
  let s1 ← firstTimeCodeOrder sysTwo 0 0 0 (layoutA 0) idP001 2
  let s2 := disconnect s1 BLE_ERROR_NONE
  let s3 := onDisconnectionComplete K0 s2 0 0x16
  let s4 ← firstTimeCodeOrder s3 1 0 1 (layoutB 0) [0x50, 0x30, 0x30, 0x32] 1
  pure (s3, s4)

/-- "Pt1" loses the link right after the identity read completed: descriptor
discovery has been started and no descriptor has been seen. -/
def lostAfterIdentity (id : List Nat) (reason : Int) : Option Sys := do
  let s1 ← discoverPeer sysPt1 0 0 (layoutA 0)
  let s2 ← identityRead s1 0 0 (layoutA 0) id
  pure (onDisconnectionComplete K0 s2 0 reason)

/-- "Pt1" loses the link after the configuration descriptor was seen and
before the state read completes; `done` tells whether descriptor discovery had
terminated, which starts the state read. -/
def lostAfterDescriptor (id : List Nat) (reason : Int) (done : Bool) : Option Sys := do
  let s1 ← discoverPeer sysPt1 0 0 (layoutA 0)
  let s2 ← identityRead s1 0 0 (layoutA 0) id
  let s3 ← descriptorSeen s2 0 (layoutA 0)
  let s4 ← if done then descriptorsDone s3 0 else some s3
  pure (onDisconnectionComplete K0 s4 0 reason)

/-- Reconnection to record 0 from the state `s`: connect request, connection
complete on handle `ch2`, completion of the state read with byte `st`. -/
def reconnectUntilStateRead (s : Sys) (ch2 st : Nat) : Option Sys := do
  let s1 := (connectByIndex s 0 BLE_ERROR_NONE).2
  let s2 ← onConnectionComplete K0 s1 ch2 (fun _ => BLE_ERROR_NONE)
  stateRead s2 0 ch2 (layoutA 0) st

/-- The state of `firstTimeCodeOrder` for "Pt1" just after the identity read
completed, or the initial state if that run fails. -/
def sysMidInit : Sys :=
  ((discoverPeer sysPt1 0 0 (layoutA 0)).bind
    (fun s => identityRead s 0 0 (layoutA 0) idP001)).getD (Sys.init [])

/-- The record at index 0 of `sysMidInit`. -/
def recMidInit : BLERemDev := sysMidInit._bleCon.getD 0 BLERemDev.default

/-- The accessory at position `j` of the chain of `s`, or a new one if there
is none. -/
def accAt (s : Sys) (j : Nat) : RemAccessory :=
  match s.chain[j]? with
  | some (Reporter.remAcc a) => a
  | _ => RemAccessory.mk_ch_uuid K0 0 (UUID.short 0) u0

/-- The state of `firstTimeCodeOrder` for "Pt1" just before the subscription
write completes, or the initial state if that run fails. -/
def sysBeforeWritten : Sys :=
  (do
    let s1 ← discoverPeer sysPt1 0 0 (layoutA 0)
    let s2 ← identityRead s1 0 0 (layoutA 0) idP001
    let s3 ← descriptorSeen s2 0 (layoutA 0)
    let s4 ← descriptorsDone s3 0
    stateRead s4 0 0 (layoutA 0) 2).getD (Sys.init [])

/-- The completion of the subscription write of "Pt1", as a call. -/
def writtenCall : Call :=
  Call.dataWritten { connHandle := 0, handle := 15, status := 0 } (fun _ => BLE_ERROR_NONE)

/-- The state after `writtenCall` in `sysBeforeWritten`. -/
def sysAfterWritten : Sys := (call K0 sysBeforeWritten 0 writtenCall).getD (Sys.init [])

/-- The state once "Pt1" is connected and initialised for the first time, or
the initial state if that run fails. -/
def sysPt1Connected : Sys :=
  (firstTimeCodeOrder sysPt1 0 0 0 (layoutA 0) idP001 2).getD (Sys.init [])

/-- The state after "Pt1", connected and initialised, lost the link (reason
8). -/
def sysPt1Lost : Sys := onDisconnectionComplete K0 sysPt1Connected 0 8

/-- A reconnection of "Pt1" on connection handle 7: connect request, connection
complete, completion of the state read with byte 2, completion of the
subscription write. -/
def reconnectCalls : List Call :=
  [Call.connect BLE_ERROR_NONE,
   Call.initServiceDiscovery 7 (fun _ => BLE_ERROR_NONE),
   Call.dataRead { connHandle := 0, handle := 14, data := [2], status := 0 } BLE_ERROR_NONE,
   Call.dataWritten { connHandle := 0, handle := 15, status := 0 } (fun _ => BLE_ERROR_NONE)]

/-- The state after `reconnectCalls` from `sysPt1Lost`, or the initial state if
a call fails. -/
def sysPt1Reconnected : Sys := (calls K0 0 sysPt1Lost reconnectCalls).getD (Sys.init [])

/-- After the link loss of `sysPt1Lost`, `disconnect()` is called and the stack
refuses the request for the stale handle (answer 1); then a connect request for
"Pt1" is accepted. -/
def sysPt1ErrConnecting : Sys :=
  (connectByIndex (disconnect sysPt1Lost 1) 0 BLE_ERROR_NONE).2

/-- The connection complete event for "Pt1" arrives in `sysPt1ErrConnecting`,
on handle 0, and the accessory service is reported again. -/
def sysPt1Rediscovered : Sys :=
  ((onConnectionComplete K0 sysPt1ErrConnecting 0 (fun _ => BLE_ERROR_NONE)).map
    (fun s => _serviceDiscovered K0 s 0 getServUUID u0)).getD (Sys.init [])

/-- The state once "Pt1" is connected and initialised, with "Pt2" known and
not connected, or the initial state if that run fails. -/
def sysTwoFirstConnected : Sys :=
  (firstTimeCodeOrder sysTwo 0 0 0 (layoutA 0) idP001 2).getD (Sys.init [])

/-- A connect request for "Pt2" made in `sysTwoFirstConnected` and accepted by
the stack, then its connection complete event on handle 1. -/
def sysTwoSecondConnected : Sys :=
  (onConnectionComplete K0 (connectByIndex sysTwoFirstConnected 1 BLE_ERROR_NONE).2 1
    (fun _ => BLE_ERROR_NONE)).getD (Sys.init [])

/-- An identity of ten bytes, "ACCESSORY1". -/
def idTenBytes : List Nat := [0x41, 0x43, 0x43, 0x45, 0x53, 0x53, 0x4F, 0x52, 0x59, 0x31]

/-- A new accessory on connection handle 0. -/
def accNew : RemAccessory := RemAccessory.mk_ch_uuid K0 0 getServUUID u0

/-- An accessory with identity "P001" and reported state 2. -/
def accP001 : RemAccessory := setState (setRemAccId accNew idP001) 2

/-- An accessory with identity "P002" and reported state 2. -/
def accP002 : RemAccessory := setState (setRemAccId accNew [0x50, 0x30, 0x30, 0x32]) 2

/-- The state of `sysPt1Lost` after a connect request for "Pt1" was accepted. -/
def sysPt1Reconnecting : Sys := (connectByIndex sysPt1Lost 0 BLE_ERROR_NONE).2

/-- Embedding of `BLEcore::getUUID`, `UUID(_characUUID[u])`; the index is not
checked, `oob` is what a read past the table yields. -/
def getUUID (oob : UUID) (u : Nat) : UUID := _characUUID.getD u oob

/-- A characteristic that is none of the three roles: the device name. -/
def otherCharac : DiscoveredCharacteristic := (layoutA 0).devName

/-- One advertising report as `_processScanReport` receives it, with the
content of its uninitialised local `foundUUID128` and of the memory behind the
array `_bleCon` at that time. -/
structure ScanInput where
  junk : List Nat
  oob : List Nat
  event : AdvertisingReportEvent
deriving DecidableEq, Repr

/-- The scan callback run on a sequence of advertising reports. -/
def processScanReports (s : Sys) : List ScanInput → Sys
  | [] => s
  | x :: rest => processScanReports (_processScanReport s x.junk x.oob x.event) rest

/-- The registry invariant: the array has its `MAX_REMOTE_CON` elements, the
count does not exceed it, the names of the known records are not empty and
pairwise distinct, and the slots from the count on hold the empty name. -/
def registryInv (s : Sys) : Prop :=
  s._bleCon.length = MAX_REMOTE_CON ∧
  s._bleConCount ≤ MAX_REMOTE_CON ∧
  (∀ j, j < s._bleConCount → localNameAt s [] j ≠ []) ∧
  (∀ j k, j < k → k < s._bleConCount → localNameAt s [] j ≠ localNameAt s [] k) ∧
  (∀ j, s._bleConCount ≤ j → j < MAX_REMOTE_CON → localNameAt s [] j = [])

/-- Three reports in a row: "Pt1", "Pt2", and one that lists the point service
without a local name. -/
def scanInputs3 : List ScanInput :=
  [{ junk := zeros16, oob := [], event := pt1Report },
   { junk := zeros16, oob := [], event := pt2Report },
   { junk := zeros16, oob := [], event := namelessReport }]

/-- Connect to record `i`, connection complete on handle `ch`, discovery of the
GAP service and of one accessory service, and discovery termination, which
starts the read of the device name.  The stack accepts every request. -/
def discoverUntilTermination (s : Sys) (i ch : Nat) (L : PeerLayout) : Option Sys := do
  let s1 := (connectByIndex s (i : Int) BLE_ERROR_NONE).2
  let s2 ← onConnectionComplete K0 s1 ch (fun _ => BLE_ERROR_NONE)
  let s3 := _serviceDiscovered K0 s2 i (UUID.short BLE_UUID_GAP) u0
  let s4 ← _characDiscovered s3 i (UUID.short 0) L.devName
  let s5 := _serviceDiscovered K0 s4 i getServUUID u0
  let s6 ← _characDiscovered s5 i (UUID.short 0) L.idC
  let s7 ← _characDiscovered s6 i (UUID.short 0) L.stateC
  let s8 ← _characDiscovered s7 i (UUID.short 0) L.cmdC
  pure (_discoveryTermination s8 i BLE_ERROR_NONE)

/-- The state of "Pt1" on its first connection (handle 0) while the read of
the device name is outstanding, or the initial state if that run fails. -/
def sysPt1Discovered : Sys :=
  (discoverUntilTermination sysPt1 0 0 (layoutA 0)).getD (Sys.init [])

/-- The completion of the device name read of "Pt1"; `bleErr` is the answer of
the stack to the identity read that the handler requests. -/
def devNameReadDone (bleErr : Nat) : Option Sys :=
  _dataRead sysPt1Discovered 0 { connHandle := 0, handle := 3, data := [], status := 0 }
    bleErr

/-- The state of "Pt1" on its first connection while the identity read of its
accessory is outstanding, or the initial state if that run fails. -/
def sysIdPending : Sys := (discoverPeer sysPt1 0 0 (layoutA 0)).getD (Sys.init [])

/-- The state of "Pt1" on its first connection after the configuration
descriptor was reported and before descriptor discovery terminates, or the
initial state if that run fails. -/
def sysDescriptorSeen : Sys :=
  (descriptorSeen sysMidInit 0 (layoutA 0)).getD (Sys.init [])

/-- "Pt1" loses the link (reason 8) while the identity read of its accessory
is outstanding: `processDescrips` has not run for the accessory. -/
def sysLostBeforeIdentity : Sys := onDisconnectionComplete K0 sysIdPending 0 8

/-- The request that `initCharacteristics` makes for a reporter that is a
`RemAccessory`, in connection state `connState`; the loop of `_doNextDA` does
not call it for a reporter of another type. -/
def initRequest (connState : RemDevState_t) : Reporter → List Op
  | Reporter.remAcc a => (initCharacteristics a connState BLE_ERROR_NONE).2.2
  | Reporter.other => []

/-- Two peers, one after the other: "Pt1" is connected on handle 0 and
initialised, and loses the link; "Pt2" is connected on handle 1 and
initialised, and loses the link; then "Pt1" is connected again on handle 0 and
the state read of its accessory completes, which requests the subscription
write.  The chain holds the accessory of "Pt1" at position 0 and that of
"Pt2" at position 1. -/
def sysPt1Reinit : Sys :=
  (do
    let s1 ← firstTimeCodeOrder sysTwo 0 0 0 (layoutA 0) idP001 2
    let s2 := onDisconnectionComplete K0 s1 0 8
    let s3 ← firstTimeCodeOrder s2 1 1 1 (layoutB 1) [0x50, 0x30, 0x30, 0x32] 1
    let s4 := onDisconnectionComplete K0 s3 1 8
    reconnectUntilStateRead s4 0 2).getD (Sys.init [])

/-- The completion of the subscription write of "Pt1" in `sysPt1Reinit`;
`bleErr` is the answer of the stack to every read requested by the handler. -/
def reinitWritten (bleErr : Nat) : Option Sys :=
  _dataWritten K0 sysPt1Reinit 0 { connHandle := 0, handle := 15, status := 0 }
    (fun _ => bleErr)

/-! ## Requests outstanding during the initialisation loop -/

/-- The number of requests that the call completes: a read completion, a write
completion and the termination of descriptor discovery each complete the
request that led to them; a descriptor is reported while its discovery is
outstanding. -/
def completes : Call → Nat
  | Call.dataRead _ _ => 1
  | Call.dataWritten _ _ => 1
  | Call.ddDone _ _ => 1
  | _ => 0

/-- A report that lists the point service UUID, with the three byte local name
41 00 42. -/
def nulNameReport : AdvertisingReportEvent :=
  { peerAddress := [0xDD, 0x51, 0x51, 0x99, 0xE3, 0xCE], peerAddressType := 1,
    payload := [{ type := COMPLETE_LIST_128BIT_SERVICE_IDS, value := pointServUUIDBytes },
                { type := COMPLETE_LOCAL_NAME, value := [0x41, 0x00, 0x42] }] }

/-- The registry after the report `nulNameReport` was seen. -/
def sysNulName : Sys := _processScanReport (Sys.init []) zeros16 [] nulNameReport

/-! # Theorems -/

theorem copyUUIDBytes_length (l : List Nat) : ∀ (buf : List Nat) (x : Nat),
    (copyUUIDBytes buf x l).length = buf.length := by
  induction l with
  | nil => intro buf x; rfl
  | cons b rest ih => intro buf x; simp [copyUUIDBytes, ih]

theorem copyUUIDBytes_append (l1 : List Nat) : ∀ (buf : List Nat) (x : Nat) (l2 : List Nat),
    copyUUIDBytes buf x (l1 ++ l2) = copyUUIDBytes (copyUUIDBytes buf x l1) (x + l1.length) l2 := by
  induction l1 with
  | nil => intro buf x l2; simp [copyUUIDBytes]
  | cons b rest ih =>
    intro buf x l2
    show copyUUIDBytes (buf.set (x % 16) b) (x + 1) (rest ++ l2) = _
    rw [ih]
    simp only [copyUUIDBytes, List.length_cons]
    rw [show x + 1 + rest.length = x + (rest.length + 1) by omega]

theorem copyUUIDBytes_block (l : List Nat) : ∀ (buf : List Nat) (q o : Nat),
    buf.length = 16 → o + l.length ≤ 16 →
    copyUUIDBytes buf (16 * q + o) l = buf.take o ++ l ++ buf.drop (o + l.length) := by
  induction l with
  | nil => intro buf q o _ _; simp [copyUUIDBytes]
  | cons b rest ih =>
    intro buf q o hb ho
    simp only [List.length_cons] at ho
    have ho16 : o < 16 := by omega
    have hmod : (16 * q + o) % 16 = o := by omega
    have hlen : (buf.set o b).length = 16 := by simp [hb]
    have hstep := ih (buf.set o b) q (o + 1) hlen (by omega)
    simp only [copyUUIDBytes, hmod]
    rw [show 16 * q + o + 1 = 16 * q + (o + 1) by omega, hstep]
    have hset : buf.set o b = buf.take o ++ b :: buf.drop (o + 1) := by
      rw [List.set_eq_take_append_cons_drop]; simp [hb, ho16]
    have htake : (buf.take o).length = o := by simp [hb]; omega
    rw [hset]
    have h1 : (buf.take o ++ b :: buf.drop (o + 1)).take (o + 1) = buf.take o ++ [b] := by
      rw [List.take_append_eq_append_take]
      simp [htake]
    have h2 : (buf.take o ++ b :: buf.drop (o + 1)).drop (o + 1 + rest.length)
        = buf.drop (o + (rest.length + 1)) := by
      rw [List.drop_append_eq_append_drop]
      simp [htake]
      have : o + 1 + rest.length - o = (rest.length) + 1 := by omega
      rw [List.drop_eq_nil_of_le (by simp [hb]; omega)]
      simp [this]
      rw [show o + 1 + rest.length = o + (rest.length + 1) by omega]
    rw [h1, h2]
    simp [List.length_cons]



theorem copyUUIDBytes_whole : ∀ (k : Nat) (v buf : List Nat) (q : Nat),
    buf.length = 16 → v.length = 16 * (k + 1) →
    copyUUIDBytes buf (16 * q) v = v.drop (16 * k) := by
  intro k
  induction k with
  | zero =>
    intro v buf q hb hv
    have h := copyUUIDBytes_block v buf q 0 hb (by omega)
    simp only [Nat.add_zero, Nat.zero_add] at h
    rw [h]
    simp [List.drop_eq_nil_of_le (show buf.length ≤ v.length by omega)]
  | succ k ih =>
    intro v buf q hb hv
    have hsplit : v = v.take 16 ++ v.drop 16 := (List.take_append_drop 16 v).symm
    have ht : (v.take 16).length = 16 := by simp; omega
    have hd : (v.drop 16).length = 16 * (k + 1) := by simp; omega
    rw [hsplit, copyUUIDBytes_append, ht]
    have hin : (copyUUIDBytes buf (16 * q) (v.take 16)).length = 16 := by
      rw [copyUUIDBytes_length]; exact hb
    rw [show 16 * q + 16 = 16 * (q + 1) by omega, ih _ _ (q + 1) hin hd]
    rw [← hsplit, List.drop_drop]
    congr 1; omega

theorem copyUUIDBytes_last16 (v buf : List Nat) (hb : buf.length = 16)
    (hv : v.length % 16 = 0) (hne : v ≠ []) :
    copyUUIDBytes buf 0 v = v.drop (v.length - 16) := by
  have hpos : 0 < v.length := List.length_pos.mpr hne
  obtain ⟨k, hk⟩ : ∃ k, v.length = 16 * (k + 1) := ⟨v.length / 16 - 1, by omega⟩
  have h := copyUUIDBytes_whole k v buf 0 hb hk
  simp only [Nat.mul_zero] at h
  rw [h]
  congr 1; omega



theorem parsePayload_snoc (junk : List Nat) (l : List AdvField) (a : AdvField) :
    parsePayload junk (l ++ [a]) = parseField (parsePayload junk l) a := by
  simp [parsePayload, List.foldl_append]

theorem uuidListBytes_snoc (l : List AdvField) (a : AdvField) :
    uuidListBytes (l ++ [a]) = uuidListBytes l ++ (if is128List a then a.value else []) := by
  unfold uuidListBytes
  by_cases h : is128List a = true <;> simp [List.filter_append, h]

theorem displayName_snoc (l : List AdvField) (a : AdvField) :
    displayName (l ++ [a]) =
      displayName l ++ (if a.type = COMPLETE_LOCAL_NAME then a.value else []) := by
  unfold displayName
  by_cases h : a.type = COMPLETE_LOCAL_NAME <;> simp [List.filter_append, h]

/-- The name collected by the parsing loop is the display name of the payload. -/
theorem parsePayload_localName (junk : List Nat) (fields : List AdvField) :
    (parsePayload junk fields).localName = displayName fields := by
  induction fields using List.reverseRecOn with
  | nil => rfl
  | append_singleton l a ih =>
    rw [parsePayload_snoc, displayName_snoc, ← ih]
    unfold parseField
    by_cases h1 : a.type = COMPLETE_LOCAL_NAME
    · simp [h1]
    · by_cases h2 : a.type = INCOMPLETE_LIST_128BIT_SERVICE_IDS ∨
          a.type = COMPLETE_LIST_128BIT_SERVICE_IDS <;> simp [h1, h2]

/-- What the parsing loop holds in `foundUUID128` and `foundUUID` after a
payload whose 128 bit lists hold whole UUIDs. -/
theorem parsePayload_foundUUID (junk : List Nat) (hj : junk.length = 16)
    (fields : List AdvField) (hw : wholeUUIDs fields) :
    (parsePayload junk fields).foundUUID128.length = 16 ∧
    (uuidListBytes fields).length % 16 = 0 ∧
    (uuidListBytes fields ≠ [] →
      (parsePayload junk fields).foundUUID128 =
        (uuidListBytes fields).drop ((uuidListBytes fields).length - 16)) ∧
    ((∃ f ∈ fields, is128List f = true) →
      (parsePayload junk fields).foundUUID =
        UUID.long (parsePayload junk fields).foundUUID128) ∧
    ((∀ f ∈ fields, is128List f = false) →
      (parsePayload junk fields).foundUUID = UUID.short 0) := by
  induction fields using List.reverseRecOn with
  | nil =>
    refine ⟨hj, by simp [uuidListBytes], ?_, ?_, ?_⟩
    · intro h; exact absurd rfl h
    · rintro ⟨f, hf, _⟩; simp at hf
    · intro _; rfl
  | append_singleton l a ih =>
    have hwl : wholeUUIDs l := fun f hf h => hw f (by simp [hf]) h
    obtain ⟨ih1, ih2, ih3, ih4, ih5⟩ := ih hwl
    rw [parsePayload_snoc, uuidListBytes_snoc]
    by_cases h128 : is128List a = true
    · -- a list of 128 bit service ids
      have hty : a.type = INCOMPLETE_LIST_128BIT_SERVICE_IDS ∨
          a.type = COMPLETE_LIST_128BIT_SERVICE_IDS := by
        simpa [is128List] using h128
      have hnn : a.type ≠ COMPLETE_LOCAL_NAME := by
        rcases hty with h | h <;> rw [h] <;> decide
      have hval : a.value.length % 16 = 0 := hw a (by simp) h128
      have hu : (parseField (parsePayload junk l) a).foundUUID128 =
          copyUUIDBytes (parsePayload junk l).foundUUID128 0 a.value := by
        simp [parseField, hnn, hty]
      have hf : (parseField (parsePayload junk l) a).foundUUID =
          UUID.long (copyUUIDBytes (parsePayload junk l).foundUUID128 0 a.value) := by
        simp [parseField, hnn, hty]
      rw [hu, hf]
      simp only [h128, if_true]
      refine ⟨?_, ?_, ?_, ?_, ?_⟩
      · rw [copyUUIDBytes_length]; exact ih1
      · rw [List.length_append]; omega
      · intro hne
        by_cases hv : a.value = []
        · simp only [hv, List.append_nil, copyUUIDBytes] at hne ⊢
          exact ih3 hne
        · rw [copyUUIDBytes_last16 _ _ ih1 hval hv]
          have hpos : 0 < a.value.length := List.length_pos.mpr hv
          have h16 : 16 ≤ a.value.length := by omega
          rw [List.length_append,
            show (uuidListBytes l).length + a.value.length - 16 =
              (uuidListBytes l).length + (a.value.length - 16) by omega,
            List.drop_append]
      · intro _; trivial
      · intro hall
        have := hall a (by simp)
        rw [h128] at this; cases this
    · -- any other field leaves both locals alone
      have h128f : is128List a = false := by simpa using h128
      have hty : ¬ (a.type = INCOMPLETE_LIST_128BIT_SERVICE_IDS ∨
          a.type = COMPLETE_LIST_128BIT_SERVICE_IDS) := by
        simpa [is128List] using h128
      have hu : (parseField (parsePayload junk l) a).foundUUID128 =
          (parsePayload junk l).foundUUID128 := by
        unfold parseField
        by_cases h1 : a.type = COMPLETE_LOCAL_NAME <;> simp [h1, hty]
      have hf : (parseField (parsePayload junk l) a).foundUUID =
          (parsePayload junk l).foundUUID := by
        unfold parseField
        by_cases h1 : a.type = COMPLETE_LOCAL_NAME <;> simp [h1, hty]
      rw [hu, hf]
      simp only [h128f, Bool.false_eq_true, if_false, List.append_nil]
      refine ⟨ih1, ih2, ih3, ?_, ?_⟩
      · rintro ⟨f, hfm, hf128⟩
        rcases List.mem_append.mp hfm with hm | hm
        · exact ih4 ⟨f, hm, hf128⟩
        · simp at hm; subst hm; rw [h128f] at hf128; cases hf128
      · intro hall
        exact ih5 (fun f hm => hall f (by simp [hm]))

theorem chunks16_nil (fuel : Nat) : chunks16 fuel [] = [] := by
  cases fuel <;> simp [chunks16]

theorem chunks16_getLast : ∀ (k fuel : Nat) (bytes : List Nat),
    bytes.length = 16 * (k + 1) → k + 1 ≤ fuel →
    (chunks16 fuel bytes).getLast? = some (bytes.drop (16 * k)) := by
  intro k
  induction k with
  | zero =>
    intro fuel bytes hb hf
    obtain ⟨f, rfl⟩ : ∃ f, fuel = f + 1 := ⟨fuel - 1, by omega⟩
    have hne : bytes ≠ [] := by intro h; simp [h] at hb
    have hd : bytes.drop 16 = [] := List.drop_eq_nil_of_le (by omega)
    have ht : bytes.take 16 = bytes := List.take_of_length_le (by omega)
    simp [chunks16, hne, hd, chunks16_nil, ht]
  | succ k ih =>
    intro fuel bytes hb hf
    obtain ⟨f, rfl⟩ : ∃ f, fuel = f + 1 := ⟨fuel - 1, by omega⟩
    have hne : bytes ≠ [] := by intro h; simp [h] at hb
    have hd : (bytes.drop 16).length = 16 * (k + 1) := by simp; omega
    have h := ih f (bytes.drop 16) hd (by omega)
    simp only [chunks16, hne, if_false]
    cases hc : chunks16 f (bytes.drop 16) with
    | nil => rw [hc] at h; simp at h
    | cons c cs =>
      rw [hc] at h
      rw [List.getLast?_cons_cons, h, List.drop_drop]
      congr 2; omega

/-- The last advertised UUID is the last sixteen bytes of the lists. -/
theorem advertisedUUIDs_getLast (fields : List AdvField)
    (hlen : (uuidListBytes fields).length % 16 = 0) (hne : uuidListBytes fields ≠ []) :
    (advertisedUUIDs fields).getLast? =
      some ((uuidListBytes fields).drop ((uuidListBytes fields).length - 16)) := by
  have hpos : 0 < (uuidListBytes fields).length := List.length_pos.mpr hne
  obtain ⟨k, hk⟩ : ∃ k, (uuidListBytes fields).length = 16 * (k + 1) :=
    ⟨(uuidListBytes fields).length / 16 - 1, by omega⟩
  unfold advertisedUUIDs
  rw [chunks16_getLast k _ _ hk (by omega)]
  congr 2; omega

theorem strNe_false_iff (a b : List Nat) :
    strNe a b = false ↔ a.length = b.length ∧ cstr a = cstr b := by
  simp [strNe]

theorem strNe_self (a : List Nat) : strNe a a = false := by
  simp [strNe]

theorem strNe_ne (a b : List Nat) (h : strNe a b = true) : a ≠ b := by
  intro he
  rw [he, strNe_self] at h
  cases h

theorem strNe_nil (a : List Nat) : strNe a [] = true ↔ a ≠ [] := by
  constructor
  · exact strNe_ne a []
  · intro hne
    cases a with
    | nil => exact absurd rfl hne
    | cons x xs => simp [strNe]

theorem cstr_nulFree (a : List Nat) (h : ∀ x ∈ a, x ≠ 0) : cstr a = a := by
  unfold cstr
  rw [List.takeWhile_eq_self_iff]
  intro x hx
  simpa using h x hx

/-- For names without a NUL byte the `String` comparison is the comparison of
the names. -/
theorem strNe_nulFree (a b : List Nat) (ha : ∀ x ∈ a, x ≠ 0) (hb : ∀ x ∈ b, x ≠ 0) :
    strNe a b = true ↔ a ≠ b := by
  constructor
  · exact strNe_ne a b
  · intro hne
    by_contra hno
    have hf : strNe a b = false := by simpa using hno
    rw [strNe_false_iff, cstr_nulFree a ha, cstr_nulFree b hb] at hf
    exact hne hf.2

/-- Where the name search loop stops. -/
theorem findName_spec (s : Sys) (oob name : List Nat) : ∀ (fuel i : Nat),
    i + fuel = s._bleConCount →
    i ≤ findName s oob name fuel i ∧
    findName s oob name fuel i ≤ s._bleConCount ∧
    (findName s oob name fuel i < s._bleConCount →
      strNe name (localNameAt s oob (findName s oob name fuel i)) = false) ∧
    (∀ j, i ≤ j → j < findName s oob name fuel i →
      strNe name (localNameAt s oob j) = true) := by
  intro fuel
  induction fuel with
  | zero =>
    intro i hi
    simp only [findName]
    refine ⟨le_refl _, by omega, by omega, ?_⟩
    intro j h1 h2; omega
  | succ fuel ih =>
    intro i hi
    by_cases hc : i < s._bleConCount ∧ strNe name (localNameAt s oob i) = true
    · rw [findName, if_pos hc]
      obtain ⟨h1, h2, h3, h4⟩ := ih (i + 1) (by omega)
      refine ⟨by omega, h2, h3, ?_⟩
      intro j hj1 hj2
      by_cases hji : j = i
      · subst hji; exact hc.2
      · exact h4 j (by omega) hj2
    · rw [findName, if_neg hc]
      refine ⟨le_refl _, by omega, ?_, ?_⟩
      · intro hlt
        by_contra hne
        exact hc ⟨hlt, by simpa using hne⟩
      · intro j h1 h2; omega

/-- C1: for every accessory and every command value, if the reported state is
`P_UNAVAIL` or the value is neither `POINT_NORMAL` nor `POINT_REVERSE`, then
`setPoint` returns false, makes no call to the stack (no characteristic write)
and leaves the accessory, so its last command and its reported state, as it
was. -/
theorem C1_setPoint_rejected (K : DawsConsts) (a : RemAccessory) (pCom bleErr : Nat)
    (h : a._reportedState = K.P_UNAVAIL ∨
      (pCom ≠ K.POINT_NORMAL ∧ pCom ≠ K.POINT_REVERSE)) :
    (setPoint K a pCom bleErr).1 = false ∧
    (setPoint K a pCom bleErr).2.2 = [] ∧
    (setPoint K a pCom bleErr).2.1._cmd = a._cmd ∧
    (setPoint K a pCom bleErr).2.1._reportedState = a._reportedState ∧
    (setPoint K a pCom bleErr).2.1 = a := by
  unfold setPoint
  by_cases hu : a._reportedState = K.P_UNAVAIL
  · simp [hu]
  · rcases h with h | ⟨h1, h2⟩
    · exact absurd h hu
    · simp [hu, h1, h2]

/-- C1 at a concrete accessory: state unavailable (0), command `POINT_NORMAL`. -/
theorem C1_setPoint_rejected_witness :
    (RemAccessory.mk_ch_uuid ⟨0, 1, 2⟩ 0 getServUUID ⟨0, [], 0⟩)._reportedState = 0 ∧
    (setPoint ⟨0, 1, 2⟩ (RemAccessory.mk_ch_uuid ⟨0, 1, 2⟩ 0 getServUUID ⟨0, [], 0⟩) 1 0).1
      = false :=
  ⟨rfl, (C1_setPoint_rejected ⟨0, 1, 2⟩
    (RemAccessory.mk_ch_uuid ⟨0, 1, 2⟩ 0 getServUUID ⟨0, [], 0⟩) 1 0 (Or.inl rfl)).1⟩

/-- C2, the code at the failing input: the registry is empty, the report lists
the point service UUID and has the empty display name, which is the name of no
known record; the report is matched, yet no record is added and nothing is
published. -/
theorem C2_nameless_report_not_added :
    serviceMatch zeros16 namelessReport.payload = true ∧
    displayName namelessReport.payload = [] ∧
    (Sys.init [])._bleConCount = 0 ∧
    (_processScanReport (Sys.init []) zeros16 [] namelessReport)._bleConCount = 0 ∧
    (_processScanReport (Sys.init []) zeros16 [] namelessReport).events = [] ∧
    _processScanReport (Sys.init []) zeros16 [] namelessReport = Sys.init [] := by
  decide

/-- C3: a matching report whose display name is the name of a known record, or
that arrives while `MAX_REMOTE_CON` records are known, changes nothing: the
count, every record and the event log are as before. -/
theorem C3_known_or_full_unchanged (s : Sys) (junk oob : List Nat)
    (event : AdvertisingReportEvent)
    (_hmatch : serviceMatch junk event.payload = true)
    (h : (∃ i r, i < s._bleConCount ∧ s._bleCon[i]? = some r ∧
            r._localName = displayName event.payload) ∨
         s._bleConCount = MAX_REMOTE_CON) :
    (_processScanReport s junk oob event)._bleConCount = s._bleConCount ∧
    (_processScanReport s junk oob event)._bleCon = s._bleCon ∧
    (_processScanReport s junk oob event).events = s.events ∧
    _processScanReport s junk oob event = s := by
  have key : _processScanReport s junk oob event = s := by
    unfold _processScanReport
    simp only
    split
    · split
      · rename_i hcond
        exfalso
        rcases h with ⟨i, r, hi, hr, hname⟩ | hfull
        · rw [parsePayload_localName] at hcond
          obtain ⟨_, h2, h3, h4⟩ :=
            findName_spec s oob (displayName event.payload) s._bleConCount 0 (by omega)
          have hlt : findName s oob (displayName event.payload) s._bleConCount 0
              < s._bleConCount := by
            by_contra hge
            have hi2 : i < findName s oob (displayName event.payload) s._bleConCount 0 := by
              omega
            have h5 := h4 i (Nat.zero_le _) hi2
            rw [show localNameAt s oob i = displayName event.payload by
              simp [localNameAt, hr, hname], strNe_self] at h5
            cases h5
          rw [h3 hlt] at hcond
          exact absurd hcond.1 (by decide)
        · rw [hfull] at hcond
          exact absurd hcond.2 (lt_irrefl _)
      · rfl
    · rfl
  rw [key]
  exact ⟨rfl, rfl, rfl, rfl⟩

/-- C3 at a concrete input: "Pt1" is known and is reported again. -/
theorem C3_known_or_full_unchanged_witness :
    serviceMatch zeros16 pt1Report.payload = true ∧
    sysPt1._bleConCount = 1 ∧
    _processScanReport sysPt1 zeros16 [] pt1Report = sysPt1 :=
  ⟨by decide, by decide,
   (C3_known_or_full_unchanged sysPt1 zeros16 [] pt1Report (by decide)
     (Or.inl ⟨0, _, by decide, rfl, by decide⟩)).2.2.2⟩

/-- C4, the code at the failing input: the point service UUID is the first of
the two UUIDs listed by `twoUUIDReport`, whose list holds whole UUIDs; the
field loop writes the second UUID over the first in its one 16 byte buffer, the
report is not treated as matching, and the peer, not reported before, is not
added. -/
theorem C4_listed_but_not_matched :
    wholeUUIDs twoUUIDReport.payload ∧
    pointServUUIDBytes ∈ advertisedUUIDs twoUUIDReport.payload ∧
    serviceMatch zeros16 twoUUIDReport.payload = false ∧
    _processScanReport (Sys.init []) zeros16 [] twoUUIDReport = Sys.init [] := by
  refine ⟨?_, by decide, by decide, by decide⟩
  unfold wholeUUIDs
  decide

/-- What the field loop compares: when the 128 bit service id lists of a payload
hold whole UUIDs, and hold at least one or the payload has no such list, the
loop leaves the last UUID listed in its buffer, and only that one is compared
with the point service UUID; a report that is not matched changes nothing. -/
theorem serviceMatch_last_listed (s : Sys) (junk oob : List Nat)
    (event : AdvertisingReportEvent)
    (hj : junk.length = 16) (hw : wholeUUIDs event.payload)
    (hsome : advertisedUUIDs event.payload ≠ [] ∨
      ∀ f ∈ event.payload, is128List f = false) :
    (serviceMatch junk event.payload = true ↔
      (advertisedUUIDs event.payload).getLast? = some pointServUUIDBytes) ∧
    (serviceMatch junk event.payload = false →
      _processScanReport s junk oob event = s) := by
  obtain ⟨_, hlen, h3, h4, h5⟩ := parsePayload_foundUUID junk hj event.payload hw
  constructor
  · rcases hsome with hne | hnone
    · have hb : uuidListBytes event.payload ≠ [] := by
        intro h0
        apply hne
        simp [advertisedUUIDs, h0, chunks16]
      have hex : ∃ f ∈ event.payload, is128List f = true := by
        by_contra hno
        apply hb
        have hall : ∀ f ∈ event.payload, ¬ (is128List f = true) := by
          intro f hf h; exact hno ⟨f, hf, h⟩
        simp [uuidListBytes, List.filter_eq_nil_iff.mpr hall]
      rw [advertisedUUIDs_getLast _ hlen hb]
      unfold serviceMatch
      rw [h4 hex, h3 hb]
      simp [getServUUID]
    · have hb : uuidListBytes event.payload = [] := by
        have hall : ∀ f ∈ event.payload, ¬ (is128List f = true) := by
          intro f hf h; rw [hnone f hf] at h; cases h
        simp [uuidListBytes, List.filter_eq_nil_iff.mpr hall]
      unfold serviceMatch
      rw [h5 hnone]
      simp [advertisedUUIDs, hb, chunks16, getServUUID]
  · intro hno
    unfold serviceMatch at hno
    unfold _processScanReport
    simp only
    rw [if_neg (by simpa using hno)]

/-- C5: `_connect` on a record whose state is none of `CS_CONNECTABLE`,
`CS_DISCON`, `CS_ERR` returns false and makes no call to the stack; and whenever
`_connect` returns false, the records (so the state of the record), the active
session pointer and both completion callbacks are as before. -/
theorem C5_connect_failure_no_effect (s : Sys) (i : Nat) (bleErr : Nat) (r : BLERemDev)
    (hr : s._bleCon[i]? = some r) :
    (¬ (r._clientConState = CS_CONNECTABLE ∨ r._clientConState = CS_DISCON ∨
          r._clientConState = CS_ERR) →
      (_connect s i bleErr).1 = false ∧ (_connect s i bleErr).2.ops = s.ops ∧
      (_connect s i bleErr).2 = s) ∧
    ((_connect s i bleErr).1 = false →
      (_connect s i bleErr).2._bleCon = s._bleCon ∧
      (_connect s i bleErr).2._activeRemDev = s._activeRemDev ∧
      (_connect s i bleErr).2._onCentralConnect = s._onCentralConnect ∧
      (_connect s i bleErr).2._onCentralDisconnect = s._onCentralDisconnect) := by
  unfold _connect
  simp only [hr]
  by_cases hst : r._clientConState = CS_CONNECTABLE ∨ r._clientConState = CS_DISCON ∨
      r._clientConState = CS_ERR
  · simp only [hst, if_true]
    by_cases he : bleErr ≠ BLE_ERROR_NONE
    · simp [he, issue]
    · simp [he, issue]
  · simp [hst]

/-- C5 at a concrete input: record 0 of `sysPt1` is connectable and the stack
refuses the request (answer 1). -/
theorem C5_connect_failure_no_effect_witness :
    (_connect sysPt1 0 1).1 = false ∧
    (_connect sysPt1 0 1).2._bleCon = sysPt1._bleCon ∧
    (_connect sysPt1 0 1).2._activeRemDev = sysPt1._activeRemDev :=
  have h := (C5_connect_failure_no_effect sysPt1 0 1 _ rfl).2 (by decide)
  ⟨by decide, h.1, h.2.1⟩

/-- C6 as stated fails: after an accepted `connectByIndex(0)` the record is
still `CS_CONNECTABLE`, and a second request by index or by name is passed on
to the stack: it returns true when the stack accepts it, and a second
`gap().connect` call is made whatever the stack answers. -/
theorem C6_second_connect_reaches_stack :
    (connectByIndex sysPt1 0 BLE_ERROR_NONE).1 = true ∧
    (sysConnecting._bleCon[0]?).map (fun r => r._clientConState) = some CS_CONNECTABLE ∧
    sysConnecting.ops = [Op.gapConnect 1 [0xDD, 0x51, 0x51, 0x99, 0xE3, 0xCE]] ∧
    (connectByIndex sysConnecting 0 BLE_ERROR_NONE).1 = true ∧
    (connectByIndex sysConnecting 0 BLE_ERROR_NONE).2.ops =
      [Op.gapConnect 1 [0xDD, 0x51, 0x51, 0x99, 0xE3, 0xCE],
       Op.gapConnect 1 [0xDD, 0x51, 0x51, 0x99, 0xE3, 0xCE]] ∧
    (connectByName sysConnecting [] [0x50, 0x74, 0x31] BLE_ERROR_NONE).1 = true ∧
    (connectByName sysConnecting [] [0x50, 0x74, 0x31] BLE_ERROR_NONE).2.ops =
      [Op.gapConnect 1 [0xDD, 0x51, 0x51, 0x99, 0xE3, 0xCE],
       Op.gapConnect 1 [0xDD, 0x51, 0x51, 0x99, 0xE3, 0xCE]] ∧
    (connectByIndex sysConnecting 0 1).2.ops =
      [Op.gapConnect 1 [0xDD, 0x51, 0x51, 0x99, 0xE3, 0xCE],
       Op.gapConnect 1 [0xDD, 0x51, 0x51, 0x99, 0xE3, 0xCE]] := by
  decide

/-- Where the name search of `connectByName` stops. -/
theorem findByName_eq (s : Sys) (oob name : List Nat) (i : Nat)
    (hi : i < s._bleConCount) (hname : strNe (localNameAt s oob i) name = false) :
    ∀ (fuel k : Nat), k ≤ i → i - k < fuel →
      (∀ j, k ≤ j → j < i → strNe (localNameAt s oob j) name = true) →
      findByName s oob name fuel k = i := by
  intro fuel
  induction fuel with
  | zero => intro k _ h; omega
  | succ fuel ih =>
    intro k hk hf hlow
    by_cases hki : k = i
    · subst hki
      rw [findByName, if_neg (by simp [hname])]
    · have hklt : k < i := by omega
      rw [findByName, if_pos ⟨hlow k (le_refl _) hklt, by omega⟩]
      exact ih (k + 1) (by omega) (by omega) (fun j h1 h2 => hlow j (by omega) h2)

/-- C6 amended: after `_connect` has started a physical connection to record
`i` and before its connection complete event arrives, a second request for
that record by `connectByIndex`, or by `connectByName` with its name, passes the
state check: it makes one more `gap().connect` call for the record and returns
true exactly when the stack accepts that call. -/
theorem C6_second_connect_not_refused (s : Sys) (i : Nat) (r : BLERemDev)
    (oob name : List Nat) (e2 : Nat)
    (hi : i < s._bleConCount) (hr : s._bleCon[i]? = some r)
    (h1 : (connectByIndex s i BLE_ERROR_NONE).1 = true)
    (hname : r._localName = name)
    (hlow : ∀ j, j < i → strNe (localNameAt s oob j) name = true) :
    (connectByIndex (connectByIndex s i BLE_ERROR_NONE).2 i e2).1
      = (e2 == BLE_ERROR_NONE) ∧
    (connectByIndex (connectByIndex s i BLE_ERROR_NONE).2 i e2).2.ops
      = (connectByIndex s i BLE_ERROR_NONE).2.ops ++ [Op.gapConnect r._peerAddType r._peerAdd] ∧
    (connectByName (connectByIndex s i BLE_ERROR_NONE).2 oob name e2).1
      = (e2 == BLE_ERROR_NONE) ∧
    (connectByName (connectByIndex s i BLE_ERROR_NONE).2 oob name e2).2.ops
      = (connectByIndex s i BLE_ERROR_NONE).2.ops ++ [Op.gapConnect r._peerAddType r._peerAdd] := by
  have hidx : ((i : Int) < (s._bleConCount : Int) ∧ (i : Int) ≥ 0) := by
    constructor <;> omega
  have hst : r._clientConState = CS_CONNECTABLE ∨ r._clientConState = CS_DISCON ∨
      r._clientConState = CS_ERR := by
    by_contra hno
    simp [connectByIndex, hidx, _connect, hr, hno] at h1
  have hs1 : (connectByIndex s i BLE_ERROR_NONE).2 =
      { issue s [Op.gapConnect r._peerAddType r._peerAdd] with
        _onCentralConnect := some i, _onCentralDisconnect := some i,
        _activeRemDev := some i } := by
    simp [connectByIndex, hidx, _connect, hr, hst]
  rw [hs1]
  have hcon : ∀ e, _connect
      { issue s [Op.gapConnect r._peerAddType r._peerAdd] with
        _onCentralConnect := some i, _onCentralDisconnect := some i,
        _activeRemDev := some i } i e =
      (if e ≠ BLE_ERROR_NONE then
        (false, issue { issue s [Op.gapConnect r._peerAddType r._peerAdd] with
          _onCentralConnect := some i, _onCentralDisconnect := some i,
          _activeRemDev := some i } [Op.gapConnect r._peerAddType r._peerAdd])
       else
        (true, { issue { issue s [Op.gapConnect r._peerAddType r._peerAdd] with
          _onCentralConnect := some i, _onCentralDisconnect := some i,
          _activeRemDev := some i } [Op.gapConnect r._peerAddType r._peerAdd] with
          _onCentralConnect := some i, _onCentralDisconnect := some i,
          _activeRemDev := some i })) := by
    intro e
    simp [_connect, issue, hr, hst]
  have hfind : findByName
      { issue s [Op.gapConnect r._peerAddType r._peerAdd] with
        _onCentralConnect := some i, _onCentralDisconnect := some i,
        _activeRemDev := some i } oob name (s._bleConCount + 1) 0 = i := by
    apply findByName_eq _ oob name i
    · exact hi
    · simp [localNameAt, issue, hr, hname, strNe_self]
    · omega
    · omega
    · intro j _ hj
      have := hlow j hj
      simpa [localNameAt, issue] using this
  refine ⟨?_, ?_, ?_, ?_⟩
  · simp only [connectByIndex, issue, hidx, and_self, if_true, Int.toNat_ofNat]
    have := hcon e2
    simp only [issue] at this
    rw [this]
    by_cases he : e2 = BLE_ERROR_NONE <;> simp [he]
  · simp only [connectByIndex, issue, hidx, and_self, if_true, Int.toNat_ofNat]
    have := hcon e2
    simp only [issue] at this
    rw [this]
    by_cases he : e2 = BLE_ERROR_NONE <;> simp [he]
  · unfold connectByName
    simp only [issue] at hfind hcon ⊢
    rw [hfind, if_pos hi, hcon e2]
    by_cases he : e2 = BLE_ERROR_NONE <;> simp [he]
  · unfold connectByName
    simp only [issue] at hfind hcon ⊢
    rw [hfind, if_pos hi, hcon e2]
    by_cases he : e2 = BLE_ERROR_NONE <;> simp [he]

/-- C6 amended, at a concrete input: record 0 of `sysPt1`, named "Pt1", and a
second request that the stack refuses with answer 1. -/
theorem C6_second_connect_not_refused_witness :
    (connectByIndex sysPt1 0 BLE_ERROR_NONE).1 = true ∧
    (connectByIndex (connectByIndex sysPt1 (0 : Nat) BLE_ERROR_NONE).2 (0 : Nat) 1).1
      = false ∧
    (connectByIndex (connectByIndex sysPt1 (0 : Nat) BLE_ERROR_NONE).2 (0 : Nat) 1).2.ops
      = (connectByIndex sysPt1 (0 : Nat) BLE_ERROR_NONE).2.ops ++
        [Op.gapConnect 1 [0xDD, 0x51, 0x51, 0x99, 0xE3, 0xCE]] :=
  have h := C6_second_connect_not_refused sysPt1 0
    { BLERemDev.default with
      _localName := [0x50, 0x74, 0x31],
      _peerAdd := [0xDD, 0x51, 0x51, 0x99, 0xE3, 0xCE], _peerAddType := 1,
      _clientConState := CS_CONNECTABLE }
    [] [0x50, 0x74, 0x31] 1 (by decide) (by decide) (by decide) rfl
    (fun j hj => absurd hj (Nat.not_lt_zero j))
  ⟨by decide, h.1, h.2.1⟩

theorem take_succ_set {α : Type} (l : List α) (j : Nat) (x : α) (h : j < l.length) :
    (l.set j x).take (j + 1) = l.take j ++ [x] := by
  rw [List.set_eq_take_append_cons_drop, if_pos h, List.take_append_eq_append_take]
  have hl : (List.take j l).length = j := by simp; omega
  simp [hl]

/-- What the walk of `_queueRemAccReps` over a suffix of the chain does. -/
theorem queueRemAccRepsFrom_spec (K : DawsConsts) (ch : Nat) (ty : EventType) (info : Int) :
    ∀ (todo : List Reporter) (j : Nat) (s : Sys), s.chain.drop j = todo →
      queueRemAccRepsFrom K ch ty info todo j s =
        { s with chain := s.chain.take j ++ todo.map (markUnavail K ch ty),
                 events := s.events ++ accReports ch ty info todo j } := by
  intro todo
  induction todo with
  | nil =>
    intro j s h
    have hj : s.chain.length ≤ j := List.drop_eq_nil_iff.mp h
    simp [queueRemAccRepsFrom, accReports, List.take_of_length_le hj]
  | cons rep rest ih =>
    intro j s h
    have hjlt : j < s.chain.length := by
      by_contra hge
      rw [List.drop_eq_nil_of_le (by omega)] at h
      cases h
    have hrest : s.chain.drop (j + 1) = rest := by
      have := congrArg List.tail h
      simpa [List.tail_drop] using this
    have htake : s.chain.take (j + 1) = s.chain.take j ++ [rep] := by
      have h0 : s.chain[j]? = some rep := by
        have := congrArg List.head? h
        simpa [List.head?_drop] using this
      rw [List.take_succ, h0]; rfl
    cases rep with
    | other =>
      rw [queueRemAccRepsFrom, ih (j + 1) s hrest, htake]
      simp [accReports, accOn, markUnavail]
    | remAcc a =>
      rw [queueRemAccRepsFrom]
      by_cases hm : a._connHandle = ch
      · simp only [hm, if_true]
        by_cases hty : ty = RA_DISCONNECTED
        · subst hty
          have hdrop : ((queueReport (setAcc s j (setState a K.P_UNAVAIL))
              (Source.reporter j) RA_DISCONNECTED info).chain).drop (j + 1) = rest := by
            simp [queueReport, setAcc, List.drop_set, hrest]
          simp only [if_true]
          rw [ih (j + 1) _ hdrop]
          have hts : (s.chain.set j (Reporter.remAcc (setState a K.P_UNAVAIL))).take (j + 1)
              = s.chain.take j ++ [Reporter.remAcc (setState a K.P_UNAVAIL)] := by
            exact take_succ_set _ _ _ hjlt
          simp [queueReport, setAcc, accReports, accOn, markUnavail, hm, hts]
        · simp only [hty, if_false]
          have hdrop : ((queueReport s (Source.reporter j) ty info).chain).drop (j + 1)
              = rest := by
            simp [queueReport, hrest]
          rw [ih (j + 1) _ hdrop]
          simp [queueReport, accReports, accOn, markUnavail, hm, hty, htake]
      · simp only [hm, if_false]
        rw [ih (j + 1) s hrest, htake]
        simp [accReports, accOn, markUnavail, hm]

/-- What `_queueRemAccReps` does to the chain and to the event log. -/
theorem queueRemAccReps_eq (K : DawsConsts) (s : Sys) (ch : Nat) (ty : EventType)
    (info : Int) :
    _queueRemAccReps K s ch ty info =
      { s with chain := s.chain.map (markUnavail K ch ty),
               events := s.events ++ accReports ch ty info s.chain 0 } := by
  unfold _queueRemAccReps
  rw [queueRemAccRepsFrom_spec K ch ty info s.chain 0 s (by simp)]
  simp

/-- The walk queues nothing for reporters before its start. -/
theorem reportsOf_accReports_lt (ch : Nat) (ty ty2 : EventType) (info : Int) :
    ∀ (todo : List Reporter) (j k : Nat), k < j →
      reportsOf (accReports ch ty info todo j) k ty2 = 0 := by
  intro todo
  induction todo with
  | nil => intro j k _; simp [accReports, reportsOf]
  | cons rep rest ih =>
    intro j k hk
    have h := ih (j + 1) k (by omega)
    unfold reportsOf at h ⊢
    rw [accReports, List.countP_append, h]
    by_cases hm : accOn ch rep = true
    · have hne : ¬ (j = k) := by omega
      simp [hm, List.countP_cons, hne]
    · simp [hm]

/-- The walk queues exactly one report for each accessory on the connection
and none for any other reporter. -/
theorem reportsOf_accReports (ch : Nat) (ty : EventType) (info : Int) :
    ∀ (todo : List Reporter) (j n : Nat),
      reportsOf (accReports ch ty info todo j) (j + n) ty =
        if (todo[n]?).map (accOn ch) = some true then 1 else 0 := by
  intro todo
  induction todo with
  | nil => intro j n; simp [accReports, reportsOf]
  | cons rep rest ih =>
    intro j n
    cases n with
    | zero =>
      have h := reportsOf_accReports_lt ch ty ty info rest (j + 1) j (by omega)
      unfold reportsOf at h ⊢
      rw [Nat.add_zero, accReports, List.countP_append, h]
      by_cases hm : accOn ch rep = true
      · simp [hm, List.countP_cons]
      · simp [hm]
    | succ n =>
      have h := ih (j + 1) n
      rw [show j + 1 + n = j + (n + 1) by omega] at h
      unfold reportsOf at h ⊢
      rw [accReports, List.countP_append, h]
      by_cases hm : accOn ch rep = true
      · have hne : ¬ (j = j + (n + 1)) := by omega
        simp [hm, List.countP_cons, hne]
      · simp [hm]

/-- The walk queues reports of its own type only. -/
theorem reportsOf_accReports_type (ch : Nat) (ty ty2 : EventType) (info : Int)
    (hty : ty ≠ ty2) :
    ∀ (todo : List Reporter) (j k : Nat),
      reportsOf (accReports ch ty info todo j) k ty2 = 0 := by
  intro todo
  induction todo with
  | nil => intro j k; simp [accReports, reportsOf]
  | cons rep rest ih =>
    intro j k
    have h := ih (j + 1) k
    unfold reportsOf at h ⊢
    rw [accReports, List.countP_append, h]
    by_cases hm : accOn ch rep = true
    · simp [hm, List.countP_cons, hty]
    · simp [hm]

/-- C7: for every disconnection complete event whose connection handle is the
`_connHandle` of the record, in whatever state the record is:
the record goes to `CS_DISCON`, both completion callbacks are cleared, and
every accessory of the chain whose connection handle is that handle has its
reported state set to `P_UNAVAIL` and gets exactly one `RA_DISCONNECTED`
report. -/
theorem C7_disconnection_complete (K : DawsConsts) (s : Sys) (i : Nat) (r : BLERemDev)
    (reason : Int) (hr : s._bleCon[i]? = some r) :
    ((_serverDisconnected K s i r._connHandle reason)._bleCon[i]?).map
        (fun x => x._clientConState) = some CS_DISCON ∧
    (_serverDisconnected K s i r._connHandle reason)._onCentralConnect = none ∧
    (_serverDisconnected K s i r._connHandle reason)._onCentralDisconnect = none ∧
    (∀ j a, s.chain[j]? = some (Reporter.remAcc a) → a._connHandle = r._connHandle →
      (_serverDisconnected K s i r._connHandle reason).chain[j]? =
        some (Reporter.remAcc (setState a K.P_UNAVAIL)) ∧
      getState (setState a K.P_UNAVAIL) = K.P_UNAVAIL ∧
      reportsOf (newEvents s (_serverDisconnected K s i r._connHandle reason)) j
        RA_DISCONNECTED = 1) := by
  have hlen : i < s._bleCon.length := by
    by_contra hge
    rw [List.getElem?_eq_none (by omega)] at hr
    cases hr
  have heq : _serverDisconnected K s i r._connHandle reason =
      { s with _bleCon := s._bleCon.set i { r with _clientConState := CS_DISCON },
               _onCentralConnect := none, _onCentralDisconnect := none,
               chain := s.chain.map (markUnavail K r._connHandle RA_DISCONNECTED),
               events := s.events ++
                 accReports r._connHandle RA_DISCONNECTED reason s.chain 0 } := by
    unfold _serverDisconnected
    simp only [hr, if_true]
    rw [queueRemAccReps_eq]
    simp [setRec]
  rw [heq]
  refine ⟨?_, rfl, rfl, ?_⟩
  · simp [hlen]
  · intro j a hj ha
    refine ⟨?_, rfl, ?_⟩
    · simp [hj, markUnavail, ha]
    · have h := reportsOf_accReports r._connHandle RA_DISCONNECTED reason s.chain 0 j
      simp only [Nat.zero_add, hj, Option.map_some', accOn, ha, beq_self_eq_true,
        if_true] at h
      simpa [newEvents] using h

theorem map_set_same {α β : Type} (f : α → β) (l : List α) (j : Nat) (x y : α)
    (hx : l[j]? = some x) (hf : f y = f x) : (l.set j y).map f = l.map f := by
  apply List.ext_getElem?
  intro k
  by_cases hk : j = k
  · subst hk
    have hlt : j < l.length := by
      by_contra hge
      rw [List.getElem?_eq_none (by omega)] at hx
      cases hx
    have hxe : l[j] = x := by
      rw [List.getElem?_eq_getElem hlt] at hx
      exact Option.some.inj hx
    simp [hf, hlt, hxe]
  · simp [List.getElem?_set_ne hk]

theorem markUnavail_other (K : DawsConsts) (ch : Nat) (ty : EventType)
    (h : ty ≠ RA_DISCONNECTED) (rep : Reporter) : markUnavail K ch ty rep = rep := by
  cases rep with
  | other => rfl
  | remAcc a => simp [markUnavail, h]

theorem initCharacteristics_connHandle (a : RemAccessory) (st : RemDevState_t) (e : Nat) :
    (initCharacteristics a st e).2.1._connHandle = a._connHandle := by
  unfold initCharacteristics
  by_cases h : st = CS_CON_INIT <;> simp [h]

/-- The walk of `_doNextDA` queues no report, touches no record and leaves the
connection handle of every reporter alone. -/
theorem nextDALoop_spec (st : RemDevState_t) (readErr : Nat → Nat) :
    ∀ (todo : List Reporter) (j : Nat) (s : Sys), s.chain.drop j = todo →
      (nextDALoop st readErr todo j s).2.events = s.events ∧
      (nextDALoop st readErr todo j s).2._bleCon = s._bleCon ∧
      (∀ ch, (nextDALoop st readErr todo j s).2.chain.map (accOn ch)
        = s.chain.map (accOn ch)) := by
  intro todo
  induction todo with
  | nil => intro j s _; simp [nextDALoop]
  | cons rep rest ih =>
    intro j s h
    have hjlt : j < s.chain.length := by
      by_contra hge
      rw [List.drop_eq_nil_of_le (by omega)] at h
      cases h
    have hrest : s.chain.drop (j + 1) = rest := by
      have := congrArg List.tail h
      simpa [List.tail_drop] using this
    have h0 : s.chain[j]? = some rep := by
      have := congrArg List.head? h
      simpa [List.head?_drop] using this
    cases rep with
    | other =>
      rw [nextDALoop]
      exact ih (j + 1) s hrest
    | remAcc a =>
      rw [nextDALoop]
      have hmap : ∀ ch, (issue (setAcc s j (initCharacteristics a st (readErr j)).2.1)
          (initCharacteristics a st (readErr j)).2.2).chain.map (accOn ch)
            = s.chain.map (accOn ch) := by
        intro ch
        simp only [issue, setAcc]
        apply map_set_same _ _ _ _ _ h0
        simp [accOn, initCharacteristics_connHandle]
      by_cases hok : (initCharacteristics a st (readErr j)).1 = true
      · simp only [hok, if_true]
        exact ⟨by simp [issue, setAcc], by simp [issue, setAcc], hmap⟩
      · simp only [hok, Bool.false_eq_true, if_false]
        have hdrop : (issue (setAcc s j (initCharacteristics a st (readErr j)).2.1)
            (initCharacteristics a st (readErr j)).2.2).chain.drop (j + 1) = rest := by
          simp [issue, setAcc, List.drop_set, hrest]
        obtain ⟨h1, h2, h3⟩ := ih (j + 1) _ hdrop
        refine ⟨by rw [h1]; simp [issue, setAcc], by rw [h2]; simp [issue, setAcc], ?_⟩
        intro ch
        rw [h3 ch, hmap ch]

/-- Embedding of `_doNextDA` either finishes the walk, queues the `RA_CONNECTED` reports
followed by `BLE_SERVICES_AVAIL` and sets `CS_CONNECTED`, or makes a further
accessory current and queues nothing. -/
theorem doNextDA_spec (K : DawsConsts) (s t : Sys) (i : Nat) (r : BLERemDev)
    (readErr : Nat → Nat) (hr : s._bleCon[i]? = some r)
    (h : _doNextDA K s i readErr = some t) :
    (t._bleCon[i]? = some { r with _clientConState := CS_CONNECTED } ∧
      t.events = s.events ++ accReports r._connHandle RA_CONNECTED r._connHandle t.chain 0
        ++ [{ src := Source.core, type := BLE_SERVICES_AVAIL, info := 0 }]) ∨
    (t.events = s.events ∧ ∃ j, t._bleCon[i]? = some { r with _remAcc := some j }) := by
  have hlen : i < s._bleCon.length := by
    by_contra hge
    rw [List.getElem?_eq_none (by omega)] at hr
    cases hr
  unfold _doNextDA at h
  simp only [hr] at h
  cases hd : derefAcc s r._remAcc with
  | none => rw [hd] at h; cases h
  | some p =>
    obtain ⟨cur, a0⟩ := p
    rw [hd] at h
    simp only at h
    obtain ⟨h1, h2, _⟩ := nextDALoop_spec r._clientConState readErr
      (s.chain.drop (cur + 1)) (cur + 1) s rfl
    cases hres : (nextDALoop r._clientConState readErr (s.chain.drop (cur + 1))
        (cur + 1) s).1 with
    | none =>
      rw [hres] at h
      simp only [Option.some.injEq] at h
      left
      rw [← h, queueRemAccReps_eq]
      constructor
      · simp [queueReport, setRec, h2, hlen]
      · simp [queueReport, setRec, h1,
          List.map_congr_left (fun x _ => markUnavail_other K r._connHandle RA_CONNECTED
            (by decide) x)]
    | some j =>
      rw [hres] at h
      simp only [Option.some.injEq] at h
      right
      rw [← h]
      exact ⟨by simp [setRec, h1], j, by simp [setRec, h2, hlen]⟩

theorem newEvents_self_append (s t : Sys) (ev : List Report)
    (h : t.events = s.events ++ ev) : newEvents s t = ev := by
  simp [newEvents, h]

theorem conState_setRec (s : Sys) (i : Nat) (r : BLERemDev) (h : i < s._bleCon.length) :
    conState (setRec s i r) i = some r._clientConState := by
  simp [conState, setRec, h]

/-- A call that queues no `RA_CONNECTED` report and does not take the record
into `CS_CONNECTED` meets both parts of the statement on connected reports. -/
theorem connectedReports_quiet (s t : Sys) (i : Nat)
    (hev : ∀ j, reportsOf (newEvents s t) j RA_CONNECTED = 0)
    (hst : conState t i = conState s i ∨ conState t i ≠ some CS_CONNECTED) :
    ((conState s i ≠ some CS_CONNECTED ∧ conState t i = some CS_CONNECTED) →
      ∃ r1, t._bleCon[i]? = some r1 ∧ ∀ j, reportsOf (newEvents s t) j RA_CONNECTED =
        if (t.chain[j]?).map (accOn r1._connHandle) = some true then 1 else 0) ∧
    (¬ (conState s i ≠ some CS_CONNECTED ∧ conState t i = some CS_CONNECTED) →
      ∀ j, reportsOf (newEvents s t) j RA_CONNECTED = 0) := by
  constructor
  · rintro ⟨h1, h2⟩
    rcases hst with h | h
    · rw [h] at h2; exact absurd h2 h1
    · exact absurd h2 h
  · intro _; exact hev

/-- The outcome of `_doNextDA` meets both parts of the statement on connected
reports, from any earlier state `s` with the same event log. -/
theorem connectedReports_doNextDA (K : DawsConsts) (s s1 t : Sys) (i : Nat)
    (r1 : BLERemDev) (readErr : Nat → Nat)
    (hev : s1.events = s.events) (hr1 : s1._bleCon[i]? = some r1)
    (hne : r1._clientConState ≠ CS_CONNECTED)
    (hs : conState s i ≠ some CS_CONNECTED)
    (h : _doNextDA K s1 i readErr = some t) :
    ((conState s i ≠ some CS_CONNECTED ∧ conState t i = some CS_CONNECTED) →
      ∃ r2, t._bleCon[i]? = some r2 ∧ ∀ j, reportsOf (newEvents s t) j RA_CONNECTED =
        if (t.chain[j]?).map (accOn r2._connHandle) = some true then 1 else 0) ∧
    (¬ (conState s i ≠ some CS_CONNECTED ∧ conState t i = some CS_CONNECTED) →
      ∀ j, reportsOf (newEvents s t) j RA_CONNECTED = 0) := by
  rcases doNextDA_spec K s1 t i r1 readErr hr1 h with ⟨hrec, hevt⟩ | ⟨hevt, j0, hrec⟩
  · have hnew : newEvents s t =
        accReports r1._connHandle RA_CONNECTED r1._connHandle t.chain 0
          ++ [{ src := Source.core, type := BLE_SERVICES_AVAIL, info := 0 }] := by
      apply newEvents_self_append
      rw [hevt, hev, List.append_assoc]
    have hcount : ∀ j, reportsOf (newEvents s t) j RA_CONNECTED =
        if (t.chain[j]?).map (accOn r1._connHandle) = some true then 1 else 0 := by
      intro j
      have hc := reportsOf_accReports r1._connHandle RA_CONNECTED r1._connHandle t.chain 0 j
      rw [Nat.zero_add] at hc
      rw [hnew, ← hc]
      simp [reportsOf, List.countP_append, List.countP_cons]
    constructor
    · intro _
      exact ⟨_, hrec, hcount⟩
    · intro hno
      exfalso
      apply hno
      exact ⟨hs, by simp [conState, hrec]⟩
  · apply connectedReports_quiet
    · intro j
      have : newEvents s t = [] := by
        apply newEvents_self_append; rw [hevt, hev]; simp
      simp [this, reportsOf]
    · right
      simp [conState, hrec, hne]

/-- Which `RA_CONNECTED` reports a call on a record publishes: only a call that
takes the record into `CS_CONNECTED` publishes any, and it publishes one for
each accessory of the chain whose stored connection handle is the
`_connHandle` of the record, whatever connection the accessory was discovered
on. -/
theorem connectedReports_call (K : DawsConsts) (s t : Sys) (i : Nat) (c : Call)
    (r : BLERemDev) (hr : s._bleCon[i]? = some r) (hcall : call K s i c = some t) :
    ((conState s i ≠ some CS_CONNECTED ∧ conState t i = some CS_CONNECTED) →
      ∃ r1, t._bleCon[i]? = some r1 ∧ ∀ j, reportsOf (newEvents s t) j RA_CONNECTED =
        if (t.chain[j]?).map (accOn r1._connHandle) = some true then 1 else 0) ∧
    (¬ (conState s i ≠ some CS_CONNECTED ∧ conState t i = some CS_CONNECTED) →
      ∀ j, reportsOf (newEvents s t) j RA_CONNECTED = 0) := by
  have hlen : i < s._bleCon.length := by
    by_contra hge
    rw [List.getElem?_eq_none (by omega)] at hr
    cases hr
  have hcs : conState s i = some r._clientConState := by simp [conState, hr]
  have quiet0 : ∀ u : Sys, u.events = s.events →
      ∀ j, reportsOf (newEvents s u) j RA_CONNECTED = 0 := by
    intro u hu j
    simp [newEvents, hu, reportsOf]
  cases c with
  | connect bleErr =>
    simp only [call, Option.some.injEq] at hcall
    subst hcall
    apply connectedReports_quiet
    · apply quiet0
      unfold _connect
      simp only [hr]
      split
      · split <;> simp [issue]
      · rfl
    · left
      unfold _connect
      simp only [hr]
      split
      · split <;> simp [issue, conState]
      · rfl
  | disconn bleErr =>
    simp only [call, Option.some.injEq] at hcall
    subst hcall
    apply connectedReports_quiet
    · apply quiet0
      unfold _disconn
      simp only [hr]
      split <;> simp [issue, setRec]
    · right
      unfold _disconn
      simp only [hr]
      split <;> simp [issue, setRec, conState, hlen]
  | initServiceDiscovery ch readErr =>
    simp only [call] at hcall
    unfold _initServiceDiscovery at hcall
    simp only [hr] at hcall
    by_cases h1 : r._clientConState = CS_CONNECTABLE ∨ r._clientConState = CS_ERR
    · simp only [h1, if_true, Option.some.injEq] at hcall
      subst hcall
      apply connectedReports_quiet
      · apply quiet0; simp [issue, setRec]
      · right; simp [issue, setRec, conState, hlen]
    · simp only [h1, if_false] at hcall
      by_cases h2 : r._clientConState = CS_DISCON
      · simp only [h2, if_true] at hcall
        split at hcall
        · cases hcall
        · rename_i j a hd
          split at hcall
          · simp only [Option.some.injEq] at hcall
            subst hcall
            apply connectedReports_quiet
            · apply quiet0; simp [issue, setAcc, setRec]
            · right; simp [issue, setAcc, setRec, conState, hlen]
          · refine connectedReports_doNextDA K s _ t i
              { r with _connHandle := ch, _remAcc := r._firstRemAcc,
                       _clientConState := CS_RECON_INIT } readErr ?_ ?_ ?_ ?_ hcall
            · simp [issue, setAcc, setRec]
            · simp [issue, setAcc, setRec, hlen]
            · simp
            · rw [hcs, h2]; simp
      · simp only [h2, if_false, Option.some.injEq] at hcall
        subst hcall
        exact connectedReports_quiet _ _ _ (quiet0 _ rfl) (Or.inl rfl)
  | serverDisconnected handle reason =>
    simp only [call, Option.some.injEq] at hcall
    subst hcall
    unfold _serverDisconnected
    simp only [hr]
    by_cases hh : handle = r._connHandle
    · simp only [hh, if_true]
      rw [queueRemAccReps_eq]
      apply connectedReports_quiet
      · intro j
        have hnew : newEvents s
            { (setRec s i { r with _clientConState := CS_DISCON }) with
              _onCentralConnect := none, _onCentralDisconnect := none,
              chain := List.map (markUnavail K r._connHandle RA_DISCONNECTED)
                (setRec s i { r with _clientConState := CS_DISCON }).chain,
              events := (setRec s i { r with _clientConState := CS_DISCON }).events ++
                accReports r._connHandle RA_DISCONNECTED reason
                  (setRec s i { r with _clientConState := CS_DISCON }).chain 0 }
            = accReports r._connHandle RA_DISCONNECTED reason s.chain 0 := by
          apply newEvents_self_append
          simp [setRec]
        simp only [hnew]
        exact reportsOf_accReports_type _ _ _ _ (by decide) _ _ _
      · right; simp [setRec, conState, hlen]
    · simp only [hh, if_false]
      exact connectedReports_quiet _ _ _ (quiet0 _ rfl) (Or.inl rfl)
  | serviceDiscovered uuid u =>
    simp only [call, Option.some.injEq] at hcall
    subst hcall
    unfold _serviceDiscovered
    simp only [hr]
    by_cases h1 : uuid = getServUUID
    · simp only [h1, if_true]
      by_cases h2 : r._clientConState = CS_CON_FIRST
      · simp only [h2, if_true]
        apply connectedReports_quiet
        · apply quiet0; simp [setRec]
        · right; simp [setRec, conState, hlen]
      · simp only [h2, if_false]
        apply connectedReports_quiet
        · apply quiet0; simp [setRec]
        · left; simp [setRec, conState, hlen, hr]
    · simp only [h1, if_false]
      apply connectedReports_quiet
      · apply quiet0; simp [setRec]
      · left; simp [setRec, conState, hlen, hr]
  | characDiscovered oob c =>
    simp only [call] at hcall
    unfold _characDiscovered at hcall
    simp only [hr] at hcall
    split at hcall
    · split at hcall
      · simp only [Option.some.injEq] at hcall
        subst hcall
        apply connectedReports_quiet
        · apply quiet0; simp [setRec]
        · left; simp [setRec, conState, hlen, hr]
      · simp only [Option.some.injEq] at hcall
        subst hcall
        exact connectedReports_quiet _ _ _ (quiet0 _ rfl) (Or.inl rfl)
    · split at hcall
      · split at hcall
        · cases hcall
        · simp only [Option.some.injEq] at hcall
          subst hcall
          apply connectedReports_quiet
          · apply quiet0; simp [setAcc]
          · left; simp [setAcc, conState]
      · simp only [Option.some.injEq] at hcall
        subst hcall
        exact connectedReports_quiet _ _ _ (quiet0 _ rfl) (Or.inl rfl)
  | discoveryTermination bleErr =>
    simp only [call, Option.some.injEq] at hcall
    subst hcall
    unfold _discoveryTermination
    simp only [hr]
    apply connectedReports_quiet
    · apply quiet0
      split <;> simp [issue, setRec]
    · right
      split <;> simp [issue, setRec, conState, hlen]
  | dataRead cbp bleErr =>
    simp only [call] at hcall
    unfold _dataRead at hcall
    simp only [hr] at hcall
    split at hcall
    · split at hcall
      · cases hcall
      · simp only [Option.some.injEq] at hcall
        subst hcall
        apply connectedReports_quiet
        · apply quiet0; simp [issue, setAcc, setRec]
        · left; simp [issue, setAcc, setRec, conState, hlen, hr]
    · split at hcall
      · cases hcall
      · split at hcall
        · simp only [Option.some.injEq] at hcall
          subst hcall
          apply connectedReports_quiet
          · intro j
            simp [newEvents, queueReport, issue, setAcc, reportsOf]
          · left; simp [queueReport, issue, setAcc, conState]
        · split at hcall
          · split at hcall
            · cases hcall
            · split at hcall
              · simp only [Option.some.injEq] at hcall
                subst hcall
                apply connectedReports_quiet
                · apply quiet0; simp [issue, setAcc]
                · left; simp [issue, setAcc, conState]
              · simp only [Option.some.injEq] at hcall
                subst hcall
                apply connectedReports_quiet
                · apply quiet0; simp [issue, setAcc, setRec]
                · right; simp [issue, setAcc, setRec, conState, hlen]
          · simp only [Option.some.injEq] at hcall
            subst hcall
            exact connectedReports_quiet _ _ _ (quiet0 _ rfl) (Or.inl rfl)
  | dataWritten cbp readErr =>
    simp only [call] at hcall
    unfold _dataWritten at hcall
    simp only [hr] at hcall
    split at hcall
    · rename_i hc
      refine connectedReports_doNextDA K s s t i r readErr rfl hr ?_ ?_ hcall
      · rcases hc.1 with h | h <;> rw [h] <;> decide
      · rw [hcs]
        rcases hc.1 with h | h <;> rw [h] <;> decide
    · simp only [Option.some.injEq] at hcall
      subst hcall
      exact connectedReports_quiet _ _ _ (quiet0 _ rfl) (Or.inl rfl)
  | descripDisc j uuid handle =>
    simp only [call] at hcall
    unfold _descripDisc at hcall
    split at hcall
    · cases hcall
    · split at hcall
      · simp only [Option.some.injEq] at hcall
        subst hcall
        apply connectedReports_quiet
        · apply quiet0; simp [setAcc]
        · left; simp [setAcc, conState]
      · simp only [Option.some.injEq] at hcall
        subst hcall
        exact connectedReports_quiet _ _ _ (quiet0 _ rfl) (Or.inl rfl)
  | ddDone j bleErr =>
    simp only [call] at hcall
    unfold _ddDone at hcall
    split at hcall
    · cases hcall
    · split at hcall
      · split at hcall
        · split at hcall
          · cases hcall
          · simp only [Option.some.injEq] at hcall
            subst hcall
            apply connectedReports_quiet
            · apply quiet0; simp [issue]
            · left; simp [issue, conState]
        · simp only [Option.some.injEq] at hcall
          subst hcall
          apply connectedReports_quiet
          · apply quiet0; simp [issue]
          · left; simp [issue, conState]
      · simp only [Option.some.injEq] at hcall
        subst hcall
        exact connectedReports_quiet _ _ _ (quiet0 _ rfl) (Or.inl rfl)
  | dataChange j cbp =>
    simp only [call] at hcall
    unfold _dataChange at hcall
    split at hcall
    · cases hcall
    · split at hcall
      · split at hcall
        · cases hcall
        · simp only [Option.some.injEq] at hcall
          subst hcall
          apply connectedReports_quiet
          · intro k
            simp [newEvents, newState, queueReport, setAcc, reportsOf]
          · left; simp [newState, queueReport, setAcc, conState]
      · simp only [Option.some.injEq] at hcall
        subst hcall
        exact connectedReports_quiet _ _ _ (quiet0 _ rfl) (Or.inl rfl)

theorem cstr_append_zero (id rest : List Nat) (hnul : ∀ b ∈ id, b ≠ 0) :
    cstr (id ++ 0 :: rest) = id := by
  induction id with
  | nil => simp [cstr]
  | cons b bs ih =>
    have hb : b ≠ 0 := hnul b (by simp)
    have := ih (fun x hx => hnul x (by simp [hx]))
    simp only [cstr] at this ⊢
    simp [List.takeWhile_cons, hb, this]

/-- The identity stored by `setRemAccId` reads back as the bytes received when
they fit the buffer with their terminator and hold no NUL. -/
theorem cstr_setRemAccId (a : RemAccessory) (id : List Nat)
    (hb : a._remAccId.length = MAX_ID_SIZE)
    (hlen : id.length < MAX_ID_SIZE) (hnul : ∀ b ∈ id, b ≠ 0) :
    cstr (getRemAccId (setRemAccId a id)) = id := by
  have hn : ¬ (id.length ≥ MAX_ID_SIZE) := by omega
  simp only [getRemAccId, setRemAccId, hn, if_false, List.take_length, overwrite]
  rw [List.set_eq_take_append_cons_drop]
  have hlt : id.length < (id ++ List.drop id.length a._remAccId).length := by
    simp [hb]; omega
  rw [if_pos hlt, List.take_left]
  exact cstr_append_zero _ _ hnul

/-- C7 at a concrete input: "Pt1" loses the link (reason 8) in the middle of
its initialisation, after the identity read and before the subscription
write. -/
theorem C7_disconnection_complete_witness :
    sysMidInit._bleCon[0]? = some recMidInit ∧
    conState sysMidInit 0 = some CS_CON_INIT ∧
    ((_serverDisconnected K0 sysMidInit 0 recMidInit._connHandle 8)._bleCon[0]?).map
        (fun x => x._clientConState) = some CS_DISCON ∧
    (_serverDisconnected K0 sysMidInit 0 recMidInit._connHandle 8).chain[0]? =
        some (Reporter.remAcc (setState (accAt sysMidInit 0) K0.P_UNAVAIL)) ∧
    reportsOf (newEvents sysMidInit
        (_serverDisconnected K0 sysMidInit 0 recMidInit._connHandle 8)) 0
        RA_DISCONNECTED = 1 :=
  ⟨by decide, by decide,
   (C7_disconnection_complete K0 sysMidInit 0 recMidInit 8 (by decide)).1,
   ((C7_disconnection_complete K0 sysMidInit 0 recMidInit 8 (by decide)).2.2.2 0
      (accAt sysMidInit 0) (by decide) (by decide)).1,
   ((C7_disconnection_complete K0 sysMidInit 0 recMidInit 8 (by decide)).2.2.2 0
      (accAt sysMidInit 0) (by decide) (by decide)).2.2⟩

/-- C8, the code at the failing input: "Pt1" and "Pt2" are connected one after
the other, each on connection handle 0.  When the connect request for "Pt2" is
made the chain holds one reporter, the accessory discovered on the connection
to "Pt1", and "Pt1" is disconnected; the establishment of the connection to
"Pt2" reaches `CS_CONNECTED` and publishes an `RA_CONNECTED` report for that
accessory at position 0, which is not on the connection, besides the one for
the accessory of "Pt2" at position 1. -/
theorem C8_connected_report_for_other_peer :
    twoPeersRun.map (fun p => p.1.chain.length) = some 1 ∧
    twoPeersRun.map (fun p => (conState p.1 0, conState p.1 1)) =
      some (some CS_DISCON, some CS_CONNECTABLE) ∧
    twoPeersRun.map (fun p => (conState p.2 0, conState p.2 1)) =
      some (some CS_DISCON, some CS_CONNECTED) ∧
    twoPeersRun.map (fun p => reportsOf (newEvents p.1 p.2) 0 RA_CONNECTED) = some 1 ∧
    twoPeersRun.map (fun p => reportsOf (newEvents p.1 p.2) 1 RA_CONNECTED) = some 1 := by
  decide

/-- C9 as stated fails: with the completions in the order of the scenario of
the specification (state read completion before the descriptor is seen), for
identity "P001" and state byte 2, the identity and the state are stored and no
state change is reported, but the record ends in `CS_ERR`, not in
`CS_CONNECTED`, and no `RA_CONNECTED` report is published. -/
theorem C9_spec_order_ends_in_error :
    (firstTimeSpecOrder sysPt1 0 0 0 (layoutA 0) idP001 2).map (fun t =>
      (cstr (getRemAccId (accAt t 0)), getState (accAt t 0), conState t 0,
       reportsOf t.events 0 RA_CONNECTED, reportsOf t.events 0 RA_STATE_CHANGE)) =
    some (idP001, 2, some CS_ERR, 0, 0) := by
  decide

/-- C9 amended: for every identity `id` that fits the identity buffer with its
terminator and holds no NUL, and every state byte `st`, when the completions
arrive in the order in which the code makes its requests (identity read,
descriptor seen and descriptor discovery done, state read, subscription
write), the run ends with `getRemAccId()` reading `id`, `getState()` equal to
`st`, no `RA_STATE_CHANGE` report published, the record in `CS_CONNECTED` and
exactly one `RA_CONNECTED` report published for the accessory. -/
theorem C9_first_connection (id : List Nat) (st : Nat)
    (hlen : id.length < MAX_ID_SIZE) (hnul : ∀ b ∈ id, b ≠ 0) :
    ∃ t a, firstTimeCodeOrder sysPt1 0 0 0 (layoutA 0) id st = some t ∧
      t.chain[0]? = some (Reporter.remAcc a) ∧
      cstr (getRemAccId a) = id ∧
      getState a = st ∧
      (∀ j, reportsOf t.events j RA_STATE_CHANGE = 0) ∧
      conState t 0 = some CS_CONNECTED ∧
      reportsOf t.events 0 RA_CONNECTED = 1 := by
  refine ⟨_, _, rfl, rfl, ?_, rfl, ?_, rfl, rfl⟩
  · exact cstr_setRemAccId (RemAccessory.mk_ch_uuid K0 0 getServUUID u0) id rfl hlen hnul
  · intro j
    have hev : ∀ evs : List Report, (∀ e ∈ evs, e.type ≠ RA_STATE_CHANGE) →
        reportsOf evs j RA_STATE_CHANGE = 0 := by
      intro evs h
      simp only [reportsOf, List.countP_eq_zero]
      intro e he
      simp [h e he]
    apply hev
    intro e he
    have hall : (([{ src := Source.core, type := BLE_PEER_FOUND, info := 0 },
        { src := Source.core, type := BLE_CONNECTED, info := 0 },
        { src := Source.reporter 0, type := RA_DISCOVERED, info := 0 },
        { src := Source.reporter 0, type := RA_CONNECTED, info := 0 },
        { src := Source.core, type := BLE_SERVICES_AVAIL, info := 0 }] : List Report)).all
        (fun e => decide (e.type ≠ RA_STATE_CHANGE)) = true := by decide
    exact of_decide_eq_true (List.all_eq_true.mp hall e he)

/-- C9 amended, at the input of the scenario: identity "P001", state byte 2. -/
theorem C9_first_connection_witness :
    idP001.length < MAX_ID_SIZE ∧ (∀ b ∈ idP001, b ≠ 0) ∧
    ∃ t a, firstTimeCodeOrder sysPt1 0 0 0 (layoutA 0) idP001 2 = some t ∧
      t.chain[0]? = some (Reporter.remAcc a) ∧
      cstr (getRemAccId a) = idP001 ∧
      getState a = 2 ∧
      (∀ j, reportsOf t.events j RA_STATE_CHANGE = 0) ∧
      conState t 0 = some CS_CONNECTED ∧
      reportsOf t.events 0 RA_CONNECTED = 1 :=
  ⟨by decide, by decide, C9_first_connection idP001 2 (by decide) (by decide)⟩

/-- C10 as stated fails: "Pt1" loses the link (reason 8) right after the
identity read completed, when no descriptor has been seen yet.  On reconnection
the state read is made, but at its completion no subscription write is issued
and the record goes to `CS_ERR`; a write completion for the descriptor handle
does not bring it to `CS_CONNECTED`. -/
theorem C10_reconnect_without_descriptor :
    (lostAfterIdentity idP001 8).map (fun s => conState s 0) = some (some CS_DISCON) ∧
    (lostAfterIdentity idP001 8).bind (fun s =>
      (reconnectUntilStateRead s 0 2).map (fun t => (newOps s t, conState t 0))) =
      some ([Op.gapConnect 1 [0xDD, 0x51, 0x51, 0x99, 0xE3, 0xCE], Op.read 0 14],
            some CS_ERR) ∧
    (lostAfterIdentity idP001 8).bind (fun s =>
      (reconnectUntilStateRead s 0 2).bind (fun t =>
        (subscriptionWritten t 0 0 (layoutA 0)).map (fun u => (newOps t u, conState u 0)))) =
      some ([], some CS_ERR) := by
  decide

/-- C13: for every accessory whose reported state is not `P_UNAVAIL` and every
legal command code `c` (a byte), `setPoint(c)` stores `c` as the last command,
makes exactly one write call, of the single byte `c` to the value handle of the
command characteristic, returns true exactly when the stack accepts that call,
and leaves the reported state as it was. -/
theorem C13_setPoint_accepted (K : DawsConsts) (a : RemAccessory) (c bleErr : Nat)
    (hav : a._reportedState ≠ K.P_UNAVAIL)
    (hc : c = K.POINT_NORMAL ∨ c = K.POINT_REVERSE) (hbyte : c < 256) :
    (setPoint K a c bleErr).2.1._cmd = c ∧
    (setPoint K a c bleErr).2.2 =
      [Op.write a._commandDC.connHandle a._commandDC.valueHandle [c]] ∧
    ((setPoint K a c bleErr).1 = true ↔ bleErr = BLE_ERROR_NONE) ∧
    (setPoint K a c bleErr).2.1._reportedState = a._reportedState ∧
    (setPoint K a c bleErr).2.1 = { a with _cmd := c } := by
  unfold setPoint
  simp [hav, hc, writeCommand, Nat.mod_eq_of_lt hbyte]

/-- C13 at a concrete input: an accessory in state 2, command `POINT_NORMAL`,
accepted by the stack. -/
theorem C13_setPoint_accepted_witness :
    accP001._reportedState ≠ K0.P_UNAVAIL ∧
    (setPoint K0 accP001 K0.POINT_NORMAL BLE_ERROR_NONE).2.1._cmd = K0.POINT_NORMAL ∧
    (setPoint K0 accP001 K0.POINT_NORMAL BLE_ERROR_NONE).2.2 =
      [Op.write accP001._commandDC.connHandle accP001._commandDC.valueHandle
        [K0.POINT_NORMAL]] :=
  have h := C13_setPoint_accepted K0 accP001 K0.POINT_NORMAL BLE_ERROR_NONE
    (by decide) (Or.inl rfl) (by decide)
  ⟨by decide, h.1, h.2.1⟩

/-- C14 as stated fails: an accessory in state 2 whose last command is 0x77 is
asked for `POINT_NORMAL` and the stack refuses the write (answer 1): `setPoint`
returns false, and the last command is `POINT_NORMAL`, not 0x77. -/
theorem C14_refused_write_changes_cmd :
    accP001._reportedState ≠ K0.P_UNAVAIL ∧
    accP001._cmd = 0x77 ∧
    (setPoint K0 accP001 K0.POINT_NORMAL 1).1 = false ∧
    (setPoint K0 accP001 K0.POINT_NORMAL 1).2.1._cmd = K0.POINT_NORMAL ∧
    (setPoint K0 accP001 K0.POINT_NORMAL 1).2.1 ≠ accP001 := by
  decide

/-- C14 amended: if the stack refuses the write of `setPoint` for a legal
command `c` on an available accessory, `setPoint` returns false and every
member of the accessory is as before the call, except the last command, which
is `c`. -/
theorem C14_setPoint_write_refused (K : DawsConsts) (a : RemAccessory) (c bleErr : Nat)
    (hav : a._reportedState ≠ K.P_UNAVAIL)
    (hc : c = K.POINT_NORMAL ∨ c = K.POINT_REVERSE)
    (herr : bleErr ≠ BLE_ERROR_NONE) :
    (setPoint K a c bleErr).1 = false ∧
    (setPoint K a c bleErr).2.1 = { a with _cmd := c } ∧
    (setPoint K a c bleErr).2.1._reportedState = a._reportedState := by
  unfold setPoint
  simp [hav, hc, writeCommand, herr]

/-- C14 amended, at a concrete input: the refused `POINT_NORMAL` on `accP001`. -/
theorem C14_setPoint_write_refused_witness :
    (setPoint K0 accP001 K0.POINT_NORMAL 1).1 = false ∧
    (setPoint K0 accP001 K0.POINT_NORMAL 1).2.1 = { accP001 with _cmd := K0.POINT_NORMAL } :=
  have h := C14_setPoint_write_refused K0 accP001 K0.POINT_NORMAL 1
    (by decide) (Or.inl rfl) (by decide)
  ⟨h.1, h.2.1⟩

/-- C15: for every state value `v` and every accessory of the chain:
`newState(v)` sets the reported state to `v` and queues exactly one report, an
`RA_STATE_CHANGE` from that accessory carrying `v`; `setState(v)` sets the
reported state to `v` and queues nothing; after either `getState()` returns
`v`.  A notification for the state characteristic on the connection of the
accessory runs `newState` with the first byte of its data. -/
theorem C15_newState_setState (s : Sys) (j : Nat) (a : RemAccessory) (v : Nat)
    (hj : s.chain[j]? = some (Reporter.remAcc a)) :
    (newState s j a v).chain[j]? = some (Reporter.remAcc (setState a v)) ∧
    newEvents s (newState s j a v) =
      [{ src := Source.reporter j, type := RA_STATE_CHANGE, info := (v : Int) }] ∧
    (setAcc s j (setState a v)).chain[j]? = some (Reporter.remAcc (setState a v)) ∧
    (setAcc s j (setState a v)).events = s.events ∧
    getState (setState a v) = v ∧
    (∀ rest : List Nat,
      _dataChange s j { connHandle := a._connHandle, handle := a._stateDC.valueHandle,
                        data := v :: rest } = some (newState s j a v)) := by
  have hlt : j < s.chain.length := by
    by_contra hge
    rw [List.getElem?_eq_none (by omega)] at hj
    cases hj
  refine ⟨?_, ?_, ?_, rfl, rfl, ?_⟩
  · simp [newState, queueReport, setAcc, setState, hlt]
  · simp [newEvents, newState, queueReport, setAcc]
  · simp [setAcc, hlt]
  · intro rest
    simp [_dataChange, derefAcc, hj]

/-- C15 at a concrete input: the accessory of `sysPt1Connected`, new state 1. -/
theorem C15_newState_setState_witness :
    sysPt1Connected.chain[0]? = some (Reporter.remAcc (accAt sysPt1Connected 0)) ∧
    newEvents sysPt1Connected (newState sysPt1Connected 0 (accAt sysPt1Connected 0) 1) =
      [{ src := Source.reporter 0, type := RA_STATE_CHANGE, info := 1 }] ∧
    getState (setState (accAt sysPt1Connected 0) 1) = 1 :=
  have h := C15_newState_setState sysPt1Connected 0 (accAt sysPt1Connected 0) 1 (by decide)
  ⟨by decide, h.2.1, h.2.2.2.2.1⟩

/-- C16, the code at the failing input: the identity read is the ten bytes
"ACCESSORY1"; `getRemAccId()` afterwards reads only its first nine bytes. -/
theorem C16_ten_bytes_truncated :
    idTenBytes.length = 10 ∧
    cstr (getRemAccId (setRemAccId accNew idTenBytes)) = idTenBytes.take 9 ∧
    cstr (getRemAccId (setRemAccId accNew idTenBytes)) ≠ idTenBytes := by
  decide

/-- C17, the code at failing inputs: with one registered accessory, whose
identity is "P001", `findRemAccById("P001")` returns `nullptr` where the doc
comment describes that accessory; and for an identity that no accessory has
("X"), or the identity "P002" of the second of two accessories, it returns the
first accessory, "P001". -/
theorem C17_findRemAccById_inverted :
    cstr (getRemAccId accP001) = idP001 ∧
    findRemAccById (Sys.init [Reporter.remAcc accP001]) idP001 = none ∧
    firstAccWithId idP001 [Reporter.remAcc accP001] 0 = some 0 ∧
    findRemAccById (Sys.init [Reporter.remAcc accP001]) [0x58] = some 0 ∧
    firstAccWithId [0x58] [Reporter.remAcc accP001] 0 = none ∧
    findRemAccById (Sys.init [Reporter.remAcc accP001, Reporter.remAcc accP002])
      [0x50, 0x30, 0x30, 0x32] = some 0 ∧
    firstAccWithId [0x50, 0x30, 0x30, 0x32]
      [Reporter.remAcc accP001, Reporter.remAcc accP002] 0 = some 1 := by
  decide

/-- Where the name search of `connectByName` stops when no known record has
the name. -/
theorem findByName_none (s : Sys) (oob name : List Nat) :
    ∀ (fuel k : Nat), k ≤ s._bleConCount → s._bleConCount - k < fuel →
      (∀ j, k ≤ j → j < s._bleConCount → strNe (localNameAt s oob j) name = true) →
      findByName s oob name fuel k = s._bleConCount := by
  intro fuel
  induction fuel with
  | zero => intro k _ h; omega
  | succ fuel ih =>
    intro k hk hf hall
    by_cases hkc : k = s._bleConCount
    · rw [findByName, if_neg (by omega)]
      exact hkc
    · have hlt : k < s._bleConCount := by omega
      rw [findByName, if_pos ⟨hall k (le_refl _) hlt, hlt⟩]
      exact ih (k + 1) (by omega) (by omega) (fun j h1 h2 => hall j (by omega) h2)

/-- C18 as stated fails: one record is known, added by the scan callback for a
report with the local name 41 00 42; no known record has the name 41 00 43, and
`connectByName` with that name does not return failure: the two names have the
same length and agree up to their first NUL, the name search stops at record 0
and the result is that of `_connect` on it, true with a connect request to the
stack. -/
theorem C18_other_name_connects :
    sysNulName._bleConCount = 1 ∧
    localNameAt sysNulName [] 0 = [0x41, 0x00, 0x42] ∧
    localNameAt sysNulName [] 0 ≠ [0x41, 0x00, 0x43] ∧
    connectByName sysNulName [] [0x41, 0x00, 0x43] BLE_ERROR_NONE =
      _connect sysNulName 0 BLE_ERROR_NONE ∧
    (connectByName sysNulName [] [0x41, 0x00, 0x43] BLE_ERROR_NONE).1 = true ∧
    (connectByName sysNulName [] [0x41, 0x00, 0x43] BLE_ERROR_NONE).2.ops =
      [Op.gapConnect 1 [0xDD, 0x51, 0x51, 0x99, 0xE3, 0xCE]] := by
  decide

/-- C18 amended: `connectByIndex(i)` returns false and changes nothing (no
connect request) when `i < 0` or `i` is not below the count of known records,
and is `_connect` on record `i` otherwise; `connectByName(name)` returns false
and changes nothing when the name of no known record compares equal to `name`
as a `String`, and is `_connect` on the lowest known record whose name compares
equal otherwise.  Two names without a NUL byte compare equal exactly when they
are the same name. -/
theorem C18_connect_lookup (s : Sys) (oob name : List Nat) (bleErr : Nat) :
    (∀ index : Int, (index < 0 ∨ index ≥ (s._bleConCount : Int)) →
      connectByIndex s index bleErr = (false, s)) ∧
    (∀ i : Nat, i < s._bleConCount →
      connectByIndex s (i : Int) bleErr = _connect s i bleErr) ∧
    ((∀ j, j < s._bleConCount → strNe (localNameAt s oob j) name = true) →
      connectByName s oob name bleErr = (false, s)) ∧
    (∀ i : Nat, i < s._bleConCount → strNe (localNameAt s oob i) name = false →
      (∀ j, j < i → strNe (localNameAt s oob j) name = true) →
      connectByName s oob name bleErr = _connect s i bleErr) ∧
    (∀ j, (∀ x ∈ name, x ≠ 0) → (∀ x ∈ localNameAt s oob j, x ≠ 0) →
      (strNe (localNameAt s oob j) name = false ↔ localNameAt s oob j = name)) := by
  refine ⟨?_, ?_, ?_, ?_, ?_⟩
  · intro index h
    unfold connectByIndex
    rw [if_neg (by omega)]
  · intro i hi
    unfold connectByIndex
    rw [if_pos (by constructor <;> omega)]
    simp
  · intro hall
    unfold connectByName
    simp only
    rw [findByName_none s oob name (s._bleConCount + 1) 0 (by omega) (by omega)
      (fun j _ h => hall j h)]
    simp
  · intro i hi hname hlow
    unfold connectByName
    simp only
    rw [findByName_eq s oob name i hi hname (s._bleConCount + 1) 0 (by omega) (by omega)
      (fun j _ h => hlow j h)]
    simp [hi]
  · intro j hn hl
    have h := strNe_nulFree (localNameAt s oob j) name hl hn
    constructor
    · intro hf
      by_contra hne
      rw [h.mpr hne] at hf
      cases hf
    · intro he
      rw [he, strNe_self]

/-- C18 amended, at concrete inputs: in `sysPt1` index 1 and the name "Pt2"
resolve to no known record, index 0 and the name "Pt1" to record 0. -/
theorem C18_connect_lookup_witness :
    connectByIndex sysPt1 1 BLE_ERROR_NONE = (false, sysPt1) ∧
    connectByIndex sysPt1 ((0 : Nat) : Int) BLE_ERROR_NONE = _connect sysPt1 0 BLE_ERROR_NONE ∧
    connectByName sysPt1 [] [0x50, 0x74, 0x32] BLE_ERROR_NONE = (false, sysPt1) ∧
    connectByName sysPt1 [] [0x50, 0x74, 0x31] BLE_ERROR_NONE =
      _connect sysPt1 0 BLE_ERROR_NONE :=
  have h := C18_connect_lookup sysPt1 [] [0x50, 0x74, 0x31] BLE_ERROR_NONE
  ⟨h.1 1 (Or.inr (by decide)), h.2.1 0 (by decide),
   (C18_connect_lookup sysPt1 [] [0x50, 0x74, 0x32] BLE_ERROR_NONE).2.2.1
    (fun j hj => by
      have h0 : j = 0 := by
        have : j < 1 := hj
        omega
      subst h0
      decide),
   h.2.2.2.1 0 (by decide) (by decide) (fun j hj => absurd hj (Nat.not_lt_zero j))⟩

/-- C19: with no active session `disconnect()` changes nothing; with record `i`
active it makes exactly one disconnect call, for the `_connHandle` of that
record with reason `USER_TERMINATION`, clears the active session pointer
whatever the stack answers, and sets the record to `CS_DISCONNECTING` when the
stack accepts the call and to `CS_ERR` otherwise. -/
theorem C19_disconnect (s : Sys) (bleErr : Nat) :
    (s._activeRemDev = none → disconnect s bleErr = s) ∧
    (∀ i r, s._activeRemDev = some i → s._bleCon[i]? = some r →
      newOps s (disconnect s bleErr) = [Op.gapDisconnect r._connHandle USER_TERMINATION] ∧
      (disconnect s bleErr)._activeRemDev = none ∧
      activeRemDev (disconnect s bleErr) = none ∧
      conState (disconnect s bleErr) i =
        some (if bleErr = BLE_ERROR_NONE then CS_DISCONNECTING else CS_ERR)) := by
  constructor
  · intro h
    simp [disconnect, h]
  · intro i r hact hr
    have hlen : i < s._bleCon.length := by
      by_contra hge
      rw [List.getElem?_eq_none (by omega)] at hr
      cases hr
    unfold disconnect _disconn
    simp only [hact, hr]
    by_cases he : bleErr = BLE_ERROR_NONE
    · simp [he, newOps, issue, setRec, conState, activeRemDev, hlen]
    · simp [he, newOps, issue, setRec, conState, activeRemDev, hlen]

/-- C19 at a concrete input: `disconnect()` while "Pt1" is connected, accepted
by the stack. -/
theorem C19_disconnect_witness :
    sysPt1Connected._activeRemDev = some 0 ∧
    newOps sysPt1Connected (disconnect sysPt1Connected BLE_ERROR_NONE) =
      [Op.gapDisconnect 0 USER_TERMINATION] ∧
    (disconnect sysPt1Connected BLE_ERROR_NONE)._activeRemDev = none ∧
    conState (disconnect sysPt1Connected BLE_ERROR_NONE) 0 = some CS_DISCONNECTING :=
  have h := (C19_disconnect sysPt1Connected BLE_ERROR_NONE).2 0
    (sysPt1Connected._bleCon.getD 0 BLERemDev.default) (by decide) (by decide)
  ⟨by decide, h.1, h.2.1, h.2.2.2⟩

theorem derefAcc_some (s : Sys) (p : Option Nat) (j : Nat) (a : RemAccessory)
    (h : derefAcc s p = some (j, a)) :
    p = some j ∧ s.chain[j]? = some (Reporter.remAcc a) := by
  unfold derefAcc at h
  cases p with
  | none => cases h
  | some k =>
    simp only at h
    cases hk : s.chain[k]? with
    | none => rw [hk] at h; cases h
    | some rep =>
      rw [hk] at h
      cases rep with
      | other => cases h
      | remAcc b =>
        simp only [Option.some.injEq, Prod.mk.injEq] at h
        obtain ⟨h1, h2⟩ := h
        subst h1; subst h2
        exact ⟨rfl, hk⟩

theorem initCharacteristics_handles (a : RemAccessory) (st : RemDevState_t) (e : Nat) :
    accHandles (initCharacteristics a st e).2.1 = accHandles a := by
  unfold initCharacteristics
  by_cases h : st = CS_CON_INIT <;> simp [h, accHandles]

theorem initCharacteristics_ops (a : RemAccessory) (st : RemDevState_t) (e : Nat) :
    ∀ op ∈ (initCharacteristics a st e).2.2, isRead op = true := by
  unfold initCharacteristics
  by_cases h : st = CS_CON_INIT <;> simp [h, isRead]

/-- The walk of `_doNextDA` makes read requests only and keeps the length of
the chain. -/
theorem nextDALoop_ops (st : RemDevState_t) (readErr : Nat → Nat) :
    ∀ (todo : List Reporter) (j : Nat) (s : Sys),
      (∃ l, (nextDALoop st readErr todo j s).2.ops = s.ops ++ l ∧
        ∀ op ∈ l, isRead op = true) ∧
      (nextDALoop st readErr todo j s).2.chain.length = s.chain.length := by
  intro todo
  induction todo with
  | nil => intro j s; exact ⟨⟨[], by simp [nextDALoop], by simp⟩, by simp [nextDALoop]⟩
  | cons rep rest ih =>
    intro j s
    cases rep with
    | other =>
      rw [nextDALoop]
      exact ih (j + 1) s
    | remAcc a =>
      rw [nextDALoop]
      by_cases hok : (initCharacteristics a st (readErr j)).1 = true
      · simp only [hok, if_true]
        exact ⟨⟨_, by simp [issue, setAcc], initCharacteristics_ops a st (readErr j)⟩,
          by simp [issue, setAcc]⟩
      · simp only [hok, Bool.false_eq_true, if_false]
        obtain ⟨⟨l, hl, hr⟩, hlen⟩ := ih (j + 1)
          (issue (setAcc s j (initCharacteristics a st (readErr j)).2.1)
            (initCharacteristics a st (readErr j)).2.2)
        refine ⟨⟨(initCharacteristics a st (readErr j)).2.2 ++ l, ?_, ?_⟩, ?_⟩
        · rw [hl]; simp [issue, setAcc]
        · intro op hop
          rcases List.mem_append.mp hop with h | h
          · exact initCharacteristics_ops a st (readErr j) op h
          · exact hr op h
        · rw [hlen]; simp [issue, setAcc]

/-- The walk of `_doNextDA` leaves the handles of every reporter alone. -/
theorem nextDALoop_handles (st : RemDevState_t) (readErr : Nat → Nat) :
    ∀ (todo : List Reporter) (j : Nat) (s : Sys), s.chain.drop j = todo →
      (nextDALoop st readErr todo j s).2.chain.map reporterHandles
        = s.chain.map reporterHandles := by
  intro todo
  induction todo with
  | nil => intro j s _; simp [nextDALoop]
  | cons rep rest ih =>
    intro j s h
    have hjlt : j < s.chain.length := by
      by_contra hge
      rw [List.drop_eq_nil_of_le (by omega)] at h
      cases h
    have hrest : s.chain.drop (j + 1) = rest := by
      have := congrArg List.tail h
      simpa [List.tail_drop] using this
    have h0 : s.chain[j]? = some rep := by
      have := congrArg List.head? h
      simpa [List.head?_drop] using this
    cases rep with
    | other =>
      rw [nextDALoop]
      exact ih (j + 1) s hrest
    | remAcc a =>
      rw [nextDALoop]
      have hmap : (issue (setAcc s j (initCharacteristics a st (readErr j)).2.1)
          (initCharacteristics a st (readErr j)).2.2).chain.map reporterHandles
            = s.chain.map reporterHandles := by
        simp only [issue, setAcc]
        apply map_set_same _ _ _ _ _ h0
        simp [reporterHandles, initCharacteristics_handles]
      by_cases hok : (initCharacteristics a st (readErr j)).1 = true
      · simp only [hok, if_true]
        exact hmap
      · simp only [hok, Bool.false_eq_true, if_false]
        have hdrop : (issue (setAcc s j (initCharacteristics a st (readErr j)).2.1)
            (initCharacteristics a st (readErr j)).2.2).chain.drop (j + 1) = rest := by
          simp [issue, setAcc, List.drop_set, hrest]
        rw [ih (j + 1) _ hdrop, hmap]

/-- The outcome of `_doNextDA`: read requests only, the chain and its handles
kept, and the record either in `CS_CONNECTED` or in the state it had. -/
theorem doNextDA_frame (K : DawsConsts) (s t : Sys) (i : Nat) (r : BLERemDev)
    (readErr : Nat → Nat) (hr : s._bleCon[i]? = some r)
    (h : _doNextDA K s i readErr = some t) :
    (∃ l, t.ops = s.ops ++ l ∧ ∀ op ∈ l, isRead op = true) ∧
    t.chain.length = s.chain.length ∧
    chainHandles t = chainHandles s ∧
    (conState t i = some CS_CONNECTED ∨ conState t i = some r._clientConState) := by
  have hlen : i < s._bleCon.length := by
    by_contra hge
    rw [List.getElem?_eq_none (by omega)] at hr
    cases hr
  unfold _doNextDA at h
  simp only [hr] at h
  cases hd : derefAcc s r._remAcc with
  | none => rw [hd] at h; cases h
  | some p =>
    obtain ⟨cur, a0⟩ := p
    rw [hd] at h
    simp only at h
    obtain ⟨⟨l, hl, hreads⟩, hclen⟩ := nextDALoop_ops r._clientConState readErr
      (s.chain.drop (cur + 1)) (cur + 1) s
    have hh := nextDALoop_handles r._clientConState readErr
      (s.chain.drop (cur + 1)) (cur + 1) s rfl
    obtain ⟨_, h2, _⟩ := nextDALoop_spec r._clientConState readErr
      (s.chain.drop (cur + 1)) (cur + 1) s rfl
    cases hres : (nextDALoop r._clientConState readErr (s.chain.drop (cur + 1))
        (cur + 1) s).1 with
    | none =>
      rw [hres] at h
      simp only [Option.some.injEq] at h
      rw [← h, queueRemAccReps_eq]
      have hid : ∀ l : List Reporter,
          List.map (markUnavail K r._connHandle RA_CONNECTED) l = l := by
        intro l
        rw [List.map_congr_left (fun x _ => markUnavail_other K r._connHandle RA_CONNECTED
          (by decide) x)]
        simp
      refine ⟨⟨l, ?_, hreads⟩, ?_, ?_, ?_⟩
      · simp [queueReport, setRec, hl]
      · simp [queueReport, setRec, hclen]
      · simp [chainHandles, queueReport, setRec, hid, hh]
      · left; simp [conState, queueReport, setRec, h2, hlen]
    | some j =>
      rw [hres] at h
      simp only [Option.some.injEq] at h
      rw [← h]
      refine ⟨⟨l, ?_, hreads⟩, ?_, ?_, ?_⟩
      · simp [setRec, hl]
      · simp [setRec, hclen]
      · simp [chainHandles, setRec, hh]
      · right; simp [conState, setRec, h2, hlen]

/-- C11 as stated fails: service discovery completed for "Pt1", which reached
`CS_CONNECTED`; the link is lost, `disconnect()` is refused by the stack, which
leaves the record in `CS_ERR`, and a new connect request is accepted.  The
connection complete event then launches service discovery again, and the
accessory service reported creates a second accessory session. -/
theorem C11_rediscovery_after_error :
    conState sysPt1Connected 0 = some CS_CONNECTED ∧
    conState sysPt1Lost 0 = some CS_DISCON ∧
    conState sysPt1ErrConnecting 0 = some CS_ERR ∧
    sysPt1ErrConnecting.chain.length = 1 ∧
    newOps sysPt1ErrConnecting sysPt1Rediscovered = [Op.launchServiceDiscovery 0] ∧
    sysPt1Rediscovered.chain.length = 2 := by
  decide

/-- What `_initServiceDiscovery` does for a record in `CS_DISCON`, when it
returns. -/
theorem initServiceDiscovery_recon (K : DawsConsts) (s t : Sys) (i ch : Nat)
    (r : BLERemDev) (readErr : Nat → Nat)
    (hr : s._bleCon[i]? = some r) (hst : r._clientConState = CS_DISCON)
    (hcall : _initServiceDiscovery K s i ch readErr = some t) :
    (∀ op ∈ newOps s t, isRead op = true) ∧
    t.chain.length = s.chain.length ∧
    (∃ j a, derefAcc s r._firstRemAcc = some (j, a) ∧
      (newOps s t).head? = some (Op.read a._stateDC.connHandle a._stateDC.valueHandle)) ∧
    (conState t i = some CS_RECON_INIT ∨ conState t i = some CS_CONNECTED) := by
  have hlen : i < s._bleCon.length := by
    by_contra hge
    rw [List.getElem?_eq_none (by omega)] at hr
    cases hr
  unfold _initServiceDiscovery at hcall
  simp only [hr] at hcall
  rw [if_neg (by rw [hst]; decide), if_pos hst] at hcall
  have key : ∀ r1 : BLERemDev,
      derefAcc (setRec s i r1) r._firstRemAcc = derefAcc s r._firstRemAcc := by
    intro r1
    simp [derefAcc, setRec]
  simp only [key] at hcall
  cases hd : derefAcc s r._firstRemAcc with
  | none =>
    simp only [hd] at hcall
    cases hcall
  | some p =>
    obtain ⟨j, a⟩ := p
    simp only [hd] at hcall
    have hinit : (initCharacteristics a CS_RECON_INIT (readErr j)).2.2 =
        [Op.read a._stateDC.connHandle a._stateDC.valueHandle] := by
      simp [initCharacteristics]
    have hacc : (initCharacteristics a CS_RECON_INIT (readErr j)).2.1 = a := by
      simp [initCharacteristics]
    by_cases hok : (initCharacteristics a CS_RECON_INIT (readErr j)).1 = true
    · simp only [hok, if_true, Option.some.injEq] at hcall
      subst hcall
      refine ⟨?_, ?_, ⟨j, a, rfl, ?_⟩, ?_⟩
      · simp [newOps, issue, setAcc, setRec, hinit, isRead]
      · simp [issue, setAcc, setRec]
      · simp [newOps, issue, setAcc, setRec, hinit]
      · left; simp [conState, issue, setAcc, setRec, hlen]
    · simp only [hok, Bool.false_eq_true, if_false] at hcall
      have hr2 : ∀ (r1 : BLERemDev) (b : RemAccessory) (ops : List Op),
          (issue (setAcc (setRec s i r1) j b) ops)._bleCon[i]? = some r1 := by
        intro r1 b ops
        simp [issue, setAcc, setRec, hlen]
      obtain ⟨⟨l, hl, hreads⟩, hclen, _, hcs⟩ := doNextDA_frame K _ t i _ readErr (hr2 _ _ _) hcall
      have hops : newOps s t = Op.read a._stateDC.connHandle a._stateDC.valueHandle :: l := by
        simp [newOps, hl, issue, setAcc, setRec, hinit]
      refine ⟨?_, ?_, ⟨j, a, rfl, ?_⟩, ?_⟩
      · intro op hop
        rw [hops] at hop
        rcases List.mem_cons.mp hop with h | h
        · subst h; rfl
        · exact hreads op h
      · rw [hclen]; simp [issue, setAcc, setRec]
      · rw [hops]; rfl
      · rcases hcs with h | h
        · right; exact h
        · left; exact h

/-- The function `_doNextDA` returns when the current accessory pointer of the
record is not null. -/
theorem doNextDA_returns (K : DawsConsts) (s : Sys) (i : Nat) (r : BLERemDev)
    (readErr : Nat → Nat) (j : Nat) (a : RemAccessory)
    (hr : s._bleCon[i]? = some r) (hd : derefAcc s r._remAcc = some (j, a)) :
    ∃ t, _doNextDA K s i readErr = some t := by
  unfold _doNextDA
  simp only [hr, hd]
  split
  · exact ⟨_, rfl⟩
  · exact ⟨_, rfl⟩

/-- The function `_initServiceDiscovery` returns for a record in `CS_DISCON`
whose first accessory pointer is not null. -/
theorem initServiceDiscovery_recon_returns (K : DawsConsts) (s : Sys) (i ch : Nat)
    (r : BLERemDev) (readErr : Nat → Nat) (j : Nat) (a : RemAccessory)
    (hr : s._bleCon[i]? = some r) (hst : r._clientConState = CS_DISCON)
    (hfirst : derefAcc s r._firstRemAcc = some (j, a)) :
    ∃ t, _initServiceDiscovery K s i ch readErr = some t := by
  have hlen : i < s._bleCon.length := by
    by_contra hge
    rw [List.getElem?_eq_none (by omega)] at hr
    cases hr
  obtain ⟨hp, hj⟩ := derefAcc_some s _ j a hfirst
  have hjlt : j < s.chain.length := by
    by_contra hge
    rw [List.getElem?_eq_none (by omega)] at hj
    cases hj
  unfold _initServiceDiscovery
  simp only [hr]
  rw [if_neg (by rw [hst]; decide), if_pos hst]
  have key : ∀ r1 : BLERemDev,
      derefAcc (setRec s i r1) r._firstRemAcc = derefAcc s r._firstRemAcc := by
    intro r1
    simp [derefAcc, setRec]
  simp only [key, hfirst]
  by_cases hok : (initCharacteristics a CS_RECON_INIT (readErr j)).1 = true
  · simp only [hok, if_true]
    exact ⟨_, rfl⟩
  · simp only [hok, Bool.false_eq_true, if_false]
    apply doNextDA_returns K _ i
      { r with _connHandle := ch, _remAcc := r._firstRemAcc, _clientConState := CS_RECON_INIT }
      readErr j (initCharacteristics a CS_RECON_INIT (readErr j)).2.1
    · simp [issue, setAcc, setRec, hlen]
    · simp [derefAcc, issue, setAcc, setRec, hp, hjlt]

theorem chainHandles_setAcc (s : Sys) (j : Nat) (a b : RemAccessory)
    (hj : s.chain[j]? = some (Reporter.remAcc a)) (hh : accHandles b = accHandles a) :
    chainHandles (setAcc s j b) = chainHandles s := by
  simp only [chainHandles, setAcc]
  apply map_set_same _ _ _ _ _ hj
  simp [reporterHandles, hh]

/-- A call of a reconnection leaves the handles of every accessory session
alone. -/
theorem reconnectCall_handles (K : DawsConsts) (s t : Sys) (i : Nat) (c : Call)
    (hp : onReconnectPath s i c = true) (hcall : call K s i c = some t) :
    chainHandles t = chainHandles s := by
  cases c with
  | connect bleErr =>
    simp only [call, Option.some.injEq] at hcall
    subst hcall
    unfold _connect
    split
    · rfl
    · split
      · split <;> simp [chainHandles, issue]
      · rfl
  | initServiceDiscovery ch readErr =>
    simp only [call] at hcall
    simp only [onReconnectPath, beq_iff_eq] at hp
    cases hr : s._bleCon[i]? with
    | none => simp [conState, hr] at hp
    | some r =>
      have hst : r._clientConState = CS_DISCON := by
        simpa [conState, hr] using hp
      have hlen : i < s._bleCon.length := by
        by_contra hge
        rw [List.getElem?_eq_none (by omega)] at hr
        cases hr
      unfold _initServiceDiscovery at hcall
      simp only [hr] at hcall
      rw [if_neg (by rw [hst]; decide), if_pos hst] at hcall
      have key : ∀ r1 : BLERemDev,
          derefAcc (setRec s i r1) r._firstRemAcc = derefAcc s r._firstRemAcc := by
        intro r1
        simp [derefAcc, setRec]
      simp only [key] at hcall
      cases hd : derefAcc s r._firstRemAcc with
      | none =>
        simp only [hd] at hcall
        cases hcall
      | some p =>
        obtain ⟨j, a⟩ := p
        simp only [hd] at hcall
        have hj := (derefAcc_some s _ j a hd).2
        have hbase : ∀ (r1 : BLERemDev) (ops : List Op),
            chainHandles (issue (setAcc (setRec s i r1) j
              (initCharacteristics a CS_RECON_INIT (readErr j)).2.1) ops) = chainHandles s := by
          intro r1 ops
          have h1 := chainHandles_setAcc (setRec s i r1) j a
            (initCharacteristics a CS_RECON_INIT (readErr j)).2.1
            (by simpa [setRec] using hj) (initCharacteristics_handles a _ _)
          simpa [chainHandles, issue, setRec] using h1
        by_cases hok : (initCharacteristics a CS_RECON_INIT (readErr j)).1 = true
        · simp only [hok, if_true, Option.some.injEq] at hcall
          subst hcall
          exact hbase _ _
        · simp only [hok, Bool.false_eq_true, if_false] at hcall
          have hr2 : ∀ (r1 : BLERemDev) (b : RemAccessory) (ops : List Op),
              (issue (setAcc (setRec s i r1) j b) ops)._bleCon[i]? = some r1 := by
            intro r1 b ops
            simp [issue, setAcc, setRec, hlen]
          obtain ⟨_, _, hh, _⟩ := doNextDA_frame K _ t i _ readErr (hr2 _ _ _) hcall
          rw [hh]
          exact hbase _ _
  | dataRead cbp bleErr =>
    simp only [call] at hcall
    simp only [onReconnectPath] at hp
    cases hr : s._bleCon[i]? with
    | none => simp [hr] at hp
    | some r =>
      simp only [hr] at hp
      cases hd : derefAcc s r._remAcc with
      | none => simp [hd] at hp
      | some p =>
        obtain ⟨j, a⟩ := p
        simp only [hd, Bool.and_eq_true, beq_iff_eq, bne_iff_ne, ne_eq] at hp
        obtain ⟨hstate, hnid⟩ := hp
        have hj := (derefAcc_some s _ j a hd).2
        unfold _dataRead at hcall
        simp only [hr] at hcall
        by_cases hdev : cbp.handle = r._devNameCharac.valueHandle
        · rw [if_pos hdev] at hcall
          have key : ∀ r1 : BLERemDev,
              derefAcc (setRec s i r1) r._firstRemAcc = derefAcc s r._firstRemAcc := by
            intro r1
            simp [derefAcc, setRec]
          cases hf : derefAcc s r._firstRemAcc with
          | none => simp only [hf] at hcall; cases hcall
          | some q =>
            obtain ⟨k, b⟩ := q
            simp only [hf, Option.some.injEq] at hcall
            subst hcall
            have hk := (derefAcc_some s _ k b hf).2
            have h1 := chainHandles_setAcc
              (setRec s i { r with _remAcc := r._firstRemAcc }) k b
              (initCharacteristics b r._clientConState bleErr).2.1
              (by simpa [setRec] using hk) (initCharacteristics_handles b _ _)
            simpa [chainHandles, issue, setRec] using h1
        · rw [if_neg hdev] at hcall
          simp only [hd] at hcall
          rw [if_neg hnid, if_pos hstate] at hcall
          cases hb : cbp.data.head? with
          | none => simp only [hb] at hcall; cases hcall
          | some b0 =>
            simp only [hb] at hcall
            have h1 := chainHandles_setAcc s j a (setState a b0) hj (by simp [accHandles, setState])
            split at hcall
            · simp only [Option.some.injEq] at hcall
              subst hcall
              simpa [chainHandles, issue] using h1
            · simp only [Option.some.injEq] at hcall
              subst hcall
              simpa [chainHandles, issue, setRec] using h1
  | dataWritten cbp readErr =>
    simp only [call] at hcall
    unfold _dataWritten at hcall
    cases hr : s._bleCon[i]? with
    | none => simp only [hr] at hcall; cases hcall
    | some r =>
      simp only [hr] at hcall
      split at hcall
      · exact (doNextDA_frame K s t i r readErr hr hcall).2.2.1
      · simp only [Option.some.injEq] at hcall
        subst hcall
        rfl
  | disconn _ => simp [onReconnectPath] at hp
  | serverDisconnected _ _ => simp [onReconnectPath] at hp
  | serviceDiscovered _ _ => simp [onReconnectPath] at hp
  | characDiscovered _ _ => simp [onReconnectPath] at hp
  | discoveryTermination _ => simp [onReconnectPath] at hp
  | descripDisc _ _ _ => simp [onReconnectPath] at hp
  | ddDone _ _ => simp [onReconnectPath] at hp
  | dataChange _ _ => simp [onReconnectPath] at hp

/-- C12: along a reconnection of a record from `CS_DISCON` (the connect
request, the connection complete event, then completions of the state reads
and of the writes it issued), the identity, state and command characteristics
and the configuration descriptor handle of every accessory session stay what
they were at the disconnection, whatever state the record has reached; in
particular they are the same when it reaches `CS_CONNECTED`. -/
theorem C12_reconnect_keeps_handles (K : DawsConsts) (i : Nat) :
    ∀ (cs : List Call) (s t : Sys), conState s i = some CS_DISCON →
      reconnectPath K i s cs = true → calls K i s cs = some t →
      chainHandles t = chainHandles s := by
  have main : ∀ (cs : List Call) (s t : Sys),
      reconnectPath K i s cs = true → calls K i s cs = some t →
      chainHandles t = chainHandles s := by
    intro cs
    induction cs with
    | nil =>
      intro s t _ h
      simp only [calls, Option.some.injEq] at h
      rw [h]
    | cons c rest ih =>
      intro s t hp h
      simp only [reconnectPath, Bool.and_eq_true] at hp
      obtain ⟨hp1, hp2⟩ := hp
      simp only [calls] at h
      cases hc : call K s i c with
      | none => rw [hc] at h; cases h
      | some s1 =>
        rw [hc] at h hp2
        simp only at h hp2
        rw [ih s1 t hp2 h]
        exact reconnectCall_handles K s s1 i c hp1 hc
  intro cs s t _ hp h
  exact main cs s t hp h

/-- C12 at a concrete input: the reconnection `reconnectCalls` of "Pt1" on
connection handle 7 reaches `CS_CONNECTED` with the handles of its first
connection. -/
theorem C12_reconnect_keeps_handles_witness :
    conState sysPt1Lost 0 = some CS_DISCON ∧
    chainHandles sysPt1Lost = chainHandles sysPt1Connected ∧
    calls K0 0 sysPt1Lost reconnectCalls = some sysPt1Reconnected ∧
    conState sysPt1Reconnected 0 = some CS_CONNECTED ∧
    chainHandles sysPt1Reconnected = chainHandles sysPt1Lost :=
  ⟨by decide, by decide, by decide, by decide,
   C12_reconnect_keeps_handles K0 0 reconnectCalls sysPt1Lost sysPt1Reconnected
      (by decide) (by decide) (by decide)⟩

/-- C20 as stated fails: while "Pt1" is in `CS_CONNECTED`, a connect request
for "Pt2" is passed to the stack and, the stack accepting it, returns true;
after its connection complete event "Pt2" is in `CS_CON_FIRST` while "Pt1" is
still in `CS_CONNECTED`. -/
theorem C20_second_record_connects :
    conState sysTwoFirstConnected 0 = some CS_CONNECTED ∧
    conState sysTwoFirstConnected 1 = some CS_CONNECTABLE ∧
    (connectByIndex sysTwoFirstConnected 1 BLE_ERROR_NONE).1 = true ∧
    newOps sysTwoFirstConnected (connectByIndex sysTwoFirstConnected 1 BLE_ERROR_NONE).2 =
      [Op.gapConnect 1 [0x01, 0x02, 0x03, 0x04, 0x05, 0x06]] ∧
    conState sysTwoSecondConnected 0 = some CS_CONNECTED ∧
    conState sysTwoSecondConnected 1 = some CS_CON_FIRST := by
  decide

/-- C20 amended: whether a connect request for record `i` is passed to the
stack depends on the state of record `i` alone.  When that record is in
`CS_CONNECTABLE`, `CS_DISCON` or `CS_ERR`, the request makes one connect call
to the stack and returns true exactly when the stack accepts it, also while a
different record `k` is in `CS_CON_FIRST`, `CS_CON_DISC`, `CS_CON_INIT`,
`CS_RECON_INIT` or `CS_CONNECTED`; the active session pointer and both
completion callbacks then name record `i`. -/
theorem C20_connect_ignores_other_records (s : Sys) (i k : Nat) (r rk : BLERemDev)
    (bleErr : Nat)
    (hr : s._bleCon[i]? = some r) (_hk : s._bleCon[k]? = some rk) (_hki : k ≠ i)
    (_hcon : rk._clientConState = CS_CON_FIRST ∨ rk._clientConState = CS_CON_DISC ∨
      rk._clientConState = CS_CON_INIT ∨ rk._clientConState = CS_RECON_INIT ∨
      rk._clientConState = CS_CONNECTED)
    (hst : r._clientConState = CS_CONNECTABLE ∨ r._clientConState = CS_DISCON ∨
      r._clientConState = CS_ERR) :
    newOps s (_connect s i bleErr).2 = [Op.gapConnect r._peerAddType r._peerAdd] ∧
    ((_connect s i bleErr).1 = true ↔ bleErr = BLE_ERROR_NONE) ∧
    (bleErr = BLE_ERROR_NONE →
      (_connect s i bleErr).2._activeRemDev = some i ∧
      (_connect s i bleErr).2._onCentralConnect = some i ∧
      (_connect s i bleErr).2._onCentralDisconnect = some i) ∧
    (_connect s i bleErr).2._bleCon = s._bleCon := by
  unfold _connect
  simp only [hr, hst, if_true]
  by_cases he : bleErr = BLE_ERROR_NONE
  · simp [he, newOps, issue]
  · simp [he, newOps, issue]

/-- C20 amended, at a concrete input: the connect request for "Pt2" (record 1)
while "Pt1" (record 0) is in `CS_CONNECTED`. -/
theorem C20_connect_ignores_other_records_witness :
    conState sysTwoFirstConnected 0 = some CS_CONNECTED ∧
    newOps sysTwoFirstConnected (_connect sysTwoFirstConnected 1 BLE_ERROR_NONE).2 =
      [Op.gapConnect 1 [0x01, 0x02, 0x03, 0x04, 0x05, 0x06]] ∧
    ((_connect sysTwoFirstConnected 1 BLE_ERROR_NONE).1 = true ↔
      BLE_ERROR_NONE = BLE_ERROR_NONE) :=
  have h := C20_connect_ignores_other_records sysTwoFirstConnected 1 0
    (sysTwoFirstConnected._bleCon.getD 1 BLERemDev.default)
    (sysTwoFirstConnected._bleCon.getD 0 BLERemDev.default)
    BLE_ERROR_NONE (by decide) (by decide) (by decide)
    (Or.inr (Or.inr (Or.inr (Or.inr (by decide))))) (Or.inl (by decide))
  ⟨by decide, h.1, h.2.1⟩

theorem takeWhile_append_stop {α : Type} (p : α → Bool) (x : α) (hx : p x = false) :
    ∀ (l1 l2 : List α), (l1 ++ x :: l2).takeWhile p = l1.takeWhile p := by
  intro l1
  induction l1 with
  | nil => intro l2; simp [List.takeWhile, hx]
  | cons b bs ih =>
    intro l2
    by_cases hb : p b = true
    · simp [List.takeWhile_cons, hb, ih]
    · simp [List.takeWhile_cons, hb]

/-- The identity buffer after `setRemAccId`. -/
theorem setRemAccId_buf (a : RemAccessory) (id : List Nat)
    (hb : a._remAccId.length = MAX_ID_SIZE) :
    getRemAccId (setRemAccId a id) =
      id.take (MAX_ID_SIZE - 1) ++ 0 ::
        a._remAccId.drop (min id.length (MAX_ID_SIZE - 1) + 1) := by
  have e9 : MAX_ID_SIZE - 1 = 9 := rfl
  have e10 : MAX_ID_SIZE = 10 := rfl
  simp only [getRemAccId, setRemAccId, overwrite, e9]
  rw [e10] at hb ⊢
  by_cases h : id.length ≥ 10
  · have hmin : min id.length 9 = 9 := by omega
    have htl : (id.take 9).length = 9 := by
      rw [List.length_take]; omega
    simp only [h, if_true, hmin]
    rw [List.set_eq_take_append_cons_drop]
    simp only [htl, List.length_append, List.length_drop, hb]
    rw [if_pos (by omega), List.take_left' htl,
      List.drop_append_eq_append_drop, List.drop_of_length_le (by omega)]
    simp [htl]
  · have hmin : min id.length 9 = id.length := by omega
    have htk : id.take 9 = id := List.take_of_length_le (by omega)
    simp only [h, if_false, hmin, htk, List.take_length]
    rw [List.set_eq_take_append_cons_drop]
    simp only [List.length_append, List.length_drop, hb]
    rw [if_pos (by omega), List.take_left,
      List.drop_append_eq_append_drop, List.drop_of_length_le (by omega)]
    simp

/-- C28: for every byte string `id`, with `len = id.length`, `setRemAccId`
leaves in the `MAX_ID_SIZE` byte buffer the first `min(len, MAX_ID_SIZE - 1)`
bytes of `id`, then a NUL, then the bytes that were there before: nothing is
written past index `MAX_ID_SIZE - 1`, the buffer keeps its size, and the
string it holds ends at or before the NUL, so it has at most 9 characters. -/
theorem C28_setRemAccId_bounded (a : RemAccessory) (id : List Nat)
    (hb : a._remAccId.length = MAX_ID_SIZE) :
    getRemAccId (setRemAccId a id) =
      id.take (min id.length (MAX_ID_SIZE - 1)) ++ 0 ::
        a._remAccId.drop (min id.length (MAX_ID_SIZE - 1) + 1) ∧
    min id.length (MAX_ID_SIZE - 1) + 1 ≤ MAX_ID_SIZE ∧
    (getRemAccId (setRemAccId a id)).length = MAX_ID_SIZE ∧
    (getRemAccId (setRemAccId a id))[min id.length (MAX_ID_SIZE - 1)]? = some 0 ∧
    cstr (getRemAccId (setRemAccId a id)) = cstr (id.take (MAX_ID_SIZE - 1)) ∧
    (cstr (getRemAccId (setRemAccId a id))).length ≤ MAX_ID_SIZE - 1 := by
  have hbuf := setRemAccId_buf a id hb
  have e9 : MAX_ID_SIZE - 1 = 9 := rfl
  have e10 : MAX_ID_SIZE = 10 := rfl
  rw [e9] at hbuf ⊢
  rw [e10] at hb ⊢
  have htake : id.take (min id.length 9) = id.take 9 := by
    rw [List.take_eq_take]
    omega
  have hlen : (id.take 9).length = min id.length 9 := by
    rw [List.length_take]
    omega
  have hc : cstr (getRemAccId (setRemAccId a id)) = cstr (id.take 9) := by
    rw [hbuf]
    exact takeWhile_append_stop _ 0 (by decide) _ _
  refine ⟨by rw [htake]; exact hbuf, by omega, ?_, ?_, hc, ?_⟩
  · rw [hbuf]
    simp only [List.length_append, List.length_cons, List.length_drop, hlen, hb]
    omega
  · rw [hbuf, List.getElem?_append_right (by rw [hlen]), hlen]
    simp
  · rw [hc]
    have h1 : (cstr (id.take 9)).length ≤ (id.take 9).length :=
      ( List.takeWhile_prefix _).length_le
    rw [hlen] at h1
    omega

/-- C28 at a concrete input: the ten bytes "ACCESSORY1" into the buffer of a
new accessory. -/
theorem C28_setRemAccId_bounded_witness :
    accNew._remAccId.length = MAX_ID_SIZE ∧
    (getRemAccId (setRemAccId accNew idTenBytes)).length = MAX_ID_SIZE ∧
    (getRemAccId (setRemAccId accNew idTenBytes))[min idTenBytes.length (MAX_ID_SIZE - 1)]?
      = some 0 ∧
    (cstr (getRemAccId (setRemAccId accNew idTenBytes))).length ≤ MAX_ID_SIZE - 1 :=
  have h := C28_setRemAccId_bounded accNew idTenBytes (by decide)
  ⟨by decide, h.2.2.1, h.2.2.2.1, h.2.2.2.2.2⟩

/-- C26: for every content of the table slot read past the end: a
characteristic whose UUID is the identity, state or command UUID is stored in
that slot of the accessory alone and the index of the role is returned, so
`matchUUID(getUUID(u)) = u` for the three roles; a characteristic with any
other UUID changes nothing and yields `MAX_UUID`. -/
theorem C26_saveCharacteristic (oob : UUID) (a : RemAccessory)
    (c : DiscoveredCharacteristic) :
    (c.uuid = getUUID oob ID_UUID →
      saveCharacteristic oob a c = (ID_UUID, { a with _idDC := c })) ∧
    (c.uuid = getUUID oob STATE_UUID →
      saveCharacteristic oob a c = (STATE_UUID, { a with _stateDC := c })) ∧
    (c.uuid = getUUID oob CMD_UUID →
      saveCharacteristic oob a c = (CMD_UUID, { a with _commandDC := c })) ∧
    ((∀ u, u < MAX_UUID → c.uuid ≠ getUUID oob u) →
      saveCharacteristic oob a c = (MAX_UUID, a)) ∧
    (∀ u, u < MAX_UUID → matchUUID oob (getUUID oob u) = u) := by
  refine ⟨?_, ?_, ?_, ?_, ?_⟩
  · intro h
    have hm : matchUUID oob c.uuid = 0 := by
      rw [h]; simp [matchUUID, matchUUIDLoop, getUUID, _characUUID, ID_UUID]
    simp [saveCharacteristic, hm, ID_UUID]
  · intro h
    have hm : matchUUID oob c.uuid = 1 := by
      rw [h]
      simp [matchUUID, matchUUIDLoop, getUUID, _characUUID, STATE_UUID, MAX_UUID,
        idUUIDBytes, stateUUIDBytes]
    simp [saveCharacteristic, hm, ID_UUID, STATE_UUID]
  · intro h
    have hm : matchUUID oob c.uuid = 2 := by
      rw [h]
      simp [matchUUID, matchUUIDLoop, getUUID, _characUUID, CMD_UUID, MAX_UUID,
        idUUIDBytes, stateUUIDBytes, cmdUUIDBytes]
    simp [saveCharacteristic, hm, ID_UUID, STATE_UUID, CMD_UUID]
  · intro h
    have h0 := h 0 (by decide)
    have h1 := h 1 (by decide)
    have h2 := h 2 (by decide)
    simp only [getUUID, _characUUID, List.getD_cons_zero, List.getD_cons_succ] at h0 h1 h2
    have hm : matchUUID oob c.uuid = 3 := by
      simp [matchUUID, matchUUIDLoop, _characUUID, MAX_UUID, Ne.symm h0, Ne.symm h1,
        Ne.symm h2]
    simp [saveCharacteristic, hm, ID_UUID, STATE_UUID, CMD_UUID, MAX_UUID]
  · intro u hu
    have hu3 : u = 0 ∨ u = 1 ∨ u = 2 := by
      simp only [MAX_UUID] at hu; omega
    rcases hu3 with h | h | h <;> subst h <;>
      simp [matchUUID, matchUUIDLoop, getUUID, _characUUID, MAX_UUID,
        idUUIDBytes, stateUUIDBytes, cmdUUIDBytes]

/-- C26 at concrete inputs: the state characteristic and the device name
characteristic of "Pt1" offered to a new accessory. -/
theorem C26_saveCharacteristic_witness :
    saveCharacteristic (UUID.short 0) accNew (layoutA 0).stateC =
      (STATE_UUID, { accNew with _stateDC := (layoutA 0).stateC }) ∧
    saveCharacteristic (UUID.short 0) accNew otherCharac = (MAX_UUID, accNew) :=
  have h := C26_saveCharacteristic (UUID.short 0) accNew (layoutA 0).stateC
  ⟨h.2.1 (by decide),
   (C26_saveCharacteristic (UUID.short 0) accNew otherCharac).2.2.2.1 (by decide)⟩

theorem queueRemAccReps_frame (K : DawsConsts) (s : Sys) (ch : Nat) (ty : EventType)
    (info : Int) :
    (_queueRemAccReps K s ch ty info)._bleCon = s._bleCon ∧
    (_queueRemAccReps K s ch ty info)._activeRemDev = s._activeRemDev ∧
    (_queueRemAccReps K s ch ty info).ops = s.ops := by
  rw [queueRemAccReps_eq]
  exact ⟨rfl, rfl, rfl⟩

/-- What `disconnect()` does when record `i` is the active session. -/
theorem disconnect_active (s : Sys) (bleErr i : Nat) (r : BLERemDev)
    (hact : s._activeRemDev = some i) (hr : s._bleCon[i]? = some r) :
    newOps s (disconnect s bleErr) = [Op.gapDisconnect r._connHandle USER_TERMINATION] ∧
    activeRemDev (disconnect s bleErr) = none ∧
    conState (disconnect s bleErr) i =
      some (if bleErr = BLE_ERROR_NONE then CS_DISCONNECTING else CS_ERR) := by
  have hlen : i < s._bleCon.length := by
    by_contra hge
    rw [List.getElem?_eq_none (by omega)] at hr
    cases hr
  unfold disconnect _disconn
  simp only [hact, hr]
  by_cases he : bleErr = BLE_ERROR_NONE
  · simp [he, newOps, issue, setRec, conState, activeRemDev, hlen]
  · simp [he, newOps, issue, setRec, conState, activeRemDev, hlen]

/-- The record and the active session pointer after `_serverDisconnected` for
the connection handle of the record. -/
theorem serverDisconnected_record (K : DawsConsts) (s : Sys) (i : Nat) (reason : Int)
    (r : BLERemDev) (hr : s._bleCon[i]? = some r) :
    (_serverDisconnected K s i r._connHandle reason)._bleCon[i]? =
      some { r with _clientConState := CS_DISCON } ∧
    (_serverDisconnected K s i r._connHandle reason)._activeRemDev = s._activeRemDev := by
  have hlen : i < s._bleCon.length := by
    by_contra hge
    rw [List.getElem?_eq_none (by omega)] at hr
    cases hr
  unfold _serverDisconnected
  simp only [hr, if_true]
  constructor
  · rw [(queueRemAccReps_frame K _ _ _ _).1]
    simp [setRec, hlen]
  · rw [(queueRemAccReps_frame K _ _ _ _).2.1]
    rfl

/-- C30: `_serverDisconnected` never assigns the active session pointer.  When
the record `i` that is the active session is disconnected without a call of
`disconnect()`, `activeRemDev()` is still that record, now in `CS_DISCON`; a
later `disconnect()` makes one disconnect request with the connection handle
that the record still holds, clears the pointer, and sets the record to
`CS_DISCONNECTING` when the stack accepts the request and to `CS_ERR`
otherwise. -/
theorem C30_disconnection_keeps_active (K : DawsConsts) (s : Sys) (i handle : Nat)
    (reason : Int) (bleErr : Nat) (r : BLERemDev) :
    (_serverDisconnected K s i handle reason)._activeRemDev = s._activeRemDev ∧
    (s._activeRemDev = some i → s._bleCon[i]? = some r → handle = r._connHandle →
      activeRemDev (_serverDisconnected K s i handle reason) = some i ∧
      conState (_serverDisconnected K s i handle reason) i = some CS_DISCON ∧
      newOps (_serverDisconnected K s i handle reason)
        (disconnect (_serverDisconnected K s i handle reason) bleErr) =
          [Op.gapDisconnect handle USER_TERMINATION] ∧
      activeRemDev (disconnect (_serverDisconnected K s i handle reason) bleErr) = none ∧
      conState (disconnect (_serverDisconnected K s i handle reason) bleErr) i =
        some (if bleErr = BLE_ERROR_NONE then CS_DISCONNECTING else CS_ERR)) := by
  constructor
  · unfold _serverDisconnected
    split
    · rfl
    · split
      · rw [(queueRemAccReps_frame K _ _ _ _).2.1]
        rfl
      · rfl
  · intro hact hr hh
    subst hh
    obtain ⟨hrec, hptr⟩ := serverDisconnected_record K s i reason r hr
    rw [hact] at hptr
    obtain ⟨h1, h2, h3⟩ := disconnect_active _ bleErr i _ hptr hrec
    exact ⟨hptr, by simp [conState, hrec], h1, h2, h3⟩

/-- C30 at a concrete input: "Pt1", connected on handle 0, loses the link
(reason 8); `disconnect()` then sends a request for handle 0, which the stack
refuses (answer 1). -/
theorem C30_disconnection_keeps_active_witness :
    sysPt1Connected._activeRemDev = some 0 ∧
    activeRemDev (_serverDisconnected K0 sysPt1Connected 0 0 8) = some 0 ∧
    conState (_serverDisconnected K0 sysPt1Connected 0 0 8) 0 = some CS_DISCON ∧
    newOps (_serverDisconnected K0 sysPt1Connected 0 0 8)
      (disconnect (_serverDisconnected K0 sysPt1Connected 0 0 8) 1) =
        [Op.gapDisconnect 0 USER_TERMINATION] ∧
    activeRemDev (disconnect (_serverDisconnected K0 sysPt1Connected 0 0 8) 1) = none ∧
    conState (disconnect (_serverDisconnected K0 sysPt1Connected 0 0 8) 1) 0 = some CS_ERR :=
  have h := (C30_disconnection_keeps_active K0 sysPt1Connected 0 0 8 1
    (sysPt1Connected._bleCon.getD 0 BLERemDev.default)).2 (by decide) (by decide) (by decide)
  ⟨by decide, h.1, h.2.1, h.2.2.1, h.2.2.2.1, h.2.2.2.2⟩

theorem localNameAt_inside (s : Sys) (oob oob2 : List Nat) (j : Nat)
    (h : j < s._bleCon.length) : localNameAt s oob j = localNameAt s oob2 j := by
  simp [localNameAt, List.getElem?_eq_getElem h]

/-- The scan callback keeps the registry invariant. -/
theorem processScanReport_inv (s : Sys) (junk oob : List Nat)
    (event : AdvertisingReportEvent) (h : registryInv s) :
    registryInv (_processScanReport s junk oob event) := by
  obtain ⟨hlen, hcnt, hne, hdist, hfree⟩ := h
  unfold _processScanReport
  simp only
  split
  · obtain ⟨_, hle, hfound, hbefore⟩ :=
      findName_spec s oob (parsePayload junk event.payload).localName s._bleConCount 0
        (by omega)
    generalize findName s oob (parsePayload junk event.payload).localName s._bleConCount 0
      = i at hle hfound hbefore
    generalize (parsePayload junk event.payload).localName = name at hfound hbefore
    split
    · rename_i hadd
      obtain ⟨hnew, hroom⟩ := hadd
      have hi : i = s._bleConCount := by
        by_contra hni
        rw [hfound (by omega)] at hnew
        cases hnew
      subst hi
      have hin : s._bleConCount < s._bleCon.length := by omega
      have hnameNe : name ≠ [] := by
        rw [localNameAt_inside s oob [] _ hin, hfree _ (le_refl _) hroom] at hnew
        exact (strNe_nil name).mp hnew
      have hset : ∀ r, s._bleCon[s._bleConCount]? = some r →
          ∀ j, localNameAt
            (queueReport { s with
              _bleCon := setRecord s s._bleConCount name event,
              _bleConCount := s._bleConCount + 1 } Source.core BLE_PEER_FOUND
                (s._bleConCount : Int)) [] j =
            if j = s._bleConCount then name else localNameAt s [] j := by
        intro r hr j
        simp only [localNameAt, queueReport, setRecord, hr]
        by_cases hj : j = s._bleConCount
        · subst hj
          simp [hin]
        · rw [List.getElem?_set_ne (Ne.symm hj)]
          simp [hj]
      obtain ⟨r, hr⟩ : ∃ r, s._bleCon[s._bleConCount]? = some r :=
        ⟨_, List.getElem?_eq_getElem hin⟩
      have hs := hset r hr
      refine ⟨?_, ?_, ?_, ?_, ?_⟩
      · simp [queueReport, setRecord, hr, hlen]
      · show s._bleConCount + 1 ≤ MAX_REMOTE_CON
        omega
      · intro j hj
        have hj2 : j < s._bleConCount + 1 := hj
        rw [hs]
        by_cases hjc : j = s._bleConCount
        · simp [hjc, hnameNe]
        · simp only [hjc, if_false]
          exact hne j (by omega)
      · intro j k hjk hk
        have hk2 : k < s._bleConCount + 1 := hk
        rw [hs, hs]
        by_cases hkc : k = s._bleConCount
        · have hjc : j ≠ s._bleConCount := by omega
          simp only [hkc, hjc, if_true, if_false]
          intro he
          have h6 := hbefore j (Nat.zero_le _) (by omega)
          rw [localNameAt_inside s oob [] j (by omega), he, strNe_self] at h6
          cases h6
        · have hjc : j ≠ s._bleConCount := by omega
          simp only [hkc, hjc, if_false]
          exact hdist j k hjk (by omega)
      · intro j hj hjm
        have hj2 : s._bleConCount + 1 ≤ j := hj
        rw [hs]
        have hjc : j ≠ s._bleConCount := by omega
        simp only [hjc, if_false]
        exact hfree j (by omega) hjm
    · exact ⟨hlen, hcnt, hne, hdist, hfree⟩
  · exact ⟨hlen, hcnt, hne, hdist, hfree⟩

theorem registryInv_init (chain : List Reporter) : registryInv (Sys.init chain) := by
  refine ⟨by simp [Sys.init], by simp [Sys.init], ?_, ?_, ?_⟩
  · intro j hj
    simp [Sys.init] at hj
  · intro j k _ hk
    simp [Sys.init] at hk
  · intro j _ hj
    simp only [MAX_REMOTE_CON] at hj
    have h5 : j = 0 ∨ j = 1 ∨ j = 2 ∨ j = 3 ∨ j = 4 := by omega
    rcases h5 with h | h | h | h | h <;> subst h <;> rfl

theorem processScanReports_inv : ∀ (inputs : List ScanInput) (s : Sys),
    registryInv s → registryInv (processScanReports s inputs) := by
  intro inputs
  induction inputs with
  | nil => intro s h; exact h
  | cons x rest ih =>
    intro s h
    exact ih _ (processScanReport_inv s x.junk x.oob x.event h)

/-- C29: after any sequence of advertising reports from the empty registry,
whatever the reporters registered, the uninitialised local and the memory
behind the array hold: at most `MAX_REMOTE_CON` records are known, their names
are pairwise distinct and none is empty, and every slot from the count on
still has the empty name; so a matching report without a local name leaves the
registry as it is. -/
theorem C29_registry_invariant (chain : List Reporter) (inputs : List ScanInput)
    (oob : List Nat) :
    getFoundCount (processScanReports (Sys.init chain) inputs) ≤ MAX_REMOTE_CON ∧
    (∀ j k, j < k → k < getFoundCount (processScanReports (Sys.init chain) inputs) →
      localNameAt (processScanReports (Sys.init chain) inputs) oob j ≠
        localNameAt (processScanReports (Sys.init chain) inputs) oob k) ∧
    (∀ j, j < getFoundCount (processScanReports (Sys.init chain) inputs) →
      localNameAt (processScanReports (Sys.init chain) inputs) oob j ≠ []) ∧
    (∀ j, getFoundCount (processScanReports (Sys.init chain) inputs) ≤ j →
      j < MAX_REMOTE_CON →
      localNameAt (processScanReports (Sys.init chain) inputs) oob j = []) ∧
    (∀ (junk oob2 : List Nat) (event : AdvertisingReportEvent),
      (parsePayload junk event.payload).localName = [] →
      _processScanReport (processScanReports (Sys.init chain) inputs) junk oob2 event =
        processScanReports (Sys.init chain) inputs) := by
  have hinv := processScanReports_inv inputs (Sys.init chain) (registryInv_init chain)
  generalize processScanReports (Sys.init chain) inputs = t at hinv
  obtain ⟨hlen, hcnt, hne, hdist, hfree⟩ := hinv
  refine ⟨hcnt, ?_, ?_, ?_, ?_⟩
  · intro j k hjk hk
    have hk2 : k < t._bleConCount := hk
    rw [localNameAt_inside t oob [] j (by omega), localNameAt_inside t oob [] k (by omega)]
    exact hdist j k hjk hk
  · intro j hj
    have hj2 : j < t._bleConCount := hj
    rw [localNameAt_inside t oob [] j (by omega)]
    exact hne j hj
  · intro j hj hjm
    rw [localNameAt_inside t oob [] j (by omega)]
    exact hfree j hj hjm
  · intro junk oob2 event hname
    unfold _processScanReport
    simp only [hname]
    split
    · obtain ⟨_, hle, hfound, _⟩ := findName_spec t oob2 [] t._bleConCount 0 (by omega)
      generalize findName t oob2 [] t._bleConCount 0 = i at hle hfound
      rw [if_neg]
      intro hadd
      obtain ⟨hnew, hroom⟩ := hadd
      have hi : i = t._bleConCount := by
        by_contra hni
        rw [hfound (by omega)] at hnew
        cases hnew
      subst hi
      rw [localNameAt_inside t oob2 [] _ (by omega), hfree _ (le_refl _) hroom,
        strNe_self] at hnew
      cases hnew
    · rfl

/-- C29 at a concrete input: after the reports of "Pt1", "Pt2" and a report
without a local name, two records are known and their names differ. -/
theorem C29_registry_invariant_witness :
    getFoundCount (processScanReports (Sys.init []) scanInputs3) = 2 ∧
    getFoundCount (processScanReports (Sys.init []) scanInputs3) ≤ MAX_REMOTE_CON ∧
    localNameAt (processScanReports (Sys.init []) scanInputs3) [] 0 ≠
      localNameAt (processScanReports (Sys.init []) scanInputs3) [] 1 ∧
    localNameAt (processScanReports (Sys.init []) scanInputs3) [] 2 = [] :=
  have h := C29_registry_invariant [] scanInputs3 []
  ⟨by decide, h.1, h.2.1 0 1 (by decide) (by decide),
   h.2.2.2.1 2 (by decide) (by decide)⟩

/-- C21, the code at the failing input: on the first connection to "Pt1" the
completion of the device name read starts the initialisation of the first (and
only) accessory, and the stack refuses the identity read (answer 1).  The
handler returns with the record still in `CS_CON_INIT` and the first accessory
still current: no `RA_CONNECTED` or `BLE_SERVICES_AVAIL` report is published
and the one request made was refused, so no completion is to come.  On the
reconnection path the same refusal takes the record to `CS_CONNECTED`. -/
theorem C21_first_accessory_stalls :
    conState sysPt1Discovered 0 = some CS_CON_INIT ∧
    (devNameReadDone 1).map (fun t => conState t 0) = some (some CS_CON_INIT) ∧
    (devNameReadDone 1).map (fun t => newOps sysPt1Discovered t) = some [Op.read 0 12] ∧
    (devNameReadDone 1).map (fun t => newEvents sysPt1Discovered t) = some [] ∧
    (devNameReadDone 1).map (fun t => (t._bleCon.map (fun r => r._remAcc)).head?) =
      some (some (some 0)) ∧
    (devNameReadDone 1).map (fun t => getState (accAt t 0)) = some K0.P_UNAVAIL ∧
    conState sysPt1Reconnecting 0 = some CS_DISCON ∧
    (_initServiceDiscovery K0 sysPt1Reconnecting 0 0 (fun _ => 1)).map
      (fun t => (conState t 0, newOps sysPt1Reconnecting t)) =
        some (some CS_CONNECTED, [Op.read 0 14]) := by
  decide

/-- C23, the code at the failing input: the identity read of the accessory of
"Pt1" has completed, `processDescrips` has stored the callback and started
descriptor discovery, and the discovery terminates with no configuration
descriptor reported.  `_ddDone` changes nothing: the callback is not called
and no request is made.  Had the descriptor been reported (handle 15), it is
the handle captured, `_ddDone` requests the state read, and the callback is
called only when the stack refuses that request. -/
theorem C23_not_found_not_signalled :
    (accAt sysMidInit 0)._stateCCCDHandle = INVALID_HANDLE ∧
    (accAt sysMidInit 0)._descripsDoneCB = some 0 ∧
    _ddDone sysMidInit 0 BLE_ERROR_NONE = some sysMidInit ∧
    _ddDone sysMidInit 0 1 = some sysMidInit ∧
    (accAt sysDescriptorSeen 0)._stateCCCDHandle = 15 ∧
    (_ddDone sysDescriptorSeen 0 BLE_ERROR_NONE).map
      (fun t => (newOps sysDescriptorSeen t, t.descripsDoneCalls)) =
        some ([Op.read 0 14], sysDescriptorSeen.descripsDoneCalls) ∧
    (_ddDone sysDescriptorSeen 0 1).map
      (fun t => (newOps sysDescriptorSeen t, t.descripsDoneCalls)) =
        some ([Op.read 0 14], sysDescriptorSeen.descripsDoneCalls + 1) := by
  decide

/-- C27, the code at the failing input: "Pt1" loses the link while the identity
read of its accessory is outstanding, so `processDescrips` never ran and no
descriptor handle was captured: `_stateCCCDHandle` still has what the
constructor left there (here 0xBEEF).  On the reconnection the completion of
the state read calls `doCCCDwrite`, which writes to handle 0xBEEF and returns
true when the stack accepts the request. -/
theorem C27_uncaptured_handle_written :
    (accAt sysLostBeforeIdentity 0)._stateCCCDHandle = u0.stateCCCDHandle ∧
    (accAt sysLostBeforeIdentity 0)._descripsDoneCB = none ∧
    conState sysLostBeforeIdentity 0 = some CS_DISCON ∧
    doCCCDwrite (accAt sysLostBeforeIdentity 0) BLE_ERROR_NONE =
      (true, [Op.write 0 0xBEEF [1, 0]]) ∧
    ((connectByIndex sysLostBeforeIdentity 0 BLE_ERROR_NONE).1 = true) ∧
    (onConnectionComplete K0 (connectByIndex sysLostBeforeIdentity 0 BLE_ERROR_NONE).2 0
      (fun _ => BLE_ERROR_NONE)).bind (fun s =>
        (stateRead s 0 0 (layoutA 0) 2).map (fun t => (newOps s t, conState t 0))) =
      some ([Op.write 0 0xBEEF [1, 0]], some CS_RECON_INIT) := by
  decide

/-- C22 as stated fails: "Pt1" (connection handle 0) is initialised again
after a reconnection, and the chain holds after its accessory the accessory of
"Pt2", discovered on connection handle 1.  When the subscription write of
"Pt1" completes, the loop requests the state read of the accessory of "Pt2"
on handle 1; if the stack accepts the request that accessory becomes the
current accessory of "Pt1", which stays in `CS_RECON_INIT`; if the stack
refuses it, the request was made all the same. -/
theorem C22_other_connection_initialised :
    conState sysPt1Reinit 0 = some CS_RECON_INIT ∧
    conState sysPt1Reinit 1 = some CS_DISCON ∧
    sysPt1Reinit._bleCon.map (fun r => (r._connHandle, r._remAcc)) =
      [(0, some 0), (1, some 1), (0, none), (0, none), (0, none)] ∧
    sysPt1Reinit.chain.map (accOn 0) = [true, false] ∧
    (accAt sysPt1Reinit 1)._connHandle = 1 ∧
    (reinitWritten BLE_ERROR_NONE).map (fun t => newOps sysPt1Reinit t) =
      some [Op.read 1 34] ∧
    (reinitWritten BLE_ERROR_NONE).map (fun t => (t._bleCon.map (fun r => r._remAcc)).head?) =
      some (some (some 1)) ∧
    (reinitWritten BLE_ERROR_NONE).map (fun t => conState t 0) =
      some (some CS_RECON_INIT) ∧
    (reinitWritten 1).map (fun t => newOps sysPt1Reinit t) = some [Op.read 1 34] ∧
    (reinitWritten 1).map (fun t => conState t 0) = some (some CS_CONNECTED) := by
  decide

theorem initCharacteristics_result (a : RemAccessory) (st : RemDevState_t) (e : Nat) :
    (initCharacteristics a st e).1 = (e == BLE_ERROR_NONE) ∧
    (initCharacteristics a st e).2.2 = initRequest st (Reporter.remAcc a) := by
  unfold initCharacteristics initRequest initCharacteristics
  by_cases h : st = CS_CON_INIT <;> simp [h]

/-- The requests of the loop of `_doNextDA` and where it stops: it takes the
reporters in order, whatever their connection handle, and stops at the first
`RemAccessory` whose read the stack accepts. -/
theorem nextDALoop_visits (st : RemDevState_t) (readErr : Nat → Nat) :
    ∀ (todo : List Reporter) (j : Nat) (s : Sys),
      ((nextDALoop st readErr todo j s).1 = none →
        (∀ n a, todo[n]? = some (Reporter.remAcc a) → readErr (j + n) ≠ BLE_ERROR_NONE) ∧
        (nextDALoop st readErr todo j s).2.ops =
          s.ops ++ (todo.map (initRequest st)).flatten) ∧
      (∀ m, (nextDALoop st readErr todo j s).1 = some m →
        ∃ n a, m = j + n ∧ todo[n]? = some (Reporter.remAcc a) ∧
          readErr m = BLE_ERROR_NONE ∧
          (∀ k b, k < n → todo[k]? = some (Reporter.remAcc b) →
            readErr (j + k) ≠ BLE_ERROR_NONE) ∧
          (nextDALoop st readErr todo j s).2.ops =
            s.ops ++ ((todo.take (n + 1)).map (initRequest st)).flatten) := by
  intro todo
  induction todo with
  | nil =>
    intro j s
    simp [nextDALoop]
  | cons rep rest ih =>
    intro j s
    cases rep with
    | other =>
      simp only [nextDALoop]
      obtain ⟨ih1, ih2⟩ := ih (j + 1) s
      constructor
      · intro hnone
        obtain ⟨h1, h2⟩ := ih1 hnone
        constructor
        · intro n a hn
          cases n with
          | zero => simp at hn
          | succ n =>
            have := h1 n a (by simpa using hn)
            rwa [show j + (n + 1) = j + 1 + n by omega]
        · rw [h2]; simp [initRequest]
      · intro m hm
        obtain ⟨n, a, hmn, hn, hacc, hbefore, hops⟩ := ih2 m hm
        refine ⟨n + 1, a, by omega, by simpa using hn, hacc, ?_, ?_⟩
        · intro k b hk hkb
          cases k with
          | zero => simp at hkb
          | succ k =>
            have := hbefore k b (by omega) (by simpa using hkb)
            rwa [show j + (k + 1) = j + 1 + k by omega]
        · rw [hops]; simp [initRequest]
    | remAcc a =>
      obtain ⟨hres, hreq⟩ := initCharacteristics_result a st (readErr j)
      simp only [nextDALoop]
      by_cases hok : readErr j = BLE_ERROR_NONE
      · have hres1 : (initCharacteristics a st (readErr j)).1 = true := by
          rw [hres]; simp [hok]
        simp only [hres1, if_true]
        constructor
        · intro hnone
          cases hnone
        · intro m hm
          simp only [Option.some.injEq] at hm
          subst hm
          refine ⟨0, a, rfl, by simp, hok, ?_, ?_⟩
          · intro k b hk
            omega
          · simp [issue, setAcc, hreq]
      · have hres1 : (initCharacteristics a st (readErr j)).1 = false := by
          rw [hres]; simp [hok]
        simp only [hres1, Bool.false_eq_true, if_false]
        obtain ⟨ih1, ih2⟩ := ih (j + 1)
          (issue (setAcc s j (initCharacteristics a st (readErr j)).2.1)
            (initCharacteristics a st (readErr j)).2.2)
        constructor
        · intro hnone
          obtain ⟨h1, h2⟩ := ih1 hnone
          constructor
          · intro n b hn
            cases n with
            | zero => exact hok
            | succ n =>
              have := h1 n b (by simpa using hn)
              rwa [show j + (n + 1) = j + 1 + n by omega]
          · rw [h2]; simp [issue, setAcc, hreq, List.append_assoc]
        · intro m hm
          obtain ⟨n, b, hmn, hn, hacc, hbefore, hops⟩ := ih2 m hm
          refine ⟨n + 1, b, by omega, by simpa using hn, hacc, ?_, ?_⟩
          · intro k c hk hkc
            cases k with
            | zero => exact hok
            | succ k =>
              have := hbefore k c (by omega) (by simpa using hkc)
              rwa [show j + (k + 1) = j + 1 + k by omega]
          · rw [hops]; simp [issue, setAcc, hreq, List.append_assoc]

theorem newOps_append (s t : Sys) (l : List Op) (h : t.ops = s.ops ++ l) :
    newOps s t = l := by
  simp [newOps, h]

/-- What `_doNextDA` does, given the answers of the stack: it returns; either
every `RemAccessory` after the current one had its read refused and the record
is in `CS_CONNECTED`, or the first one whose read was accepted is the new
current accessory.  The requests made are the reads of the reporters passed,
in chain order.  No connection handle is compared. -/
theorem doNextDA_visits (K : DawsConsts) (s : Sys) (i : Nat) (r : BLERemDev)
    (readErr : Nat → Nat) (cur : Nat) (a0 : RemAccessory)
    (hr : s._bleCon[i]? = some r) (hd : derefAcc s r._remAcc = some (cur, a0)) :
    ∃ t, _doNextDA K s i readErr = some t ∧
      ((conState t i = some CS_CONNECTED ∧
        (∀ k a, cur < k → s.chain[k]? = some (Reporter.remAcc a) →
          readErr k ≠ BLE_ERROR_NONE) ∧
        newOps s t =
          ((s.chain.drop (cur + 1)).map (initRequest r._clientConState)).flatten) ∨
       (∃ j a, cur < j ∧ s.chain[j]? = some (Reporter.remAcc a) ∧
        readErr j = BLE_ERROR_NONE ∧
        (∀ k b, cur < k → k < j → s.chain[k]? = some (Reporter.remAcc b) →
          readErr k ≠ BLE_ERROR_NONE) ∧
        t._bleCon[i]? = some { r with _remAcc := some j } ∧
        newOps s t =
          (((s.chain.drop (cur + 1)).take (j - cur)).map
            (initRequest r._clientConState)).flatten)) := by
  have hlen : i < s._bleCon.length := by
    by_contra hge
    rw [List.getElem?_eq_none (by omega)] at hr
    cases hr
  obtain ⟨_, hcon, _⟩ := nextDALoop_spec r._clientConState readErr
    (s.chain.drop (cur + 1)) (cur + 1) s rfl
  obtain ⟨hv1, hv2⟩ := nextDALoop_visits r._clientConState readErr
    (s.chain.drop (cur + 1)) (cur + 1) s
  unfold _doNextDA
  simp only [hr, hd]
  cases hres : (nextDALoop r._clientConState readErr (s.chain.drop (cur + 1)) (cur + 1) s).1 with
  | none =>
    obtain ⟨hall, hops⟩ := hv1 hres
    refine ⟨_, rfl, Or.inl ⟨?_, ?_, ?_⟩⟩
    · simp only [conState, queueReport, setRec]
      rw [List.getElem?_set_self (by
        rw [(queueRemAccReps_frame K _ _ _ _).1, hcon]; exact hlen)]
      rfl
    · intro k a hk hka
      have := hall (k - (cur + 1)) a (by
        rw [List.getElem?_drop, show cur + 1 + (k - (cur + 1)) = k by omega]; exact hka)
      rwa [show cur + 1 + (k - (cur + 1)) = k by omega] at this
    · apply newOps_append
      simp only [queueReport, setRec]
      rw [(queueRemAccReps_frame K _ _ _ _).2.2, hops]
  | some m =>
    obtain ⟨n, a, hmn, hn, hacc, hbefore, hops⟩ := hv2 m hres
    refine ⟨_, rfl, Or.inr ⟨m, a, by omega, ?_, hacc, ?_, ?_, ?_⟩⟩
    · rw [List.getElem?_drop] at hn
      rw [hmn]; exact hn
    · intro k b hk hkm hkb
      have := hbefore (k - (cur + 1)) b (by omega) (by
        rw [List.getElem?_drop, show cur + 1 + (k - (cur + 1)) = k by omega]; exact hkb)
      rwa [show cur + 1 + (k - (cur + 1)) = k by omega] at this
    · simp only [setRec]
      rw [List.getElem?_set_self (by rw [hcon]; exact hlen)]
    · apply newOps_append
      simp only [setRec]
      rw [hops, show m - cur = n + 1 by omega]

/-- C22 amended: when the loop advances, it takes the reporters registered
after the current accessory in chain order, whatever connection their
accessory session has: it requests the first read of each `RemAccessory` until
the stack accepts one, and makes that one current; when the stack accepted
none (or none is left) it sets `CS_CONNECTED`.  It makes no request for a
reporter registered before the current accessory. -/
theorem C22_loop_takes_all_later (K : DawsConsts) (s : Sys) (i : Nat) (r : BLERemDev)
    (readErr : Nat → Nat) (cur : Nat) (a0 : RemAccessory)
    (hr : s._bleCon[i]? = some r) (hd : derefAcc s r._remAcc = some (cur, a0)) :
    ∃ t, _doNextDA K s i readErr = some t ∧
      ((conState t i = some CS_CONNECTED ∧
        (∀ k a, cur < k → s.chain[k]? = some (Reporter.remAcc a) →
          readErr k ≠ BLE_ERROR_NONE) ∧
        newOps s t =
          ((s.chain.drop (cur + 1)).map (initRequest r._clientConState)).flatten) ∨
       (∃ j a, cur < j ∧ s.chain[j]? = some (Reporter.remAcc a) ∧
        readErr j = BLE_ERROR_NONE ∧
        (∀ k b, cur < k → k < j → s.chain[k]? = some (Reporter.remAcc b) →
          readErr k ≠ BLE_ERROR_NONE) ∧
        t._bleCon[i]? = some { r with _remAcc := some j } ∧
        newOps s t =
          (((s.chain.drop (cur + 1)).take (j - cur)).map
            (initRequest r._clientConState)).flatten)) :=
  doNextDA_visits K s i r readErr cur a0 hr hd

/-- C22 amended, at a concrete input: the loop of "Pt1" in `sysPt1Reinit`, with
every read accepted. -/
theorem C22_loop_takes_all_later_witness :
    derefAcc sysPt1Reinit (sysPt1Reinit._bleCon.getD 0 BLERemDev.default)._remAcc =
      some (0, accAt sysPt1Reinit 0) ∧
    ∃ t, _doNextDA K0 sysPt1Reinit 0 (fun _ => BLE_ERROR_NONE) = some t ∧
      ((conState t 0 = some CS_CONNECTED ∧
        (∀ k a, 0 < k → sysPt1Reinit.chain[k]? = some (Reporter.remAcc a) →
          (fun _ => BLE_ERROR_NONE) k ≠ BLE_ERROR_NONE) ∧
        newOps sysPt1Reinit t =
          ((sysPt1Reinit.chain.drop (0 + 1)).map (initRequest
            (sysPt1Reinit._bleCon.getD 0 BLERemDev.default)._clientConState)).flatten) ∨
       (∃ j a, 0 < j ∧ sysPt1Reinit.chain[j]? = some (Reporter.remAcc a) ∧
        (fun _ => BLE_ERROR_NONE) j = BLE_ERROR_NONE ∧
        (∀ k b, 0 < k → k < j → sysPt1Reinit.chain[k]? = some (Reporter.remAcc b) →
          (fun _ => BLE_ERROR_NONE) k ≠ BLE_ERROR_NONE) ∧
        t._bleCon[0]? =
          some { sysPt1Reinit._bleCon.getD 0 BLERemDev.default with _remAcc := some j } ∧
        newOps sysPt1Reinit t =
          (((sysPt1Reinit.chain.drop (0 + 1)).take (j - 0)).map (initRequest
            (sysPt1Reinit._bleCon.getD 0 BLERemDev.default)._clientConState)).flatten)) :=
  ⟨by decide,
   C22_loop_takes_all_later K0 sysPt1Reinit 0
    (sysPt1Reinit._bleCon.getD 0 BLERemDev.default) (fun _ => BLE_ERROR_NONE) 0
    (accAt sysPt1Reinit 0) (by decide) (by decide)⟩

/-- What the descriptor callbacks do when the configuration descriptor is
reported: its handle is captured, and at the termination `_ddDone` requests the
read of the state characteristic and calls the callback given to
`processDescrips` exactly when the stack refuses that request. -/
theorem ddDone_found (s : Sys) (j : Nat) (a : RemAccessory) (bleErr rec : Nat)
    (hj : s.chain[j]? = some (Reporter.remAcc a)) :
    (∀ h, _descripDisc s j (UUID.short BLE_UUID_DESCRIPTOR_CLIENT_CHAR_CONFIG) h =
      some (setAcc s j { a with _stateCCCDHandle := h })) ∧
    (a._stateCCCDHandle ≠ INVALID_HANDLE → a._descripsDoneCB = some rec →
      ∃ t, _ddDone s j bleErr = some t ∧
        newOps s t = [Op.read a._stateDC.connHandle a._stateDC.valueHandle] ∧
        t.descripsDoneCalls =
          s.descripsDoneCalls + (if bleErr = BLE_ERROR_NONE then 0 else 1) ∧
        t.chain = s.chain) := by
  have hd : derefAcc s (some j) = some (j, a) := by
    simp [derefAcc, hj]
  constructor
  · intro h
    simp [_descripDisc, hd]
  · intro hfound hcb
    unfold _ddDone
    simp only [hd, hfound, ne_eq, not_false_eq_true, if_true, hcb]
    by_cases he : bleErr = BLE_ERROR_NONE
    · simp [he, newOps, issue]
    · simp [he, newOps, issue]

/-- The function `_doNextDA` run right after the read of the accessory at
position `j`, the current one, was refused. -/
theorem doNextDA_after_first (K : DawsConsts) (s : Sys) (i : Nat) (r1 : BLERemDev)
    (j : Nat) (b : RemAccessory) (ops : List Op) (readErr : Nat → Nat)
    (hlen : i < s._bleCon.length) (hjlt : j < s.chain.length)
    (hrem : r1._remAcc = some j) :
    ∃ t, _doNextDA K (issue (setAcc (setRec s i r1) j b) ops) i readErr = some t ∧
      ((conState t i = some CS_CONNECTED ∧
        ∀ k c, j < k → s.chain[k]? = some (Reporter.remAcc c) →
          readErr k ≠ BLE_ERROR_NONE) ∨
       (∃ k c, j < k ∧ s.chain[k]? = some (Reporter.remAcc c) ∧
        readErr k = BLE_ERROR_NONE ∧
        (∀ m d, j < m → m < k → s.chain[m]? = some (Reporter.remAcc d) →
          readErr m ≠ BLE_ERROR_NONE) ∧
        t._bleCon[i]? = some { r1 with _remAcc := some k })) := by
  have hchain : ∀ k, k ≠ j →
      (issue (setAcc (setRec s i r1) j b) ops).chain[k]? = s.chain[k]? := by
    intro k hk
    simp only [issue, setAcc, setRec]
    rw [List.getElem?_set_ne (Ne.symm hk)]
  obtain ⟨t, ht, hcase⟩ := doNextDA_visits K (issue (setAcc (setRec s i r1) j b) ops) i r1
    readErr j b (by simp [issue, setAcc, setRec, hlen])
    (by simp [derefAcc, issue, setAcc, setRec, hrem, hjlt])
  refine ⟨t, ht, ?_⟩
  rcases hcase with ⟨hcon, hall, _⟩ | ⟨k, c, hjk, hkc, hacc, hbefore, hrec, _⟩
  · left
    refine ⟨hcon, ?_⟩
    intro k c hjk hkc
    exact hall k c hjk (by rw [hchain k (by omega)]; exact hkc)
  · right
    refine ⟨k, c, hjk, ?_, hacc, ?_, hrec⟩
    · rw [hchain k (by omega)] at hkc
      exact hkc
    · intro m d h1 h2 hmd
      exact hbefore m d h1 h2 (by rw [hchain m (by omega)]; exact hmd)

/-- Where a connection complete event leaves a record that was in `CS_DISCON`:
in `CS_RECON_INIT` with, as current accessory, the first accessory from the
first one of the record on whose read the stack accepted; in `CS_CONNECTED`
when the stack refused the read of every one of them. -/
theorem initServiceDiscovery_recon_state (K : DawsConsts) (s t : Sys) (i ch : Nat)
    (r : BLERemDev) (readErr : Nat → Nat) (j : Nat) (a : RemAccessory)
    (hr : s._bleCon[i]? = some r) (hst : r._clientConState = CS_DISCON)
    (hfirst : derefAcc s r._firstRemAcc = some (j, a))
    (hcall : _initServiceDiscovery K s i ch readErr = some t) :
    (conState t i = some CS_RECON_INIT ∧
      ∃ k b, j ≤ k ∧ s.chain[k]? = some (Reporter.remAcc b) ∧
        readErr k = BLE_ERROR_NONE ∧
        (∀ m c, j ≤ m → m < k → s.chain[m]? = some (Reporter.remAcc c) →
          readErr m ≠ BLE_ERROR_NONE) ∧
        (t._bleCon[i]?).map (fun x => x._remAcc) = some (some k)) ∨
    (conState t i = some CS_CONNECTED ∧
      ∀ k b, j ≤ k → s.chain[k]? = some (Reporter.remAcc b) →
        readErr k ≠ BLE_ERROR_NONE) := by
  have hlen : i < s._bleCon.length := by
    by_contra hge
    rw [List.getElem?_eq_none (by omega)] at hr
    cases hr
  obtain ⟨hp, hj⟩ := derefAcc_some s _ j a hfirst
  have hjlt : j < s.chain.length := by
    by_contra hge
    rw [List.getElem?_eq_none (by omega)] at hj
    cases hj
  unfold _initServiceDiscovery at hcall
  simp only [hr] at hcall
  rw [if_neg (by rw [hst]; decide), if_pos hst] at hcall
  have key : ∀ r1 : BLERemDev,
      derefAcc (setRec s i r1) r._firstRemAcc = derefAcc s r._firstRemAcc := by
    intro r1
    simp [derefAcc, setRec]
  simp only [key, hfirst] at hcall
  obtain ⟨hres, _⟩ := initCharacteristics_result a CS_RECON_INIT (readErr j)
  by_cases hok : readErr j = BLE_ERROR_NONE
  · have hres1 : (initCharacteristics a CS_RECON_INIT (readErr j)).1 = true := by
      rw [hres]; simp [hok]
    simp only [hres1, if_true, Option.some.injEq] at hcall
    subst hcall
    left
    refine ⟨by simp [conState, issue, setAcc, setRec, hlen], j, a, le_refl _, hj, hok, ?_, ?_⟩
    · intro m c h1 h2
      omega
    · simp [issue, setAcc, setRec, hlen, hp]
  · have hres1 : (initCharacteristics a CS_RECON_INIT (readErr j)).1 = false := by
      rw [hres]; simp [hok]
    simp only [hres1, Bool.false_eq_true, if_false] at hcall
    obtain ⟨t2, ht2, hcase⟩ := doNextDA_after_first K s i
      { r with _connHandle := ch, _remAcc := r._firstRemAcc, _clientConState := CS_RECON_INIT }
      j (initCharacteristics a CS_RECON_INIT (readErr j)).2.1
      (initCharacteristics a CS_RECON_INIT (readErr j)).2.2 readErr hlen hjlt hp
    rw [ht2] at hcall
    simp only [Option.some.injEq] at hcall
    subst hcall
    rcases hcase with ⟨hcon, hall⟩ | ⟨k, b, hjk, hkb, hacc, hbefore, hrec⟩
    · right
      refine ⟨hcon, ?_⟩
      intro k b hjk hkb
      by_cases hkj : k = j
      · rw [hkj]; exact hok
      · exact hall k b (by omega) hkb
    · left
      refine ⟨by simp [conState, hrec], k, b, by omega, hkb, hacc, ?_, by simp [hrec]⟩
      intro m c h1 h2 hmc
      by_cases hmj : m = j
      · rw [hmj]; exact hok
      · exact hbefore m c (by omega) h2 hmc

/-- C11 amended: a connection complete event for a record in `CS_DISCON` with a
first accessory returns, makes read requests only (it launches no service
discovery), creates no accessory session, and starts with the read of the
state characteristic of the first accessory of the record; the record is then
in `CS_RECON_INIT`, the current accessory being the first one whose read the
stack accepted, or, only when the stack refused the read of every accessory
from the first one of the record on, in `CS_CONNECTED`.  For a record in
`CS_ERR` the event launches service discovery again and takes the record to
`CS_CON_FIRST`. -/
theorem C11_reconnect_skips_discovery (K : DawsConsts) (s : Sys) (i ch : Nat)
    (r : BLERemDev) (readErr : Nat → Nat) (hr : s._bleCon[i]? = some r) :
    (r._clientConState = CS_DISCON →
      ∀ j a, derefAcc s r._firstRemAcc = some (j, a) →
      ∃ t, _initServiceDiscovery K s i ch readErr = some t ∧
        (∀ op ∈ newOps s t, isRead op = true) ∧
        t.chain.length = s.chain.length ∧
        (newOps s t).head? = some (Op.read a._stateDC.connHandle a._stateDC.valueHandle) ∧
        ((conState t i = some CS_RECON_INIT ∧
          ∃ k b, j ≤ k ∧ s.chain[k]? = some (Reporter.remAcc b) ∧
            readErr k = BLE_ERROR_NONE ∧
            (∀ m c, j ≤ m → m < k → s.chain[m]? = some (Reporter.remAcc c) →
              readErr m ≠ BLE_ERROR_NONE) ∧
            (t._bleCon[i]?).map (fun x => x._remAcc) = some (some k)) ∨
         (conState t i = some CS_CONNECTED ∧
          ∀ k b, j ≤ k → s.chain[k]? = some (Reporter.remAcc b) →
            readErr k ≠ BLE_ERROR_NONE))) ∧
    (r._clientConState = CS_ERR →
      ∃ t, _initServiceDiscovery K s i ch readErr = some t ∧
        newOps s t = [Op.launchServiceDiscovery ch] ∧
        conState t i = some CS_CON_FIRST ∧
        t.chain = s.chain) := by
  have hlen : i < s._bleCon.length := by
    by_contra hge
    rw [List.getElem?_eq_none (by omega)] at hr
    cases hr
  constructor
  · intro hst j a hfirst
    obtain ⟨t, ht⟩ := initServiceDiscovery_recon_returns K s i ch r readErr j a hr hst hfirst
    obtain ⟨h1, h2, ⟨j1, a1, hd, h3⟩, _⟩ :=
      initServiceDiscovery_recon K s t i ch r readErr hr hst ht
    rw [hfirst] at hd
    simp only [Option.some.injEq, Prod.mk.injEq] at hd
    obtain ⟨_, ha⟩ := hd
    subst ha
    exact ⟨t, ht, h1, h2, h3,
      initServiceDiscovery_recon_state K s t i ch r readErr j a hr hst hfirst ht⟩
  · intro hst
    have hcall : _initServiceDiscovery K s i ch readErr =
        some (issue (setRec s i { r with _connHandle := ch, _clientConState := CS_CON_FIRST })
          [Op.launchServiceDiscovery ch]) := by
      simp [_initServiceDiscovery, hr, hst]
    refine ⟨_, hcall, ?_, ?_, ?_⟩
    · simp [newOps, issue, setRec]
    · simp [conState, issue, setRec, hlen]
    · simp [issue, setRec]

/-- C11 amended, at concrete inputs: the connection complete event for "Pt1" in
`CS_DISCON`, on connection handle 7, makes one request, the read of the state
characteristic (value handle 14), and leaves "Pt1" in `CS_RECON_INIT`; for "Pt1"
in `CS_ERR` it launches service discovery. -/
theorem C11_reconnect_skips_discovery_witness :
    conState sysPt1Reconnecting 0 = some CS_DISCON ∧
    (_initServiceDiscovery K0 sysPt1Reconnecting 0 7 (fun _ => BLE_ERROR_NONE)).map
      (fun t => (newOps sysPt1Reconnecting t, conState t 0)) =
        some ([Op.read 0 14], some CS_RECON_INIT) ∧
    (∃ t, _initServiceDiscovery K0 sysPt1Reconnecting 0 7 (fun _ => BLE_ERROR_NONE) = some t ∧
      (∀ op ∈ newOps sysPt1Reconnecting t, isRead op = true) ∧
      t.chain.length = sysPt1Reconnecting.chain.length ∧
      (newOps sysPt1Reconnecting t).head? = some (Op.read
        (accAt sysPt1Reconnecting 0)._stateDC.connHandle
        (accAt sysPt1Reconnecting 0)._stateDC.valueHandle) ∧
      ((conState t 0 = some CS_RECON_INIT ∧
        ∃ k b, 0 ≤ k ∧ sysPt1Reconnecting.chain[k]? = some (Reporter.remAcc b) ∧
          (fun _ => BLE_ERROR_NONE) k = BLE_ERROR_NONE ∧
          (∀ m c, 0 ≤ m → m < k → sysPt1Reconnecting.chain[m]? = some (Reporter.remAcc c) →
            (fun _ => BLE_ERROR_NONE) m ≠ BLE_ERROR_NONE) ∧
          (t._bleCon[0]?).map (fun x => x._remAcc) = some (some k)) ∨
       (conState t 0 = some CS_CONNECTED ∧
        ∀ k b, 0 ≤ k → sysPt1Reconnecting.chain[k]? = some (Reporter.remAcc b) →
          (fun _ => BLE_ERROR_NONE) k ≠ BLE_ERROR_NONE))) ∧
    conState sysPt1ErrConnecting 0 = some CS_ERR ∧
    (∃ t, _initServiceDiscovery K0 sysPt1ErrConnecting 0 0 (fun _ => BLE_ERROR_NONE) = some t ∧
      newOps sysPt1ErrConnecting t = [Op.launchServiceDiscovery 0] ∧
      conState t 0 = some CS_CON_FIRST ∧
      t.chain = sysPt1ErrConnecting.chain) :=
  ⟨by decide, by decide,
   (C11_reconnect_skips_discovery K0 sysPt1Reconnecting 0 7
      (sysPt1Reconnecting._bleCon.getD 0 BLERemDev.default)
      (fun _ => BLE_ERROR_NONE) (by decide)).1 (by decide) 0 (accAt sysPt1Reconnecting 0)
      (by decide),
   by decide,
   (C11_reconnect_skips_discovery K0 sysPt1ErrConnecting 0 0
      (sysPt1ErrConnecting._bleCon.getD 0 BLERemDev.default)
      (fun _ => BLE_ERROR_NONE) (by decide)).2 (by decide)⟩

/-- Reconnection on another connection handle: "Pt1" loses the link after the
configuration descriptor was seen and descriptor discovery terminated, and the
new link is given connection handle 7.  The state read is requested on the
connection handle stored at discovery (0).  If the stack refuses it, the record
is taken to `CS_CONNECTED` at once with no subscription write; if the stack
accepts it and the completions arrive on handle 7, the subscription write is
requested on handle 0 and its completion on handle 7 leaves the record in
`CS_RECON_INIT`. -/
theorem reconnect_on_other_handle :
    (lostAfterDescriptor idP001 8 true).bind (fun s =>
      (onConnectionComplete K0 (connectByIndex s 0 BLE_ERROR_NONE).2 7 (fun _ => 1)).map
        (fun t => (newOps s t, conState t 0))) =
      some ([Op.gapConnect 1 [0xDD, 0x51, 0x51, 0x99, 0xE3, 0xCE], Op.read 0 14],
            some CS_CONNECTED) ∧
    (lostAfterDescriptor idP001 8 true).bind (fun s =>
      (reconnectUntilStateRead s 7 2).map (fun t => (newOps s t, conState t 0))) =
      some ([Op.gapConnect 1 [0xDD, 0x51, 0x51, 0x99, 0xE3, 0xCE], Op.read 0 14,
             Op.write 0 15 [1, 0]], some CS_RECON_INIT) ∧
    (lostAfterDescriptor idP001 8 true).bind (fun s =>
      (reconnectUntilStateRead s 7 2).bind (fun t =>
        (subscriptionWritten t 0 7 (layoutA 0)).map (fun u => (newOps t u, conState u 0)))) =
      some ([], some CS_RECON_INIT) := by
  decide

set_option maxHeartbeats 4000000 in
/-- C10 amended: when "Pt1" loses the link in the middle of its initialisation
after the configuration descriptor was seen (descriptor discovery terminated or
not) and before the state read completes, then a reconnection on which the new
link has the connection handle of the first connection (0), the stack
accepting the requests and delivering the completions on that handle, makes no
identity read and no descriptor discovery: after the connect request it makes
one read of the state characteristic and, at its completion, one write of the
value 1 to the descriptor handle found before; the completion of that write
takes the record to `CS_CONNECTED`. -/
theorem C10_reconnect_after_descriptor (id : List Nat) (reason : Int) (done : Bool)
    (st : Nat) :
    ∃ s t u, lostAfterDescriptor id reason done = some s ∧
      conState s 0 = some CS_DISCON ∧
      reconnectUntilStateRead s 0 st = some t ∧
      newOps s t = [Op.gapConnect 1 [0xDD, 0x51, 0x51, 0x99, 0xE3, 0xCE],
                    Op.read 0 14, Op.write 0 15 [1, 0]] ∧
      conState t 0 = some CS_RECON_INIT ∧
      subscriptionWritten t 0 0 (layoutA 0) = some u ∧
      newOps t u = [] ∧
      conState u 0 = some CS_CONNECTED := by
  cases done <;>
    exact ⟨_, _, _, rfl, rfl, rfl, rfl, rfl, rfl, rfl, rfl⟩

end Daws
